import Mathlib

/-!
# rc522pi: MFRC522 reader driver and NTAG21x protocol layer

A shallow embedding of `crc.c`, `rc522c.c` and, of `pyinterface.c`, the error
mapping, `rc522_init` and `rc522_ntag_try_select`, followed by theorems about it.

Conventions of the embedding.

* Plain `char` is unsigned 8-bit (the driver is built on pigpio, i.e. for the
  Raspberry Pi, whose ABI makes `char` unsigned; with a signed `char` the test
  `rx[0] != NFC_CASCADE_TAG` at rc522c.c:168 could never be false). Bytes are
  `Nat` values below 256, `uint16_t` values are `Nat` reduced modulo 65536
  where the source assigns them, `int` values are `Int`.
* Memory buffers (`char*`, arrays) are functions from an index to a byte.
  A pointer into an array is the function shifted by the offset.
* The pigpio layer is an environment: a function from the history of all pigpio
  calls made so far to the reply to the last one, together with the log of
  calls. Every call the source makes is appended to the log.
* The `int` value `antenna_gain << 4` passed as a `char` is its value modulo 256.
* A local that the source leaves uninitialised holds an indeterminate value
  supplied by the environment.
* A local receive array `char rx[64]` holds 64 bytes. A function that owns one
  returns an `Option`: the result is `none`, the behaviour of the source being
  undefined, as soon as one of its exchanges drains more than 64 bytes into the
  array. `rc522c_transceive` itself, which only receives a pointer, is total.
* `error_line` is the value of `__LINE__` at the macro use in rc522c.c.
* A long source function is embedded as consecutive parts, each named after the
  function and annotated with the source lines it covers; a loop is a recursive
  function on the number of iterations that remain.
-/

set_option maxRecDepth 100000

namespace RC522

/-! ## crc.h / crc.c -/

/-- A memory buffer: index to byte (or to a 16-bit word for the CRC table). -/
abbrev Buf := Nat → Nat

/-- The buffer holding the given bytes (zero elsewhere), as for a C array initialiser. -/
def Buf.ofList (l : List Nat) : Buf := fun i => l.getD i 0

/-- Pointer arithmetic: the buffer `&b[off]`. -/
def Buf.shift (b : Buf) (off : Nat) : Buf := fun i => b (off + i)

/-- Store one element: `b[i] = v`. -/
def Buf.set (b : Buf) (i : Nat) (v : Nat) : Buf := fun j => if j = i then v else b j

/-- The first `n` elements of the buffer as a list. -/
def Buf.take (b : Buf) (n : Nat) : List Nat := (List.range n).map b

/-- Model of `struct crc16_ccitt`: `uint16_t lut[256]`. -/
structure crc16_ccitt where
  lut : Buf

/-- One pass of the inner loop body of `init_crc16_ccitt` (crc.c:11-14), on a `uint16_t`. -/
def init_crc16_ccitt_step (polynomial : Nat) (crc : Nat) : Nat :=
  if crc &&& 1 ≠ 0 then ((crc >>> 1) ^^^ polynomial) % 65536 else (crc >>> 1) % 65536

/-- The inner loop `for (int j = 8; j > 0; j--)` of `init_crc16_ccitt` (crc.c:9-15). -/
def init_crc16_ccitt_inner (polynomial : Nat) : Nat → Nat → Nat
  | 0, crc => crc
  | j + 1, crc => init_crc16_ccitt_inner polynomial j (init_crc16_ccitt_step polynomial crc)

/-- The outer loop `for (int i = 0; i < 256; ++i)` of `init_crc16_ccitt` (crc.c:6-17):
`n` iterations remain, the next index is `i`. -/
def init_crc16_ccitt_outer (polynomial : Nat) : Nat → Nat → Buf → Buf
  | 0, _, lut => lut
  | n + 1, i, lut =>
    let crc := i % 65536
    let crc := init_crc16_ccitt_inner polynomial 8 crc
    init_crc16_ccitt_outer polynomial n (i + 1) (Buf.set lut i crc)

/-- Model of `init_crc16_ccitt` (crc.c:3-18). -/
def init_crc16_ccitt (s : crc16_ccitt) : crc16_ccitt :=
  let polynomial := 0x8408
  { s with lut := init_crc16_ccitt_outer polynomial 256 0 s.lut }

/-- The loop of `compute_crc` (crc.c:23-24): `n` iterations remain, the next index is `i`. -/
def compute_crc_loop (s : crc16_ccitt) (inp : Buf) : Nat → Nat → Nat → Nat
  | 0, _, crc => crc
  | n + 1, i, crc =>
    compute_crc_loop s inp n (i + 1) (((crc >>> 8) ^^^ s.lut ((crc ^^^ inp i) % 256)) % 65536)

/-- Model of `compute_crc` (crc.c:20-28); the pair is `(out[0], out[1])`. -/
def compute_crc (s : crc16_ccitt) (inp : Buf) (in_len : Nat) : Nat × Nat :=
  let crc := compute_crc_loop s inp in_len 0 0x6363
  (crc &&& 0xFF, (crc >>> 8) &&& 0xFF)

/-! ## rc522c.h -/

def RC522_REG_CMD : Nat := 0x01
def RC522_REG_COM_IEN : Nat := 0x02
def RC522_REG_COM_IRQ : Nat := 0x04
def RC522_REG_ERROR : Nat := 0x06
def RC522_REG_FIFO_DATA : Nat := 0x09
def RC522_REG_FIFO_LEVEL : Nat := 0x0A
def RC522_REG_CTRL : Nat := 0x0C
def RC522_REG_BIT_FRAMING : Nat := 0x0D
def RC522_REG_MODE : Nat := 0x11
def RC522_REG_TX_CTRL : Nat := 0x14
def RC522_REG_TX_ASK : Nat := 0x15
def RC522_REG_RECV_GAIN : Nat := 0x26
def RC522_REG_TIMER_MODE : Nat := 0x2A
def RC522_REG_TIMER_PRESCALER_LO : Nat := 0x2B
def RC522_REG_TIMER_RELOAD_HI : Nat := 0x2C
def RC522_REG_TIMER_RELOAD_LO : Nat := 0x2D
def RC522_REG_VERSION : Nat := 0x37

def RC522_CMD_IDLE : Nat := 0x0
def RC522_CMD_TRANSCEIVE : Nat := 0xC

def NTAG_CMD_REQA : Nat := 0x26
def NTAG_CMD_CL1_SEL : Nat := 0x93
def NTAG_CMD_CL2_SEL : Nat := 0x95
def NTAG_CMD_SDD_REQ : Nat := 0x20
def NTAG_CMD_SEL_REQ : Nat := 0x70
def NTAG_CMD_READ : Nat := 0x30
def NTAG_CMD_WRITE : Nat := 0xA2
def NTAG_CMD_GET_VERSION : Nat := 0x60
def NTAG_CMD_PWD_AUTH : Nat := 0x1B

def NTAG_VERSION_STORAGE_SIZE_BYTE : Nat := 6
def NTAG_VERSION_STORAGE_SIZE_213 : Nat := 0x0F
def NTAG_VERSION_STORAGE_SIZE_215 : Nat := 0x11
def NTAG_VERSION_STORAGE_SIZE_216 : Nat := 0x13

def NTAG_ACKNAK_RX_BITS : Int := 4
def NTAG_ACKNAK_MASK : Nat := 0xF
def NTAG_ACK : Nat := 0xA
def NTAG_NAK_INVALID_ARG : Int := 0x0
def NTAG_NAK_CRC_ERROR : Int := 0x1
def NTAG_NAK_AUTH_CTR_OVERLOW : Int := 0x2
def NTAG_NAK_WRITE_ERROR : Int := 0x3

def NTAG_NFCID_LEN : Nat := 7
def NFC_CASCADE_TAG : Nat := 0x88
def RC522_READ_LEN : Nat := 16

/-- Model of `enum rc522c_status`. -/
inductive rc522c_status
  | SUCCESS
  | ERROR_PIGPIO
  | ERROR_DEV_CMD_FAILED
  | ERROR_DEV_NOT_RESPONDING
  | ERROR_TAG_MISSING
  | ERROR_TAG_UNSUPPORTED
  | ERROR_TAG_NAK
  deriving DecidableEq, Repr

/-- Model of `enum rc522c_tag_kind`. -/
inductive rc522c_tag_kind
  | UNKNOWN
  | KIND_213
  | KIND_215
  | KIND_216
  deriving DecidableEq, Repr

/-- Model of `struct rc522c_state`. -/
structure rc522c_state where
  spi : Int
  rst_pin : Int
  irq_pin : Int
  dev_version : Nat
  tag_selected : Int
  tag_nfcid : Buf
  tag_kind : rc522c_tag_kind
  error_line : Int
  error_code : Int
  crc : crc16_ccitt

/-! ## The pigpio environment -/

/-- A call into pigpio made by the driver: the two bus transfers of the register access
and the calls of `rc522c_init`, each with its `int` arguments. -/
inductive HalOp
  | spiWrite (handle : Int) (tx : List Nat)
  | spiXfer (handle : Int) (tx : List Nat)
  | gpioInitialise
  | spiOpen (spiChan baud spiFlags : Int)
  | gpioSetMode (gpio mode : Int)
  | gpioWrite (gpio level : Int)
  | gpioDelay (micros : Int)
  deriving DecidableEq, Repr

/-- What pigpio returns: the `int` result and, for `spiXfer`, the received bytes. -/
structure HalReply where
  status : Int
  rx : List Nat

/-- The environment of the driver: how the bus answers after a given history of calls
(the last element of the history is the call being answered), the indeterminate
contents of uninitialised locals, and the log of calls made so far. -/
structure Hal where
  respond : List HalOp → HalReply
  indet : List HalOp → Nat → Nat
  log : List HalOp

/-- Perform one pigpio call: log it and obtain the reply. -/
def Hal.call (h : Hal) (op : HalOp) : HalReply × Hal :=
  let log := h.log ++ [op]
  (h.respond log, { h with log := log })

/-- The indeterminate value of the `k`-th uninitialised `char` declared at this point. -/
def Hal.uninit (h : Hal) (k : Nat) : Nat := h.indet h.log k % 256

/-- The indeterminate contents of an uninitialised `char` array declared at this point. -/
def Hal.uninitBuf (h : Hal) : Buf := fun k => h.indet h.log k % 256

/-! ## rc522c.c: register access -/

/-- Model of `spi_write_byte` (rc522c.c:18-24). -/
def spi_write_byte (s : rc522c_state) (h : Hal) (addr : Nat) (val : Nat) : Int × Hal :=
  let tx := [(addr <<< 1) % 256, val % 256]
  let (r, h) := h.call (HalOp.spiWrite s.spi tx)
  (r.status, h)

/-- Model of `spi_read_byte` (rc522c.c:26-35); `val` is the current content of `*val`,
the second component of the result its content on return. -/
def spi_read_byte (s : rc522c_state) (h : Hal) (addr : Nat) (val : Nat) : Int × Nat × Hal :=
  let tx := [((addr <<< 1) ||| 0x80) % 256, 0]
  let (r, h) := h.call (HalOp.spiXfer s.spi tx)
  let status := r.status
  let val := if status > 0 then r.rx.getD 1 0 % 256 else val
  (status, val, h)

/-- The assignments of `CHECK_PIGPIO` and `RETURN_RC522C_ERROR` before returning. -/
def set_error (s : rc522c_state) (line : Int) (code : Int) : rc522c_state :=
  { s with error_line := line, error_code := code }

/-- The environment after the further calls `ops`: same bus, longer log. -/
def Hal.push (h : Hal) (ops : List HalOp) : Hal := { h with log := h.log ++ ops }

/-- The pigpio call made by `spi_write_byte` for register `addr` and value `val`. -/
def spi_write_op (s : rc522c_state) (addr val : Nat) : HalOp :=
  HalOp.spiWrite s.spi [(addr <<< 1) % 256, val % 256]

/-- The pigpio call made by `spi_read_byte` for register `addr`. -/
def spi_read_op (s : rc522c_state) (addr : Nat) : HalOp :=
  HalOp.spiXfer s.spi [((addr <<< 1) ||| 0x80) % 256, 0]

/-! ## rc522c.c: the transceive engine -/

/-- What `rc522c_transceive` leaves behind: the returned status, the device state, the
environment, and the caller's `rx` and `*rx_bits`. -/
structure transceive_result where
  status : rc522c_status
  s : rc522c_state
  h : Hal
  rx : Buf
  rx_bits : Int

/-- The loop at rc522c.c:82-83 writing the request into the FIFO: `n` iterations remain,
the next index is `i`. Returns `some ret` when `CHECK_PIGPIO` fails with `ret`. -/
def transceive_tx_loop (s : rc522c_state) (tx : Buf) : Nat → Nat → Hal → Option Int × Hal
  | 0, _, h => (none, h)
  | n + 1, i, h =>
    let (ret, h) := spi_write_byte s h RC522_REG_FIFO_DATA (tx i)
    if ret < 0 then (some ret, h) else transceive_tx_loop s tx n (i + 1) h

/-- The polling loop at rc522c.c:91-96: `n` iterations remain, `irq` is the current
content of the local. Returns `some ret` when `CHECK_PIGPIO` fails with `ret`. -/
def transceive_poll_loop (s : rc522c_state) : Nat → Nat → Hal → Option Int × Nat × Hal
  | 0, irq, h => (none, irq, h)
  | n + 1, irq, h =>
    let (ret, irq, h) := spi_read_byte s h RC522_REG_COM_IRQ irq
    if ret < 0 then (some ret, irq, h) else
    if irq &&& 0x31 ≠ 0 then (none, irq, h) else transceive_poll_loop s n irq h

/-- The loop at rc522c.c:128-129 draining the FIFO into `rx`: `n` iterations remain,
the next index is `i`. Returns `some ret` when `CHECK_PIGPIO` fails with `ret`. -/
def transceive_rx_loop (s : rc522c_state) : Nat → Nat → Buf → Hal → Option Int × Buf × Hal
  | 0, _, rx, h => (none, rx, h)
  | n + 1, i, rx, h =>
    let (ret, v, h) := spi_read_byte s h RC522_REG_FIFO_DATA (rx i)
    let rx := Buf.set rx i v
    if ret < 0 then (some ret, rx, h) else transceive_rx_loop s n (i + 1) rx h

/-- The first part of `rc522c_transceive` (rc522c.c:75-87): prepare the chip, load the
request into the FIFO and start the transmission. Returns `some (line, ret)` when the
`CHECK_PIGPIO` at `line` fails with `ret`. -/
def transceive_send (s : rc522c_state) (h : Hal) (tx : Buf) (tx_bits : Nat) :
    Option (Int × Int) × Hal :=
  let (ret, h) := spi_write_byte s h RC522_REG_COM_IRQ 0x7F
  if ret < 0 then (some (75, ret), h) else
  let (ret, h) := spi_write_byte s h RC522_REG_COM_IEN (0x80 ||| 0x77)
  if ret < 0 then (some (76, ret), h) else
  let (ret, h) := spi_write_byte s h RC522_REG_FIFO_LEVEL 0x80
  if ret < 0 then (some (77, ret), h) else
  let (ret, h) := spi_write_byte s h RC522_REG_CMD RC522_CMD_IDLE
  if ret < 0 then (some (78, ret), h) else
  let tx_bytes := (tx_bits + 7) / 8
  match transceive_tx_loop s tx tx_bytes 0 h with
  | (some ret, h) => (some (83, ret), h)
  | (none, h) =>
  let (ret, h) := spi_write_byte s h RC522_REG_CMD RC522_CMD_TRANSCEIVE
  if ret < 0 then (some (85, ret), h) else
  let (ret, h) := spi_write_byte s h RC522_REG_BIT_FRAMING (0x80 ||| (tx_bits % 8))
  if ret < 0 then (some (87, ret), h) else
  (none, h)

/-- The last part of `rc522c_transceive` (rc522c.c:98-131), after the polling loop has
left `irq`: classify the outcome and drain the FIFO. -/
def transceive_receive (s : rc522c_state) (h : Hal) (irq : Nat) (rx : Buf) (rx_bits : Int) :
    transceive_result :=
  let (ret, h) := spi_write_byte s h RC522_REG_BIT_FRAMING 0
  if ret < 0 then ⟨ rc522c_status.ERROR_PIGPIO, set_error s 98 ret, h, rx, rx_bits⟩ else
  let error := h.uninit 1
  let (ret, error, h) := spi_read_byte s h RC522_REG_ERROR error
  if ret < 0 then ⟨ rc522c_status.ERROR_PIGPIO, set_error s 101 ret, h, rx, rx_bits⟩ else
  let error := error &&& 0xDB
  if error ≠ 0 then ⟨.ERROR_DEV_CMD_FAILED, set_error s 104 error, h, rx, rx_bits⟩ else
  if irq &&& 0x1 ≠ 0 then ⟨.ERROR_TAG_MISSING, set_error s 108 error, h, rx, rx_bits⟩ else
  let rx_bytes := h.uninit 2
  let (ret, rx_bytes, h) := spi_read_byte s h RC522_REG_FIFO_LEVEL rx_bytes
  if ret < 0 then ⟨ rc522c_status.ERROR_PIGPIO, set_error s 111 ret, h, rx, rx_bits⟩ else
  if rx_bytes = 0 then ⟨.ERROR_TAG_MISSING, set_error s 115 error, h, rx, rx_bits⟩ else
  let ctrl := h.uninit 3
  let (ret, ctrl, h) := spi_read_byte s h RC522_REG_CTRL ctrl
  if ret < 0 then ⟨ rc522c_status.ERROR_PIGPIO, set_error s 118 ret, h, rx, rx_bits⟩ else
  let rx_bits : Int := (rx_bytes : Int) * 8
  let valid_bits_in_last_rx_byte := ctrl &&& 0x7
  let rx_bits : Int :=
    if valid_bits_in_last_rx_byte ≠ 0 then rx_bits - (8 - (valid_bits_in_last_rx_byte : Int))
    else rx_bits
  let rx_bytes := if rx_bytes = 0 ∧ rx_bits > 0 then 1 else rx_bytes
  match transceive_rx_loop s rx_bytes 0 rx h with
  | (some ret, rx, h) => ⟨ rc522c_status.ERROR_PIGPIO, set_error s 129 ret, h, rx, rx_bits⟩
  | (none, rx, h) => ⟨.SUCCESS, s, h, rx, rx_bits⟩

/-- Model of `rc522c_transceive` (rc522c.c:73-132). `tx_bits` is the number of bits to
send (every caller passes a positive constant); `rx` and `rx_bits` are the contents of
the caller's buffer and of `*rx_bits` on entry. -/
def rc522c_transceive (s : rc522c_state) (h : Hal) (tx : Buf) (tx_bits : Nat)
    (rx : Buf) (rx_bits : Int) : transceive_result :=
  match transceive_send s h tx tx_bits with
  | (some (line, ret), h) => ⟨ rc522c_status.ERROR_PIGPIO, set_error s line ret, h, rx, rx_bits⟩
  | (none, h) =>
  let irq := h.uninit 0
  match transceive_poll_loop s 2000 irq h with
  | (some ret, _, h) => ⟨ rc522c_status.ERROR_PIGPIO, set_error s 93 ret, h, rx, rx_bits⟩
  | (none, irq, h) => transceive_receive s h irq rx rx_bits

/-! ## rc522c.c: the NTAG21x protocol layer -/

/-- `memcpy(dst, src, n)`. -/
def Buf.memcpy (dst src : Buf) (n : Nat) : Buf := fun i => if i < n then src i else dst i

/-- What a protocol function without output buffer leaves behind. -/
structure status_result where
  status : rc522c_status
  s : rc522c_state
  h : Hal

/-- What a protocol function with an output buffer (`out`, `out_pack`) leaves behind. -/
structure out_result where
  status : rc522c_status
  s : rc522c_state
  h : Hal
  out : Buf

/-- The number of passes the drain loop of `rc522c_transceive` (rc522c.c:128-129) made in
the call that led from the environment `h` to the result `r`: each pass makes one read
of the FIFO data register and nothing else in the function reads that register. Pass
number `i` hands `&rx[i]` to `spi_read_byte`. -/
def rx_stores (s : rc522c_state) (h : Hal) (r : transceive_result) : Nat :=
  r.h.log.count (spi_read_op s RC522_REG_FIFO_DATA)
    - h.log.count (spi_read_op s RC522_REG_FIFO_DATA)

/-- The outcome of a call of `rc522c_transceive` whose `rx` is a local array
`char rx[64]` (rc522c.c:136, 254, 282, 303), `r` being what the call leaves when `rx` is
followed by enough memory. Pass 64 of the drain loop hands `&rx[64]`, the address one
past the end of the array, to `spi_read_byte`, which stores through it when the transfer
succeeds, and every later pass forms an address beyond that, which C leaves undefined: a
call whose drain loop made more than 64 passes has no result here (`none`). This
includes the run whose pass 64 is the last one and stores nothing. -/
def rx64 (s : rc522c_state) (h : Hal) (r : transceive_result) : Option transceive_result :=
  if 64 < rx_stores s h r then none else some r

/-- The REQA exchange of `rc522c_ntag_select` (rc522c.c:141-142); `rx` and `rx_bits` are
the locals of the enclosing function. -/
def rc522c_ntag_select_reqa (s : rc522c_state) (h : Hal) (rx : Buf) (rx_bits : Int) :
    transceive_result :=
  let tx_reqa := Buf.ofList [NTAG_CMD_REQA]
  rc522c_transceive s h tx_reqa 7 rx rx_bits

/-- The array `cl_selectors` of `rc522c_ntag_select` (rc522c.c:147). -/
def cl_selectors : Buf := Buf.ofList [NTAG_CMD_CL1_SEL, NTAG_CMD_CL2_SEL]

/-- The anti-collision (SDD_REQ) exchange of cascade level `cl` (rc522c.c:153-154). -/
def rc522c_ntag_select_sdd (cl : Nat) (s : rc522c_state) (h : Hal) (rx : Buf) (rx_bits : Int) :
    transceive_result :=
  let tx_sdd := Buf.ofList [cl_selectors cl, NTAG_CMD_SDD_REQ]
  rc522c_transceive s h tx_sdd (2 * 8) rx rx_bits

/-- The stores into `s->tag_nfcid` of cascade level `cl` (rc522c.c:170-172, 176-179). -/
def rc522c_ntag_select_nfcid (cl : Nat) (s : rc522c_state) (rx : Buf) : rc522c_state :=
  if cl = 0 then
    { s with tag_nfcid := ((s.tag_nfcid.set 0 (rx 1)).set 1 (rx 2)).set 2 (rx 3) }
  else
    { s with tag_nfcid := (((s.tag_nfcid.set 3 (rx 0)).set 4 (rx 1)).set 5 (rx 2)).set 6 (rx 3) }

/-- The select (SEL_REQ) exchange of cascade level `cl` (rc522c.c:185-190); `rx` holds the
anti-collision reply. -/
def rc522c_ntag_select_sel (cl : Nat) (s : rc522c_state) (h : Hal) (rx : Buf) (rx_bits : Int) :
    transceive_result :=
  let tx_sel := Buf.ofList [cl_selectors cl, NTAG_CMD_SEL_REQ, rx 0, rx 1, rx 2, rx 3, rx 4, 0, 0]
  let crc := compute_crc s.crc tx_sel 7
  let tx_sel := (tx_sel.set 7 crc.1).set 8 crc.2
  rc522c_transceive s h tx_sel (9 * 8) rx rx_bits

/-- The checks on the select reply `r` that end one pass of the cascade-level loop of
`rc522c_ntag_select` (rc522c.c:191-211), `cl` being the level. -/
def rc522c_ntag_select_cl_end (cl : Nat) (r : transceive_result) : transceive_result :=
  if r.status ≠ .SUCCESS then r else
  let s := r.s
  let h := r.h
  let rx := r.rx
  let rx_bits := r.rx_bits
  if rx_bits ≠ 24 then ⟨.ERROR_TAG_UNSUPPORTED, set_error s 193 0, h, rx, rx_bits⟩ else
  let sel_crc := compute_crc s.crc rx 1
  if sel_crc.1 ≠ rx 1 ∨ sel_crc.2 ≠ rx 2 then
    ⟨.ERROR_TAG_UNSUPPORTED, set_error s 197 0, h, rx, rx_bits⟩ else
  if cl = 0 then
    if rx 0 &&& 0x04 = 0 then ⟨.ERROR_TAG_UNSUPPORTED, set_error s 203 0, h, rx, rx_bits⟩
    else ⟨.SUCCESS, s, h, rx, rx_bits⟩
  else
    if rx 0 &&& 0x04 ≠ 0 then ⟨.ERROR_TAG_UNSUPPORTED, set_error s 210 0, h, rx, rx_bits⟩
    else ⟨.SUCCESS, s, h, rx, rx_bits⟩

/-- The body of the cascade-level loop of `rc522c_ntag_select` (rc522c.c:149-211) for
the given `cl`; `rx` and `rx_bits` are the locals of the enclosing function, `rx` being
its `char rx[64]`. The result is `none` when one of the two exchanges went past the end
of `rx`. -/
def rc522c_ntag_select_cl (cl : Nat) (s : rc522c_state) (h : Hal) (rx : Buf) (rx_bits : Int) :
    Option transceive_result :=
  (rx64 s h (rc522c_ntag_select_sdd cl s h rx rx_bits)).bind fun r =>
  if r.status ≠ .SUCCESS then some r else
  let s := r.s
  let h := r.h
  let rx := r.rx
  let rx_bits := r.rx_bits
  if rx_bits ≠ 5 * 8 then some ⟨.ERROR_TAG_UNSUPPORTED, set_error s 159 0, h, rx, rx_bits⟩ else
  let bcc_check := (rx 0 ^^^ rx 1 ^^^ rx 2 ^^^ rx 3) % 256
  if bcc_check ≠ rx 4 then some ⟨.ERROR_TAG_UNSUPPORTED, set_error s 162 0, h, rx, rx_bits⟩ else
  if cl = 0 ∧ rx 0 ≠ NFC_CASCADE_TAG then
    some ⟨.ERROR_TAG_UNSUPPORTED, set_error s 169 0, h, rx, rx_bits⟩ else
  let s := rc522c_ntag_select_nfcid cl s rx
  (rx64 s h (rc522c_ntag_select_sel cl s h rx rx_bits)).bind fun r =>
  some (rc522c_ntag_select_cl_end cl r)

/-- The GET_VERSION exchange of `rc522c_ntag_select` (rc522c.c:216-218). -/
def rc522c_ntag_select_get_version (s : rc522c_state) (h : Hal) (rx : Buf) (rx_bits : Int) :
    transceive_result :=
  let tx_get_version := Buf.ofList [NTAG_CMD_GET_VERSION, 0, 0]
  let crc := compute_crc s.crc tx_get_version 1
  let tx_get_version := (tx_get_version.set 1 crc.1).set 2 crc.2
  rc522c_transceive s h tx_get_version (3 * 8) rx rx_bits

/-- The checks on the GET_VERSION reply `r` and the end of `rc522c_ntag_select`
(rc522c.c:219-249). -/
def rc522c_ntag_select_version_end (r : transceive_result) : status_result :=
  if r.status ≠ .SUCCESS then ⟨r.status, r.s, r.h⟩ else
  let s := r.s
  let h := r.h
  let rx := r.rx
  let rx_bits := r.rx_bits
  let acknak := rx 0 &&& NTAG_ACKNAK_MASK
  if rx_bits = NTAG_ACKNAK_RX_BITS ∧ acknak ≠ NTAG_ACK then
    ⟨.ERROR_TAG_NAK, set_error s 222 acknak, h⟩ else
  if rx_bits ≠ 10 * 8 then ⟨.ERROR_TAG_UNSUPPORTED, set_error s 225 0, h⟩ else
  let crc := compute_crc s.crc rx 8
  if crc.1 ≠ rx 8 ∨ crc.2 ≠ rx 9 then ⟨.ERROR_TAG_UNSUPPORTED, set_error s 229 0, h⟩ else
  let size := rx NTAG_VERSION_STORAGE_SIZE_BYTE
  if size = NTAG_VERSION_STORAGE_SIZE_213 then
    ⟨.SUCCESS, { s with tag_kind := .KIND_213, tag_selected := 1 }, h⟩
  else if size = NTAG_VERSION_STORAGE_SIZE_215 then
    ⟨.SUCCESS, { s with tag_kind := .KIND_215, tag_selected := 1 }, h⟩
  else if size = NTAG_VERSION_STORAGE_SIZE_216 then
    ⟨.SUCCESS, { s with tag_kind := .KIND_216, tag_selected := 1 }, h⟩
  else ⟨.ERROR_TAG_UNSUPPORTED, set_error s 243 0, h⟩

/-- The GET_VERSION block of `rc522c_ntag_select` and the function's end
(rc522c.c:215-249); `none` when the exchange went past the end of `rx`. -/
def rc522c_ntag_select_version (s : rc522c_state) (h : Hal) (rx : Buf) (rx_bits : Int) :
    Option status_result :=
  (rx64 s h (rc522c_ntag_select_get_version s h rx rx_bits)).bind fun r =>
  some (rc522c_ntag_select_version_end r)

/-- Model of `rc522c_ntag_select` (rc522c.c:134-250). The local `char rx[64]` holds 64
bytes: the result is `none` (the behaviour of the source is not defined) as soon as an
exchange drains more than 64 bytes into it. -/
def rc522c_ntag_select (s : rc522c_state) (h : Hal) : Option status_result :=
  let rx := h.uninitBuf
  let rx_bits : Int := h.uninit 64
  let s := { s with tag_selected := 0 }
  (rx64 s h (rc522c_ntag_select_reqa s h rx rx_bits)).bind fun r =>
  if r.status ≠ .SUCCESS then some ⟨r.status, r.s, r.h⟩ else
  if r.rx_bits ≠ 16 then some ⟨.ERROR_TAG_UNSUPPORTED, set_error r.s 144 0, r.h⟩ else
  (rc522c_ntag_select_cl 0 r.s r.h r.rx r.rx_bits).bind fun r =>
  if r.status ≠ .SUCCESS then some ⟨r.status, r.s, r.h⟩ else
  (rc522c_ntag_select_cl 1 r.s r.h r.rx r.rx_bits).bind fun r =>
  if r.status ≠ .SUCCESS then some ⟨r.status, r.s, r.h⟩ else
  rc522c_ntag_select_version r.s r.h r.rx r.rx_bits

/-- The READ exchange of `rc522c_ntag_read` (rc522c.c:254-255, 260-262); `start_page` is
the `char` argument. The local `char rx[64]` holds 64 bytes: `none` when the exchange
drained more than 64 bytes into it. -/
def rc522c_ntag_read_xfer (s : rc522c_state) (h : Hal) (start_page : Nat) :
    Option transceive_result :=
  let rx := h.uninitBuf
  let rx_bits : Int := h.uninit 64
  let tx_read := Buf.ofList [NTAG_CMD_READ, start_page, 0, 0]
  let crc := compute_crc s.crc tx_read 2
  let tx_read := (tx_read.set 2 crc.1).set 3 crc.2
  rx64 s h (rc522c_transceive s h tx_read (4 * 8) rx rx_bits)

/-- The part of `rc522c_ntag_read` after the exchange that left `r` (rc522c.c:263-277);
`out` is the content of the caller's buffer on entry. -/
def rc522c_ntag_read_end (r : transceive_result) (out : Buf) : out_result :=
  if r.status ≠ .SUCCESS then ⟨r.status, r.s, r.h, out⟩ else
  let s := r.s
  let h := r.h
  let rx := r.rx
  let rx_bits := r.rx_bits
  let acknak := rx 0 &&& NTAG_ACKNAK_MASK
  if rx_bits = NTAG_ACKNAK_RX_BITS ∧ acknak ≠ NTAG_ACK then
    ⟨.ERROR_TAG_NAK, set_error s 267 acknak, h, out⟩ else
  if rx_bits ≠ ((RC522_READ_LEN + 2) * 8 : Nat) then
    ⟨.ERROR_TAG_UNSUPPORTED, set_error s 270 0, h, out⟩ else
  let crc := compute_crc s.crc rx RC522_READ_LEN
  if crc.1 ≠ rx 16 ∨ crc.2 ≠ rx 17 then
    ⟨.ERROR_TAG_UNSUPPORTED, set_error s 274 0, h, out⟩ else
  ⟨.SUCCESS, s, h, Buf.memcpy out rx RC522_READ_LEN⟩

/-- Model of `rc522c_ntag_read` (rc522c.c:252-278); `out` is the content of the caller's
buffer on entry. -/
def rc522c_ntag_read (s : rc522c_state) (h : Hal) (start_page : Nat) (out : Buf) :
    Option out_result :=
  if s.tag_selected = 0 then some ⟨.ERROR_TAG_MISSING, set_error s 258 0, h, out⟩ else
  (rc522c_ntag_read_xfer s h start_page).bind fun r =>
  some (rc522c_ntag_read_end r out)

/-- The WRITE exchange of `rc522c_ntag_write` (rc522c.c:282-283, 288-290); `page` is the
`char` argument. The local `char rx[64]` holds 64 bytes: `none` when the exchange
drained more than 64 bytes into it. -/
def rc522c_ntag_write_xfer (s : rc522c_state) (h : Hal) (page : Nat) (inp : Buf) :
    Option transceive_result :=
  let rx := h.uninitBuf
  let rx_bits : Int := h.uninit 64
  let tx_write := Buf.ofList [NTAG_CMD_WRITE, page, inp 0, inp 1, inp 2, inp 3, 0, 0]
  let crc := compute_crc s.crc tx_write 6
  let tx_write := (tx_write.set 6 crc.1).set 7 crc.2
  rx64 s h (rc522c_transceive s h tx_write (8 * 8) rx rx_bits)

/-- The part of `rc522c_ntag_write` after the exchange that left `r`
(rc522c.c:291-298). -/
def rc522c_ntag_write_end (r : transceive_result) : status_result :=
  if r.status ≠ .SUCCESS then ⟨r.status, r.s, r.h⟩ else
  let s := r.s
  let h := r.h
  let rx := r.rx
  let rx_bits := r.rx_bits
  if rx_bits ≠ NTAG_ACKNAK_RX_BITS then ⟨.ERROR_TAG_UNSUPPORTED, set_error s 293 0, h⟩ else
  let acknak := rx 0 &&& NTAG_ACKNAK_MASK
  if acknak ≠ NTAG_ACK then ⟨.ERROR_TAG_NAK, set_error s 296 acknak, h⟩ else
  ⟨.SUCCESS, s, h⟩

/-- Model of `rc522c_ntag_write` (rc522c.c:280-299). -/
def rc522c_ntag_write (s : rc522c_state) (h : Hal) (page : Nat) (inp : Buf) :
    Option status_result :=
  if s.tag_selected = 0 then some ⟨.ERROR_TAG_MISSING, set_error s 286 0, h⟩ else
  (rc522c_ntag_write_xfer s h page inp).bind fun r =>
  some (rc522c_ntag_write_end r)

/-- The PWD_AUTH exchange of `rc522c_ntag_authenticate` (rc522c.c:303-304, 309-311). The
local `char rx[64]` holds 64 bytes: `none` when the exchange drained more than 64 bytes
into it. -/
def rc522c_ntag_authenticate_xfer (s : rc522c_state) (h : Hal) (pwd : Buf) :
    Option transceive_result :=
  let rx := h.uninitBuf
  let rx_bits : Int := h.uninit 64
  let tx_auth := Buf.ofList [NTAG_CMD_PWD_AUTH, pwd 0, pwd 1, pwd 2, pwd 3, 0, 0]
  let crc := compute_crc s.crc tx_auth 5
  let tx_auth := (tx_auth.set 5 crc.1).set 6 crc.2
  rx64 s h (rc522c_transceive s h tx_auth (7 * 8) rx rx_bits)

/-- The part of `rc522c_ntag_authenticate` after the exchange that left `r`
(rc522c.c:312-328); `out` is the content of the caller's `out_pack` on entry. -/
def rc522c_ntag_authenticate_end (r : transceive_result) (out : Buf) : out_result :=
  if r.status ≠ .SUCCESS then ⟨r.status, r.s, r.h, out⟩ else
  let s := r.s
  let h := r.h
  let rx := r.rx
  let rx_bits := r.rx_bits
  let acknak := rx 0 &&& NTAG_ACKNAK_MASK
  if rx_bits = NTAG_ACKNAK_RX_BITS ∧ acknak ≠ NTAG_ACK then
    ⟨.ERROR_TAG_NAK, set_error s 316 acknak, h, out⟩ else
  if rx_bits ≠ 4 * 8 then ⟨.ERROR_TAG_UNSUPPORTED, set_error s 319 0, h, out⟩ else
  let crc := compute_crc s.crc rx 2
  if crc.1 ≠ rx 2 ∨ crc.2 ≠ rx 3 then ⟨.ERROR_TAG_UNSUPPORTED, set_error s 323 0, h, out⟩ else
  ⟨.SUCCESS, s, h, (out.set 0 (rx 0)).set 1 (rx 1)⟩

/-- Model of `rc522c_ntag_authenticate` (rc522c.c:301-329); `out` is the content of the
caller's `out_pack` on entry. -/
def rc522c_ntag_authenticate (s : rc522c_state) (h : Hal) (pwd : Buf) (out : Buf) :
    Option out_result :=
  if s.tag_selected = 0 then some ⟨.ERROR_TAG_MISSING, set_error s 307 0, h, out⟩ else
  (rc522c_ntag_authenticate_xfer s h pwd).bind fun r =>
  some (rc522c_ntag_authenticate_end r out)

/-- The `switch` on `s->tag_kind` at the head of `rc522c_ntag_protect` (rc522c.c:335-348):
the configuration start page, or `none` for the `default` branch. -/
def protect_config_start_page (k : rc522c_tag_kind) : Option Nat :=
  match k with
  | .KIND_213 => some 0x29
  | .KIND_215 => some 0x83
  | .KIND_216 => some 0xE3
  | _ => none

/-- Model of `rc522c_ntag_protect` (rc522c.c:331-375); `start_page` and `rw` are the
`int` arguments. The result is `none` when one of its operations has none. -/
def rc522c_ntag_protect (s : rc522c_state) (h : Hal) (pwd pack : Buf) (start_page : Int)
    (rw : Int) : Option status_result :=
  match protect_config_start_page s.tag_kind with
  | none => some ⟨.ERROR_TAG_UNSUPPORTED, set_error s 347 0, h⟩
  | some config_start_page =>
  (rc522c_ntag_write s h ((config_start_page + 2) % 256) pwd).bind fun r =>
  if r.status ≠ .SUCCESS then some r else
  let config_data := r.h.uninitBuf
  (rc522c_ntag_read r.s r.h (config_start_page % 256) config_data).bind fun r =>
  if r.status ≠ .SUCCESS then some ⟨r.status, r.s, r.h⟩ else
  let config_data := r.out
  let config_data := config_data.set 3 (start_page % 256).toNat
  (rc522c_ntag_write r.s r.h (config_start_page % 256) (config_data.shift 0)).bind fun r =>
  if r.status ≠ .SUCCESS then some r else
  let config_data := config_data.set 12 (pack 0)
  let config_data := config_data.set 13 (pack 1)
  (rc522c_ntag_write r.s r.h ((config_start_page + 3) % 256) (config_data.shift 12)).bind
    fun r =>
  if r.status ≠ .SUCCESS then some r else
  let config_data :=
    if rw ≠ 0 then config_data.set 4 ((config_data 4 ||| 0x80) % 256)
    else config_data.set 4 ((config_data 4 &&& 0x7F) % 256)
  rc522c_ntag_write r.s r.h ((config_start_page + 1) % 256) (config_data.shift 4)

/-! ## rc522c.c: initialisation -/

/-- The pigpio constants `PI_OUTPUT`, `PI_LOW` and `PI_HIGH` (pigpio.h). -/
def PI_OUTPUT : Int := 1
def PI_LOW : Int := 0
def PI_HIGH : Int := 1

/-- Model of `init_dev` (rc522c.c:37-69). The value written to the gain register is the
`int` `antenna_gain << 4` converted to `char`. -/
def init_dev (s : rc522c_state) (h : Hal) (antenna_gain : Int) : status_result :=
  let s := { s with dev_version := 0 }
  let (ret, v, h) := spi_read_byte s h RC522_REG_VERSION s.dev_version
  let s := { s with dev_version := v }
  if ret < 0 then ⟨ rc522c_status.ERROR_PIGPIO, set_error s 42 ret, h⟩ else
  if s.dev_version = 0 then ⟨.ERROR_DEV_NOT_RESPONDING, set_error s 44 0, h⟩ else
  let (ret, h) := spi_write_byte s h RC522_REG_TIMER_MODE 0x8D
  if ret < 0 then ⟨ rc522c_status.ERROR_PIGPIO, set_error s 48 ret, h⟩ else
  let (ret, h) := spi_write_byte s h RC522_REG_TIMER_PRESCALER_LO 0x3E
  if ret < 0 then ⟨ rc522c_status.ERROR_PIGPIO, set_error s 49 ret, h⟩ else
  let (ret, h) := spi_write_byte s h RC522_REG_TIMER_RELOAD_HI 0
  if ret < 0 then ⟨ rc522c_status.ERROR_PIGPIO, set_error s 50 ret, h⟩ else
  let (ret, h) := spi_write_byte s h RC522_REG_TIMER_RELOAD_LO 30
  if ret < 0 then ⟨ rc522c_status.ERROR_PIGPIO, set_error s 51 ret, h⟩ else
  let (ret, h) := spi_write_byte s h RC522_REG_TX_ASK 0x40
  if ret < 0 then ⟨ rc522c_status.ERROR_PIGPIO, set_error s 54 ret, h⟩ else
  let (ret, h) := spi_write_byte s h RC522_REG_MODE 0x3D
  if ret < 0 then ⟨ rc522c_status.ERROR_PIGPIO, set_error s 56 ret, h⟩ else
  let (ret, h) := spi_write_byte s h RC522_REG_RECV_GAIN ((antenna_gain * 16) % 256).toNat
  if ret < 0 then ⟨ rc522c_status.ERROR_PIGPIO, set_error s 60 ret, h⟩ else
  let tx_state := h.uninit 0
  let (ret, tx_state, h) := spi_read_byte s h RC522_REG_TX_CTRL tx_state
  if ret < 0 then ⟨ rc522c_status.ERROR_PIGPIO, set_error s 64 ret, h⟩ else
  if tx_state &&& 0x03 = 0 then
    let (ret, h) := spi_write_byte s h RC522_REG_TX_CTRL (tx_state ||| 0x03)
    if ret < 0 then ⟨ rc522c_status.ERROR_PIGPIO, set_error s 66 ret, h⟩ else
    ⟨.SUCCESS, s, h⟩
  else ⟨.SUCCESS, s, h⟩

/-- Model of `rc522c_init` (rc522c.c:377-401). `s` is the caller's structure, which
`memset` overwrites with zeros; the result of `gpioDelay` is not looked at. -/
def rc522c_init (s : rc522c_state) (h : Hal) (spi_baud_rate antenna_gain rst_pin : Int) :
    status_result :=
  let s : rc522c_state :=
    { s with spi := 0, rst_pin := 0, irq_pin := 0, dev_version := 0, tag_selected := 0,
             tag_nfcid := fun _ => 0, tag_kind := .UNKNOWN, error_line := 0, error_code := 0,
             crc := ⟨fun _ => 0⟩ }
  let s := { s with crc := init_crc16_ccitt s.crc }
  let (r, h) := h.call HalOp.gpioInitialise
  if r.status < 0 then ⟨ rc522c_status.ERROR_PIGPIO, set_error s 382 r.status, h⟩ else
  let (r, h) := h.call (HalOp.spiOpen 0 spi_baud_rate 0)
  let s := { s with spi := r.status }
  if r.status < 0 then ⟨ rc522c_status.ERROR_PIGPIO, set_error s 383 r.status, h⟩ else
  let s := { s with rst_pin := rst_pin }
  let (r, h) := h.call (HalOp.gpioSetMode rst_pin PI_OUTPUT)
  if r.status < 0 then ⟨ rc522c_status.ERROR_PIGPIO, set_error s 386 r.status, h⟩ else
  let (r, h) := h.call (HalOp.gpioWrite rst_pin PI_LOW)
  if r.status < 0 then ⟨ rc522c_status.ERROR_PIGPIO, set_error s 392 r.status, h⟩ else
  let (_, h) := h.call (HalOp.gpioDelay 10)
  let (r, h) := h.call (HalOp.gpioWrite rst_pin PI_HIGH)
  if r.status < 0 then ⟨ rc522c_status.ERROR_PIGPIO, set_error s 397 r.status, h⟩ else
  let (_, h) := h.call (HalOp.gpioDelay 400)
  init_dev s h antenna_gain

/-! ## pyinterface.c: mapping a status onto an exception -/

/-- The exception classes created in `PyInit_rc522pi`. -/
inductive PyExc
  | RC522Error
  | RC522TagError
  deriving DecidableEq, Repr

/-- The message formats used by `_raise_error`, with their `%d` arguments. -/
inductive ErrText
  /-- Format string: pigpio error: code %d (rc522c.c:%d) -/
  | pigpio_error (code line : Int)
  /-- Format string: device command failed with error %d (rc522c.c:%d) -/
  | device_command_failed (code line : Int)
  /-- Format string: device does not respond to commands -/
  | device_does_not_respond
  /-- Format string: no response from the tag (rc522c.c:%d) -/
  | no_response_from_the_tag (line : Int)
  /-- Format string: unsupported tag (rc522c.c:%d) -/
  | unsupported_tag (line : Int)
  /-- Format string: NAK: invalid command argument (rc522c.c:%d) -/
  | nak_invalid_command_argument (line : Int)
  /-- Format string: NAK: parity or CRC error (rc522c.c:%d) -/
  | nak_parity_or_crc_error (line : Int)
  /-- Format string: NAK: authentication counter overflow (rc522c.c:%d) -/
  | nak_authentication_counter_overflow (line : Int)
  /-- Format string: NAK: write error (rc522c.c:%d) -/
  | nak_write_error (line : Int)
  /-- Format string: NAK: %d (rc522c.c:%d) -/
  | nak_other (code line : Int)
  /-- Format string: unhandled status code %d in Python interface (internal error code %d, encountered at rc522c.c:%d) -/
  | unhandled_status_code (status code line : Int)
  deriving DecidableEq, Repr

/-- The integer value of an `enum rc522c_status` constant (rc522c.h:65-74). -/
def rc522c_status.toInt : rc522c_status → Int
  | .SUCCESS => 0
  | rc522c_status.ERROR_PIGPIO => -1
  | .ERROR_DEV_CMD_FAILED => -2
  | .ERROR_DEV_NOT_RESPONDING => -3
  | .ERROR_TAG_MISSING => -4
  | .ERROR_TAG_UNSUPPORTED => -5
  | .ERROR_TAG_NAK => -6

/-- Model of `_raise_error` (pyinterface.c:15-64): the exception class and message set. -/
def _raise_error (cstate : rc522c_state) (status : rc522c_status) : PyExc × ErrText :=
  match status with
  | rc522c_status.ERROR_PIGPIO => (.RC522Error, .pigpio_error cstate.error_code cstate.error_line)
  | .ERROR_DEV_CMD_FAILED =>
    (.RC522Error, .device_command_failed cstate.error_code cstate.error_line)
  | .ERROR_DEV_NOT_RESPONDING => (.RC522Error, .device_does_not_respond)
  | .ERROR_TAG_MISSING => (.RC522TagError, .no_response_from_the_tag cstate.error_line)
  | .ERROR_TAG_UNSUPPORTED => (.RC522TagError, .unsupported_tag cstate.error_line)
  | .ERROR_TAG_NAK =>
    if cstate.error_code = NTAG_NAK_INVALID_ARG then
      (.RC522TagError, .nak_invalid_command_argument cstate.error_line)
    else if cstate.error_code = NTAG_NAK_CRC_ERROR then
      (.RC522TagError, .nak_parity_or_crc_error cstate.error_line)
    else if cstate.error_code = NTAG_NAK_AUTH_CTR_OVERLOW then
      (.RC522TagError, .nak_authentication_counter_overflow cstate.error_line)
    else if cstate.error_code = NTAG_NAK_WRITE_ERROR then
      (.RC522TagError, .nak_write_error cstate.error_line)
    else (.RC522TagError, .nak_other cstate.error_code cstate.error_line)
  | .SUCCESS =>
    (.RC522Error, .unhandled_status_code status.toInt cstate.error_code cstate.error_line)

/-! ## pyinterface.c: the exposed initialisation and select -/

/-- The exception a call of `rc522_init` leaves set. -/
inductive init_exception
  /-- The exception set by `PyArg_ParseTupleAndKeywords`. -/
  | arg_parse
  /-- RC522Error with the format string: Invalid antenna_gain value %d: supported values
  are 0...7. See the MFRC522 datasheet, section 9.3.3.6 -/
  | invalid_antenna_gain (antenna_gain : Int)
  /-- The exception set by `_raise_error`. -/
  | raise_error (exc : PyExc) (text : ErrText)
  deriving DecidableEq, Repr

/-- What `rc522_init` leaves behind: the returned `int`, the exception set (if any), the
embedded `cstate` and the environment. -/
structure rc522_init_result where
  ret : Int
  exc : Option init_exception
  cstate : rc522c_state
  h : Hal

/-- Model of `rc522_init` (pyinterface.c:73-98). `args` is the outcome of
`PyArg_ParseTupleAndKeywords` with format `iii`: `none` when it fails, else the three
`int`s `spi_baud_rate`, `antenna_gain`, `rst_pin`. -/
def rc522_init (cstate : rc522c_state) (h : Hal) (args : Option (Int × Int × Int)) :
    rc522_init_result :=
  match args with
  | none => ⟨-1, some .arg_parse, cstate, h⟩
  | some (spi_baud_rate, antenna_gain, rst_pin) =>
  if antenna_gain < 0 ∨ antenna_gain > 7 then
    ⟨-1, some (.invalid_antenna_gain antenna_gain), cstate, h⟩ else
  let r := rc522c_init cstate h spi_baud_rate antenna_gain rst_pin
  if r.status ≠ .SUCCESS then
    ⟨-1, some (.raise_error (_raise_error r.s r.status).1 (_raise_error r.s r.status).2),
      r.s, r.h⟩ else
  ⟨0, none, r.s, r.h⟩

/-- What `rc522_ntag_try_select` hands back: `Py_True` or `Py_False`, or `NULL` with the
exception set by `_raise_error`. -/
inductive try_select_return
  | py_bool (v : Bool)
  | null (exc : PyExc) (text : ErrText)
  deriving DecidableEq, Repr

/-- What `rc522_ntag_try_select` leaves behind. -/
structure try_select_result where
  ret : try_select_return
  cstate : rc522c_state
  h : Hal

/-- Model of `rc522_ntag_try_select` (pyinterface.c:105-119); `none` when
`rc522c_ntag_select` has no result. -/
def rc522_ntag_try_select (cstate : rc522c_state) (h : Hal) : Option try_select_result :=
  (rc522c_ntag_select cstate h).bind fun r =>
  let status := r.status
  match status with
  | .SUCCESS => some ⟨.py_bool true, r.s, r.h⟩
  | .ERROR_TAG_MISSING => some ⟨.py_bool false, r.s, r.h⟩
  | .ERROR_TAG_UNSUPPORTED => some ⟨.py_bool false, r.s, r.h⟩
  | _ => some ⟨.null (_raise_error r.s status).1 (_raise_error r.s status).2, r.s, r.h⟩

/-! ## Specification-side definitions: CRC engine -/

/-- Spec wording of one table round: if the low bit is set, `(v >> 1) ^ 0x8408`, else
`v >> 1`. -/
def spec_table_round (v : Nat) : Nat :=
  if v % 2 = 1 then (v >>> 1) ^^^ 0x8408 else v >>> 1

/-- Spec wording of `BuildTable`: the entry for byte value `i` is 8 rounds applied to `i`. -/
def spec_table_entry (i : Nat) : Nat := spec_table_round^[8] i

/-- Spec wording of `Compute`: fold from the seed 0x6363 with
`seed = (seed >> 8) ^ table[(seed ^ byte) & 0xFF]`. -/
def spec_crc_fold (table : Nat → Nat) (bs : List Nat) : Nat :=
  bs.foldl (fun c b => (c >>> 8) ^^^ table ((c ^^^ b) &&& 0xFF)) 0x6363

/-! ## Specification-side definitions: select -/

/-- The six exchanges of a select run, in the order they are performed. -/
structure select_trace where
  reqa : transceive_result
  sdd1 : transceive_result
  sel1 : transceive_result
  sdd2 : transceive_result
  sel2 : transceive_result
  version : transceive_result

/-- The exchanges of `rc522c_ntag_select` on state `s` and environment `h`: REQA, then for
cascade level 1 and 2 the anti-collision exchange and the select exchange, then
GET_VERSION; each exchange starts where the previous one stopped (so an exchange is the
one the code performs whenever all earlier replies passed their checks). -/
def spec_select_trace (s : rc522c_state) (h : Hal) : select_trace :=
  let x0 := rc522c_ntag_select_reqa { s with tag_selected := 0 } h h.uninitBuf (h.uninit 64)
  let x1 := rc522c_ntag_select_sdd 0 x0.s x0.h x0.rx x0.rx_bits
  let x2 := rc522c_ntag_select_sel 0 (rc522c_ntag_select_nfcid 0 x1.s x1.rx) x1.h x1.rx x1.rx_bits
  let x3 := rc522c_ntag_select_sdd 1 x2.s x2.h x2.rx x2.rx_bits
  let x4 := rc522c_ntag_select_sel 1 (rc522c_ntag_select_nfcid 1 x3.s x3.rx) x3.h x3.rx x3.rx_bits
  let x5 := rc522c_ntag_select_get_version x4.s x4.h x4.rx x4.rx_bits
  ⟨x0, x1, x2, x3, x4, x5⟩

/-- The reply is a 4-bit NAK: exactly 4 bits whose value is not the ACK code 0xA. -/
def is_nak (v : transceive_result) : Prop := v.rx_bits = 4 ∧ v.rx 0 &&& 0xF ≠ 0xA

/-- Spec wording of the anti-collision check: the check byte is the XOR of the 4 id
bytes. -/
abbrev spec_bcc_ok (x : transceive_result) : Prop :=
  x.rx 4 = x.rx 0 ^^^ x.rx 1 ^^^ x.rx 2 ^^^ x.rx 3

/-- Spec wording of a reply CRC check: the CRC computed over the first `n` bytes equals
the two bytes that follow them. -/
abbrev spec_crc_ok (crc : crc16_ccitt) (x : transceive_result) (n : Nat) : Prop :=
  compute_crc crc x.rx n = (x.rx n, x.rx (n + 1))

/-- The cascade bit (0x04) of the select reply's status byte is set. -/
abbrev spec_cascade_bit (x : transceive_result) : Prop := x.rx 0 &&& 0x04 ≠ 0

/-- The REQA exchange succeeded and its reply is well-formed. -/
abbrev passed_reqa (t : select_trace) : Prop :=
  t.reqa.status = .SUCCESS ∧ t.reqa.rx_bits = 16

/-- All exchanges up to the level-1 anti-collision succeeded with well-formed replies
(40 bits, check byte correct, cascade tag 0x88 first). -/
abbrev passed_sdd1 (t : select_trace) : Prop :=
  passed_reqa t ∧ t.sdd1.status = .SUCCESS ∧ t.sdd1.rx_bits = 40 ∧ spec_bcc_ok t.sdd1
    ∧ t.sdd1.rx 0 = 0x88

/-- All exchanges up to the level-1 select succeeded with well-formed replies (24 bits,
CRC correct, cascade bit set). -/
abbrev passed_sel1 (crc : crc16_ccitt) (t : select_trace) : Prop :=
  passed_sdd1 t ∧ t.sel1.status = .SUCCESS ∧ t.sel1.rx_bits = 24 ∧ spec_crc_ok crc t.sel1 1
    ∧ spec_cascade_bit t.sel1

/-- All exchanges up to the level-2 anti-collision succeeded with well-formed replies. -/
abbrev passed_sdd2 (crc : crc16_ccitt) (t : select_trace) : Prop :=
  passed_sel1 crc t ∧ t.sdd2.status = .SUCCESS ∧ t.sdd2.rx_bits = 40 ∧ spec_bcc_ok t.sdd2

/-- All exchanges up to the level-2 select succeeded with well-formed replies (24 bits,
CRC correct, cascade bit clear). -/
abbrev passed_sel2 (crc : crc16_ccitt) (t : select_trace) : Prop :=
  passed_sdd2 crc t ∧ t.sel2.status = .SUCCESS ∧ t.sel2.rx_bits = 24 ∧ spec_crc_ok crc t.sel2 1
    ∧ ¬ spec_cascade_bit t.sel2

/-! ## Specification-side definitions: protect -/

/-- The five tag operations of a protect transaction, in the order they are performed. -/
structure protect_trace where
  w_pwd : status_result
  r_cfg : out_result
  w_auth0 : status_result
  w_pack : status_result
  w_access : status_result

/-- Spec wording of the access byte written back by Protect: the read-protection bit 0x80
of the configuration byte `c4` is set for mode read+write (`rw` non-zero) and cleared for
mode write-only. -/
def spec_access_byte (c4 : Nat) (rw : Int) : Nat :=
  if rw ≠ 0 then (c4 ||| 0x80) % 256 else (c4 &&& 0x7F) % 256

/-- The spec's configuration base page of each supported tag kind. -/
def spec_base_pages : List (rc522c_tag_kind × Nat) :=
  [(.KIND_213, 0x29), (.KIND_215, 0x83), (.KIND_216, 0xE3)]

/-- The answer of Protect when it stops at an operation with an output buffer. -/
def out_result.toStatus (r : out_result) : status_result := ⟨r.status, r.s, r.h⟩

/-- Spec wording of Protect on a tag whose configuration block starts at page `base`:
write the password page `base + 2`, read the block at `base` (into a scratch buffer of
indeterminate content), write back page `base` with the first-protected-page field
replaced, write page `base + 3` with the PACK field replaced, write page `base + 1` with
the read-protection bit adjusted; each operation starts where the previous one stopped.
The trace is `none` when one of the five operations has no result. -/
def spec_protect_trace (s : rc522c_state) (h : Hal) (pwd pack : Buf) (start_page : Int)
    (rw : Int) (base : Nat) : Option protect_trace :=
  (rc522c_ntag_write s h (base + 2) (Buf.ofList [pwd 0, pwd 1, pwd 2, pwd 3])).bind fun r1 =>
  (rc522c_ntag_read r1.s r1.h base r1.h.uninitBuf).bind fun r2 =>
  let c := r2.out
  (rc522c_ntag_write r2.s r2.h base
    (Buf.ofList [c 0, c 1, c 2, (start_page % 256).toNat])).bind fun r3 =>
  (rc522c_ntag_write r3.s r3.h (base + 3) (Buf.ofList [pack 0, pack 1, c 14, c 15])).bind
    fun r4 =>
  (rc522c_ntag_write r4.s r4.h (base + 1)
    (Buf.ofList [spec_access_byte (c 4) rw, c 5, c 6, c 7])).bind fun r5 =>
  some ⟨r1, r2, r3, r4, r5⟩

/-! ## Predicates used in the proofs -/

/-- The part of the device state that only `rc522c_ntag_select` modifies. -/
def same_tag (s s' : rc522c_state) : Prop :=
  s'.spi = s.spi ∧ s'.tag_selected = s.tag_selected ∧ s'.tag_nfcid = s.tag_nfcid
    ∧ s'.tag_kind = s.tag_kind ∧ s'.crc = s.crc

/-- The state part that no exchange and no store into `tag_nfcid` changes. -/
def same_sel (s s' : rc522c_state) : Prop :=
  s'.tag_selected = s.tag_selected ∧ s'.crc = s.crc ∧ s'.tag_kind = s.tag_kind

/-- A transceive result is framed when it either succeeded and left the state alone or
failed and only recorded the error context. -/
def framed (s : rc522c_state) (r : transceive_result) : Prop :=
  (r.status = .SUCCESS ∧ r.s = s) ∨ (r.status ≠ .SUCCESS ∧ ∃ l c, r.s = set_error s l c)

/-- Every element of the buffer is a byte. -/
def Buf.bytes (b : Buf) : Prop := ∀ i, b i < 256

/-- The checks `rc522c_ntag_select` applies to the anti-collision reply of level `cl`
(rc522c.c:158-169). -/
def sdd_pass (cl : Nat) (x : transceive_result) : Prop :=
  x.rx_bits = 5 * 8 ∧ (x.rx 0 ^^^ x.rx 1 ^^^ x.rx 2 ^^^ x.rx 3) % 256 = x.rx 4
    ∧ ¬ (cl = 0 ∧ x.rx 0 ≠ NFC_CASCADE_TAG)

/-- The checks `rc522c_ntag_select` applies to the select reply of level `cl`
(rc522c.c:192-211). -/
def sel_pass (cl : Nat) (y : transceive_result) : Prop :=
  y.rx_bits = 24 ∧ ¬ ((compute_crc y.s.crc y.rx 1).1 ≠ y.rx 1 ∨ (compute_crc y.s.crc y.rx 1).2 ≠ y.rx 2)
    ∧ (if cl = 0 then ¬ (y.rx 0 &&& 0x04 = 0) else ¬ (y.rx 0 &&& 0x04 ≠ 0))

/-- The checks `rc522c_ntag_select` applies to a GET_VERSION reply that is not a NAK
(rc522c.c:224-229). -/
def version_pass (v : transceive_result) : Prop :=
  v.rx_bits = 10 * 8
    ∧ ¬ ((compute_crc v.s.crc v.rx 8).1 ≠ v.rx 8 ∨ (compute_crc v.s.crc v.rx 8).2 ≠ v.rx 9)

/-- Whatever calls were made before, the byte count the driver holds after reading the
FIFO-level register (rc522c.c:110-111) is at most `n`. -/
def Hal.fifo_level_le (h : Hal) (n : Nat) : Prop :=
  ∀ (s : rc522c_state) (log : List HalOp),
    (spi_read_byte s { h with log := log } RC522_REG_FIFO_LEVEL
      (Hal.uninit { h with log := log } 2)).2.1 ≤ n

/-- The environment `h2` is `h1` after further calls, at most `n` of them reads of the
FIFO data register. -/
def Hal.grows (s : rc522c_state) (n : Nat) (h1 h2 : Hal) : Prop :=
  h2.respond = h1.respond ∧ h2.indet = h1.indet
    ∧ h2.log.count (spi_read_op s RC522_REG_FIFO_DATA)
        ≤ h1.log.count (spi_read_op s RC522_REG_FIFO_DATA) + n

/-! ## A scripted reader and tag, used to run the model on concrete exchanges -/

/-- One scripted exchange: the interrupt flags the chip shows while polled, its error
register, the bytes the tag answers with, and the valid-bits field of the control
register. -/
structure MockExchange where
  irq : Nat
  error : Nat
  bytes : List Nat
  ctrl : Nat

/-- Scan a call history: the number of transceive commands issued so far and the number of
FIFO data reads since the last of them. -/
def mockScan (log : List HalOp) : Nat × Nat :=
  log.foldl
    (fun st op =>
      match op with
      | .spiWrite _ [0x02, 0x0C] => (st.1 + 1, 0)
      | .spiXfer _ [0x92, 0] => (st.1, st.2 + 1)
      | _ => st)
    (0, 0)

/-- A bus on which every call succeeds and a chip that plays the script: the `k`-th
transceive command is answered with the `k`-th scripted exchange (a timer expiry with an
empty FIFO once the script is exhausted). -/
def mockRespond (script : List MockExchange) (log : List HalOp) : HalReply :=
  let st := mockScan log
  let x := script.getD (st.1 - 1) ⟨0x01, 0, [], 0⟩
  match log.getLast? with
  | some (.spiXfer _ [0x88, 0]) => ⟨2, [0, x.irq]⟩
  | some (.spiXfer _ [0x8C, 0]) => ⟨2, [0, x.error]⟩
  | some (.spiXfer _ [0x94, 0]) => ⟨2, [0, x.bytes.length]⟩
  | some (.spiXfer _ [0x98, 0]) => ⟨2, [0, x.ctrl]⟩
  | some (.spiXfer _ [0x92, 0]) => ⟨2, [0, x.bytes.getD (st.2 - 1) 0]⟩
  | _ => ⟨2, []⟩

/-- The scripted environment with an empty log; uninitialised locals hold 0xEE. -/
def mockHal (script : List MockExchange) : Hal :=
  { respond := mockRespond script, indet := fun _ _ => 0xEE, log := [] }

/-- A complete tag answer of whole bytes. -/
def mockBytes (bytes : List Nat) : MockExchange := ⟨0x30, 0, bytes, 0⟩

/-- A four-bit ACK/NAK answer. -/
def mockNibble (code : Nat) : MockExchange := ⟨0x30, 0, [code], 4⟩

/-- The device state right after `memset` and `init_crc16_ccitt` in `rc522c_init`. -/
def state0 : rc522c_state :=
  { spi := 0, rst_pin := 0, irq_pin := 0, dev_version := 0, tag_selected := 0,
    tag_nfcid := fun _ => 0, tag_kind := .UNKNOWN, error_line := 0, error_code := 0,
    crc := init_crc16_ccitt ⟨fun _ => 0⟩ }

/-- The initialised device state with a tag of the given kind selected. -/
def state_selected (k : rc522c_tag_kind) : rc522c_state :=
  { state0 with tag_selected := 1, tag_kind := k }

/-- The tag answers of scenario B: ATQA, the two cascade levels of the identifier
04 11 22 33 44 55 66, and a GET_VERSION reply whose storage-size byte is 0x11. -/
def mockNtag215 : List MockExchange :=
  [mockBytes [0x44, 0x00],
   mockBytes [0x88, 0x04, 0x11, 0x22, 0xBF], mockBytes [0x04, 0xDA, 0x17],
   mockBytes [0x33, 0x44, 0x55, 0x66, 0x44], mockBytes [0x00, 0xFE, 0x51],
   mockBytes [0x00, 0x04, 0x04, 0x02, 0x01, 0x00, 0x11, 0x03, 0x01, 0x9E]]

/-- The tag answers of scenario B up to the level-2 select, then a 4-bit NAK (code 0x0)
in answer to GET_VERSION. -/
def mockVersionNak : List MockExchange :=
  [mockBytes [0x44, 0x00],
   mockBytes [0x88, 0x04, 0x11, 0x22, 0xBF], mockBytes [0x04, 0xDA, 0x17],
   mockBytes [0x33, 0x44, 0x55, 0x66, 0x44], mockBytes [0x00, 0xFE, 0x51],
   mockNibble 0x0]

/-- A tag answering a protect transaction: ACK to the password write, then the
configuration block `04 00 00 FF 12 34 56 78 00..00` with its CRC, then the given answers
to the three remaining writes. -/
def mockProtect (a3 a4 a5 : Nat) : List MockExchange :=
  [mockNibble 0xA,
   mockBytes [4, 0, 0, 0xFF, 0x12, 0x34, 0x56, 0x78, 0, 0, 0, 0, 0, 0, 0, 0, 251, 62],
   mockNibble a3, mockNibble a4, mockNibble a5]

/-- The byte a register read yields when it is the last call of the history `log` and the
transfer succeeds. -/
def Hal.read_value (h : Hal) (log : List HalOp) : Nat := (h.respond log).rx.getD 1 0 % 256

/-- Every bus operation succeeds: pigpio answers every call with a positive count. -/
def Hal.bus_ok (h : Hal) : Prop := ∀ log, 0 < (h.respond log).status

/-- The calls of the first part of `rc522c_transceive` (rc522c.c:75-87), in order, when
none of them fails. -/
def send_ops (s : rc522c_state) (tx : Buf) (tx_bits : Nat) : List HalOp :=
  [spi_write_op s RC522_REG_COM_IRQ 0x7F, spi_write_op s RC522_REG_COM_IEN (0x80 ||| 0x77),
   spi_write_op s RC522_REG_FIFO_LEVEL 0x80, spi_write_op s RC522_REG_CMD RC522_CMD_IDLE]
  ++ (List.range ((tx_bits + 7) / 8)).map (fun k => spi_write_op s RC522_REG_FIFO_DATA (tx k))
  ++ [spi_write_op s RC522_REG_CMD RC522_CMD_TRANSCEIVE,
      spi_write_op s RC522_REG_BIT_FRAMING (0x80 ||| (tx_bits % 8))]

/-- The value read by the `k`-th consecutive poll (counting from 0) of the interrupt
register, when polling starts in environment `h`. -/
def poll_value (s : rc522c_state) (h : Hal) (k : Nat) : Nat :=
  h.read_value (h.log ++ List.replicate (k + 1) (spi_read_op s RC522_REG_COM_IRQ))

/-- The calls that open the last part of `rc522c_transceive` (rc522c.c:98-118), in order:
clear the framing register, read the error register, read the FIFO level, read the
control register. -/
def receive_ops (s : rc522c_state) : List HalOp :=
  [spi_write_op s RC522_REG_BIT_FRAMING 0, spi_read_op s RC522_REG_ERROR,
   spi_read_op s RC522_REG_FIFO_LEVEL, spi_read_op s RC522_REG_CTRL]

/-- The value read from the error register when the last part starts in environment `h`. -/
def error_value (s : rc522c_state) (h : Hal) : Nat :=
  h.read_value (h.log ++ (receive_ops s).take 2)

/-- The value read from the FIFO-level register when the last part starts in `h`. -/
def level_value (s : rc522c_state) (h : Hal) : Nat :=
  h.read_value (h.log ++ (receive_ops s).take 3)

/-- The value read from the control register when the last part starts in `h`. -/
def ctrl_value (s : rc522c_state) (h : Hal) : Nat :=
  h.read_value (h.log ++ receive_ops s)

/-- The value of the `k`-th read (counting from 0) of the FIFO data register when the last
part starts in `h`. -/
def data_value (s : rc522c_state) (h : Hal) (k : Nat) : Nat :=
  h.read_value (h.log ++ receive_ops s
    ++ List.replicate (k + 1) (spi_read_op s RC522_REG_FIFO_DATA))

/-- The bit count `rc522c_transceive` reports for `n` received bytes and control register
value `ctrl` (rc522c.c:120-123). -/
def reported_bits (n ctrl : Nat) : Int :=
  if ctrl &&& 0x7 ≠ 0 then (n : Int) * 8 - (8 - ((ctrl &&& 0x7 : Nat) : Int)) else (n : Int) * 8

/-- The environment in which the polling loop of a transceive run starts when the first
part did not fail. -/
def sent_hal (s : rc522c_state) (h : Hal) (tx : Buf) (tx_bits : Nat) : Hal :=
  h.push (send_ops s tx tx_bits)

/-- The outcome of the polling loop of a transceive run (rc522c.c:89-96) when the first
part did not fail: the failure code if any, the final content of `irq`, the environment. -/
def polled (s : rc522c_state) (h : Hal) (tx : Buf) (tx_bits : Nat) : Option Int × Nat × Hal :=
  transceive_poll_loop s 2000 ((sent_hal s h tx tx_bits).uninit 0) (sent_hal s h tx tx_bits)

/-- A bus on which every call succeeds and a chip that never shows an interrupt flag nor
an error: every register reads 0, except the FIFO-level register, which reads `level`. -/
def silentHal (level : Nat) : Hal :=
  { respond := fun log =>
      match log.getLast? with
      | some (.spiXfer _ [0x94, 0]) => ⟨2, [0, level]⟩
      | _ => ⟨2, [0, 0]⟩,
    indet := fun _ _ => 0xEE,
    log := [] }

/-- A chip that reports a timer expiry together with the error register value `err`. -/
def mockTimeout (err : Nat) : List MockExchange := [⟨0x01, err, [], 0⟩]

/-- Spec wording of the level selector of cascade level `cl` (0 for level 1, 1 for
level 2). -/
def spec_level_selector (cl : Nat) : Nat := if cl = 0 then 0x93 else 0x95

/-- Spec wording of a request frame that carries a CRC: the bytes `body` followed by the
two bytes `compute_crc` returns over all of `body`. -/
def spec_crc_frame (crc : crc16_ccitt) (body : List Nat) : List Nat :=
  body ++ [(compute_crc crc (Buf.ofList body) body.length).1,
           (compute_crc crc (Buf.ofList body) body.length).2]

/-- A reader that answers `rc522c_init`: pigpio starts, the bus opens with handle 0, the
version register reads `version`, the antenna-driver register reads `tx_ctrl`. -/
def initHal (version tx_ctrl : Nat) : Hal :=
  { respond := fun log =>
      match log.getLast? with
      | some (.spiXfer _ [0xEE, 0]) => ⟨2, [0, version]⟩
      | some (.spiXfer _ [0xA8, 0]) => ⟨2, [0, tx_ctrl]⟩
      | some (.spiXfer _ _) => ⟨2, [0, 0]⟩
      | some (.spiWrite _ _) => ⟨2, []⟩
      | some .gpioInitialise => ⟨79, []⟩
      | _ => ⟨0, []⟩,
    indet := fun _ _ => 0xEE,
    log := [] }

/-- The statuses the transceive engine can return. -/
def engine_status (st : rc522c_status) : Prop :=
  st = .SUCCESS ∨ st = rc522c_status.ERROR_PIGPIO ∨ st = .ERROR_DEV_CMD_FAILED
    ∨ st = .ERROR_TAG_MISSING

/-- The statuses `rc522c_ntag_select` can return: every status but DEV_NOT_RESPONDING. -/
def select_status (st : rc522c_status) : Prop := st ≠ .ERROR_DEV_NOT_RESPONDING

/-! # Theorems -/

/-! ## Lemmas on the CRC engine -/

theorem spec_table_round_lt (v : Nat) (hv : v < 65536) : spec_table_round v < 65536 := by
  unfold spec_table_round
  have h1 : v >>> 1 < 65536 := by
    rw [Nat.shiftRight_eq_div_pow]; omega
  split
  · exact Nat.xor_lt_two_pow (n := 16) h1 (by norm_num)
  · exact h1

theorem init_step_eq_spec (v : Nat) (hv : v < 65536) :
    init_crc16_ccitt_step 0x8408 v = spec_table_round v := by
  have hlt := spec_table_round_lt v hv
  unfold spec_table_round at *
  unfold init_crc16_ccitt_step
  rw [Nat.and_one_is_mod]
  by_cases h : v % 2 = 1
  · have h0 : v % 2 ≠ 0 := by omega
    simp only [h, h0, ne_eq, not_false_eq_true, if_true] at *
    exact Nat.mod_eq_of_lt hlt
  · have h0 : v % 2 = 0 := by omega
    simp only [h, h0, ne_eq, not_true_eq_false, if_false] at *
    exact Nat.mod_eq_of_lt hlt

theorem init_inner_eq_spec (j v : Nat) (hv : v < 65536) :
    init_crc16_ccitt_inner 0x8408 j v = spec_table_round^[j] v := by
  induction j generalizing v with
  | zero => rfl
  | succ j ih =>
    rw [init_crc16_ccitt_inner, init_step_eq_spec v hv, ih _ (spec_table_round_lt v hv),
      Function.iterate_succ_apply]

theorem spec_iterate_lt (j v : Nat) (hv : v < 65536) : spec_table_round^[j] v < 65536 := by
  induction j generalizing v with
  | zero => simpa using hv
  | succ j ih =>
    rw [Function.iterate_succ_apply]
    exact ih _ (spec_table_round_lt v hv)

theorem init_outer_apply (n i : Nat) (lut : Buf) (k : Nat) :
    init_crc16_ccitt_outer 0x8408 n i lut k =
      if i ≤ k ∧ k < i + n then init_crc16_ccitt_inner 0x8408 8 (k % 65536) else lut k := by
  induction n generalizing i lut with
  | zero =>
    have : ¬ (i ≤ k ∧ k < i + 0) := by omega
    simp only [init_crc16_ccitt_outer, this, if_false]
  | succ n ih =>
    rw [init_crc16_ccitt_outer, ih]
    by_cases h1 : i + 1 ≤ k ∧ k < i + 1 + n
    · have h2 : i ≤ k ∧ k < i + (n + 1) := by omega
      simp only [h1, h2, and_self, if_true]
    · by_cases h3 : k = i
      · subst h3
        have h2 : k ≤ k ∧ k < k + (n + 1) := by omega
        simp only [h1, h2, and_self, if_true, if_false, Buf.set]
      · have h2 : ¬ (i ≤ k ∧ k < i + (n + 1)) := by omega
        simp only [h1, h2, if_false, Buf.set, h3]

theorem init_lut_eq_spec (s : crc16_ccitt) (i : Nat) (hi : i < 256) :
    (init_crc16_ccitt s).lut i = spec_table_entry i := by
  have h2 : 0 ≤ i ∧ i < 0 + 256 := by omega
  have h3 : i % 65536 = i := Nat.mod_eq_of_lt (by omega)
  simp only [init_crc16_ccitt, init_outer_apply, h2, and_self, if_true, h3]
  exact init_inner_eq_spec 8 i (by omega)

theorem init_lut_lt (s : crc16_ccitt) (i : Nat) (hi : i < 256) :
    (init_crc16_ccitt s).lut i < 65536 := by
  rw [init_lut_eq_spec s i hi]
  exact spec_iterate_lt 8 i (by omega)

theorem compute_crc_loop_lt (s : crc16_ccitt) (inp : Buf) (n i c : Nat) (hc : c < 65536) :
    compute_crc_loop s inp n i c < 65536 := by
  induction n generalizing i c with
  | zero => simpa [compute_crc_loop] using hc
  | succ n ih =>
    rw [compute_crc_loop]
    exact ih _ _ (Nat.mod_lt _ (by norm_num))

theorem spec_crc_step_lt (table : Nat → Nat) (ht : ∀ k, k < 256 → table k < 65536)
    (c b : Nat) (hc : c < 65536) : (c >>> 8) ^^^ table ((c ^^^ b) &&& 0xFF) < 65536 := by
  have h1 : c >>> 8 < 65536 := by
    rw [Nat.shiftRight_eq_div_pow]; omega
  have h2 : (c ^^^ b) &&& 0xFF < 256 := by
    have := Nat.and_le_right (n := c ^^^ b) (m := 0xFF)
    omega
  exact Nat.xor_lt_two_pow (n := 16) h1 (ht _ h2)

theorem compute_crc_loop_eq_foldl (s : crc16_ccitt) (ht : ∀ k, k < 256 → s.lut k < 65536)
    (l : List Nat) (inp : Buf) (i c : Nat) (hc : c < 65536)
    (hinp : ∀ k, k < l.length → inp (i + k) = l.getD k 0) :
    compute_crc_loop s inp l.length i c =
      l.foldl (fun c b => (c >>> 8) ^^^ s.lut ((c ^^^ b) &&& 0xFF)) c := by
  induction l generalizing i c with
  | nil => rfl
  | cons b l ih =>
    have hb : inp i = b := by simpa using hinp 0 (by simp)
    have hm : (c ^^^ b) % 256 = (c ^^^ b) &&& 0xFF := by
      rw [show (0xFF : Nat) = 2 ^ 8 - 1 by norm_num, Nat.and_pow_two_sub_one_eq_mod]
    have hlt := spec_crc_step_lt s.lut ht c b hc
    simp only [List.length_cons, compute_crc_loop, List.foldl_cons, hb, hm,
      Nat.mod_eq_of_lt hlt]
    apply ih _ _ hlt
    intro k hk
    have := hinp (k + 1) (by simpa using hk)
    simpa [Nat.add_assoc, Nat.add_comm 1 k] using this

/-- C9: after `init_crc16_ccitt`, whatever the table held before, every entry
`lut[i]` with `i` in 0..255 is the value obtained from `i` by 8 rounds of
"if the low bit is set then `(v >> 1) ^ 0x8408` else `v >> 1`"; in particular
`lut[0] = 0` and `lut[1] = 0x1189`. -/
theorem init_crc16_ccitt_table (s : crc16_ccitt) :
    (∀ i, i < 256 → (init_crc16_ccitt s).lut i = spec_table_round^[8] i)
    ∧ (init_crc16_ccitt s).lut 0 = 0
    ∧ (init_crc16_ccitt s).lut 1 = 0x1189 := by
  refine ⟨fun i hi => init_lut_eq_spec s i hi, ?_, ?_⟩
  · rw [init_lut_eq_spec s 0 (by norm_num)]; decide
  · rw [init_lut_eq_spec s 1 (by norm_num)]; decide

/-- C9 witness: the entry for byte value 2 is 0x2312. -/
theorem init_crc16_ccitt_table_witness :
    (2 : Nat) < 256 ∧ (init_crc16_ccitt ⟨fun _ => 0⟩).lut 2 = 0x2312 :=
  ⟨by decide, by
    rw [(init_crc16_ccitt_table ⟨fun _ => 0⟩).1 2 (by decide)]
    decide⟩

/-- C8: with the table built by `init_crc16_ccitt`, `compute_crc` over any byte sequence
returns `(c & 0xFF, c >> 8)` where `c` is the fold from seed 0x6363 with the step
`c := (c >> 8) ^ table[(c ^ b) & 0xFF]`, and `c` is a 16-bit value; the empty input
gives (0x63, 0x63) and the single byte 0x60 gives (0xF8, 0x32). -/
theorem compute_crc_spec (s : crc16_ccitt) (bs : List Nat) :
    compute_crc (init_crc16_ccitt s) (Buf.ofList bs) bs.length =
        (spec_crc_fold (init_crc16_ccitt s).lut bs &&& 0xFF,
         spec_crc_fold (init_crc16_ccitt s).lut bs >>> 8)
    ∧ spec_crc_fold (init_crc16_ccitt s).lut bs < 65536
    ∧ compute_crc (init_crc16_ccitt s) (Buf.ofList []) 0 = (0x63, 0x63)
    ∧ compute_crc (init_crc16_ccitt s) (Buf.ofList [0x60]) 1 = (0xF8, 0x32) := by
  have ht : ∀ k, k < 256 → (init_crc16_ccitt s).lut k < 65536 := init_lut_lt s
  have key : ∀ l : List Nat,
      compute_crc_loop (init_crc16_ccitt s) (Buf.ofList l) l.length 0 0x6363 =
        spec_crc_fold (init_crc16_ccitt s).lut l := by
    intro l
    unfold spec_crc_fold
    apply compute_crc_loop_eq_foldl _ ht l _ 0 _ (by norm_num)
    intro k _
    simp [Buf.ofList]
  have hlt : spec_crc_fold (init_crc16_ccitt s).lut bs < 65536 := by
    rw [← key bs]; exact compute_crc_loop_lt _ _ _ _ _ (by norm_num)
  refine ⟨?_, hlt, ?_, ?_⟩
  · unfold compute_crc
    simp only [key bs]
    have h8 : spec_crc_fold (init_crc16_ccitt s).lut bs >>> 8 < 256 := by
      rw [Nat.shiftRight_eq_div_pow]; omega
    rw [show (0xFF : Nat) = 2 ^ 8 - 1 by norm_num, Nat.and_pow_two_sub_one_eq_mod,
      Nat.and_pow_two_sub_one_eq_mod, Nat.mod_eq_of_lt (a := _ >>> 8) h8]
  · simp only [compute_crc, compute_crc_loop]
    decide
  · have h3 : (init_crc16_ccitt s).lut 3 = 0x329B := by
      rw [init_lut_eq_spec s 3 (by norm_num)]; decide
    have hx : (0x6363 ^^^ 0x60) % 256 = 3 := by decide
    simp only [compute_crc, compute_crc_loop, Buf.ofList, List.getD_cons_zero, hx, h3]
    decide

/-! ## Frame lemmas: what the transceive engine leaves untouched -/

theorem same_tag_refl (s : rc522c_state) : same_tag s s := ⟨rfl, rfl, rfl, rfl, rfl⟩

theorem same_tag_set_error (s : rc522c_state) (l c : Int) : same_tag s (set_error s l c) :=
  ⟨rfl, rfl, rfl, rfl, rfl⟩

theorem framed_err (s : rc522c_state) (st : rc522c_status) (hst : st ≠ .SUCCESS) (l c : Int)
    (h : Hal) (rx : Buf) (b : Int) : framed s ⟨st, set_error s l c, h, rx, b⟩ :=
  Or.inr ⟨hst, l, c, rfl⟩

theorem framed_ite_err (s : rc522c_state) (c : Prop) [Decidable c] (st : rc522c_status)
    (hst : st ≠ .SUCCESS) (l code : Int) (h : Hal) (rx : Buf) (b : Int) (r : transceive_result)
    (hr : framed s r) : framed s (if c then ⟨st, set_error s l code, h, rx, b⟩ else r) := by
  split
  · exact framed_err _ _ hst _ _ _ _ _
  · exact hr

theorem transceive_receive_framed (s : rc522c_state) (h : Hal) (irq : Nat) (rx : Buf)
    (rx_bits : Int) : framed s (transceive_receive s h irq rx rx_bits) := by
  unfold transceive_receive
  simp only []
  repeat' refine framed_ite_err _ _ _ (by decide) _ _ _ _ _ _ ?_
  split
  · exact framed_err _ _ (by decide) _ _ _ _ _
  · exact Or.inl ⟨rfl, rfl⟩

theorem transceive_framed (s : rc522c_state) (h : Hal) (tx : Buf) (tx_bits : Nat) (rx : Buf)
    (rx_bits : Int) : framed s (rc522c_transceive s h tx tx_bits rx rx_bits) := by
  unfold rc522c_transceive
  split
  · exact framed_err _ _ (by decide) _ _ _ _ _
  · simp only []
    split
    · exact framed_err _ _ (by decide) _ _ _ _ _
    · exact transceive_receive_framed _ _ _ _ _

theorem transceive_same_tag (s : rc522c_state) (h : Hal) (tx : Buf) (tx_bits : Nat) (rx : Buf)
    (rx_bits : Int) : same_tag s (rc522c_transceive s h tx tx_bits rx rx_bits).s := by
  rcases transceive_framed s h tx tx_bits rx rx_bits with ⟨_, h2⟩ | ⟨_, l, c, h2⟩
  · rw [h2]; exact same_tag_refl s
  · rw [h2]; exact same_tag_set_error s l c

theorem transceive_success_state (s : rc522c_state) (h : Hal) (tx : Buf) (tx_bits : Nat)
    (rx : Buf) (rx_bits : Int)
    (hs : (rc522c_transceive s h tx tx_bits rx rx_bits).status = .SUCCESS) :
    (rc522c_transceive s h tx tx_bits rx rx_bits).s = s := by
  rcases transceive_framed s h tx tx_bits rx rx_bits with ⟨_, h2⟩ | ⟨h1, _⟩
  · exact h2
  · exact absurd hs h1

/-! ## Lemmas: receive buffers hold bytes -/

theorem uninitBuf_bytes (h : Hal) : Buf.bytes h.uninitBuf := fun _ => Nat.mod_lt _ (by norm_num)

theorem spi_read_byte_lt (s : rc522c_state) (h : Hal) (addr val : Nat) (hv : val < 256) :
    (spi_read_byte s h addr val).2.1 < 256 := by
  unfold spi_read_byte
  simp only []
  split
  · exact Nat.mod_lt _ (by norm_num)
  · exact hv

theorem set_bytes (b : Buf) (i v : Nat) (hb : Buf.bytes b) (hv : v < 256) :
    Buf.bytes (Buf.set b i v) := by
  intro j
  unfold Buf.set
  split
  · exact hv
  · exact hb j

theorem transceive_rx_loop_bytes (s : rc522c_state) (n i : Nat) (rx : Buf) (h : Hal)
    (hb : Buf.bytes rx) : Buf.bytes (transceive_rx_loop s n i rx h).2.1 := by
  induction n generalizing i rx h with
  | zero => exact hb
  | succ n ih =>
    unfold transceive_rx_loop
    simp only []
    split
    · exact set_bytes _ _ _ hb (spi_read_byte_lt _ _ _ _ (hb i))
    · exact ih _ _ _ (set_bytes _ _ _ hb (spi_read_byte_lt _ _ _ _ (hb i)))

theorem bytes_ite_err (c : Prop) [Decidable c] (st : rc522c_status) (s' : rc522c_state)
    (h : Hal) (rx : Buf) (b : Int) (r : transceive_result) (hrx : Buf.bytes rx)
    (hr : Buf.bytes r.rx) :
    Buf.bytes (if c then (⟨st, s', h, rx, b⟩ : transceive_result) else r).rx := by
  split
  · exact hrx
  · exact hr

theorem bytes_rx_loop_match (s : rc522c_state) (n : Nat) (rx : Buf) (h : Hal) (bits : Int)
    (hb : Buf.bytes rx) :
    Buf.bytes (match transceive_rx_loop s n 0 rx h with
      | (some ret, rx, h) =>
        (⟨ rc522c_status.ERROR_PIGPIO, set_error s 129 ret, h, rx, bits⟩ : transceive_result)
      | (none, rx, h) => ⟨.SUCCESS, s, h, rx, bits⟩).rx := by
  have := transceive_rx_loop_bytes s n 0 rx h hb
  split
  · rename_i heq
    rw [heq] at this
    exact this
  · rename_i heq
    rw [heq] at this
    exact this

theorem transceive_receive_bytes (s : rc522c_state) (h : Hal) (irq : Nat) (rx : Buf)
    (rx_bits : Int) (hb : Buf.bytes rx) :
    Buf.bytes (transceive_receive s h irq rx rx_bits).rx := by
  unfold transceive_receive
  simp only []
  repeat' refine bytes_ite_err _ _ _ _ _ _ _ hb ?_
  exact bytes_rx_loop_match _ _ _ _ _ hb

theorem transceive_bytes (s : rc522c_state) (h : Hal) (tx : Buf) (tx_bits : Nat) (rx : Buf)
    (rx_bits : Int) (hb : Buf.bytes rx) :
    Buf.bytes (rc522c_transceive s h tx tx_bits rx rx_bits).rx := by
  unfold rc522c_transceive
  split
  · exact hb
  · simp only []
    split
    · exact hb
    · exact transceive_receive_bytes _ _ _ _ _ hb

/-! ## Lemmas: the transceive engine on a bus that does not fail -/

theorem push_nil (h : Hal) : h.push [] = h := by
  simp [Hal.push]

theorem push_push (h : Hal) (a b : List HalOp) : (h.push a).push b = h.push (a ++ b) := by
  simp [Hal.push, List.append_assoc]

theorem push_bus_ok (h : Hal) (a : List HalOp) (hok : h.bus_ok) : (h.push a).bus_ok := hok

theorem push_read_value (h : Hal) (a log : List HalOp) :
    (h.push a).read_value log = h.read_value log := rfl

theorem spi_write_byte_eq (s : rc522c_state) (h : Hal) (addr val : Nat) :
    spi_write_byte s h addr val
      = ((h.respond (h.log ++ [spi_write_op s addr val])).status,
          h.push [spi_write_op s addr val]) := rfl

theorem spi_write_byte_ok (s : rc522c_state) (h : Hal) (addr val : Nat) (hok : h.bus_ok) :
    ¬ (spi_write_byte s h addr val).1 < 0
    ∧ (spi_write_byte s h addr val).2 = h.push [spi_write_op s addr val] := by
  rw [spi_write_byte_eq]
  exact ⟨not_lt.mpr (le_of_lt (hok _)), rfl⟩

theorem spi_read_byte_ok (s : rc522c_state) (h : Hal) (addr val : Nat) (hok : h.bus_ok) :
    ¬ (spi_read_byte s h addr val).1 < 0
    ∧ (spi_read_byte s h addr val).2.1 = h.read_value (h.log ++ [spi_read_op s addr])
    ∧ (spi_read_byte s h addr val).2.2 = h.push [spi_read_op s addr] := by
  have hpos := hok (h.log ++ [spi_read_op s addr])
  refine ⟨not_lt.mpr (le_of_lt hpos), ?_, rfl⟩
  show (if (h.respond (h.log ++ [spi_read_op s addr])).status > 0 then _ else val) = _
  rw [if_pos hpos]
  rfl

theorem tx_loop_ok (s : rc522c_state) (tx : Buf) (n i : Nat) (h : Hal) (hok : h.bus_ok) :
    transceive_tx_loop s tx n i h
      = (none, h.push ((List.range n).map
          (fun k => spi_write_op s RC522_REG_FIFO_DATA (tx (i + k))))) := by
  induction n generalizing i h with
  | zero => simp [transceive_tx_loop, push_nil]
  | succ n ih =>
    obtain ⟨h1, h2⟩ := spi_write_byte_ok s h RC522_REG_FIFO_DATA (tx i) hok
    unfold transceive_tx_loop
    simp only [h1, if_false, h2]
    rw [ih (i + 1) _ (push_bus_ok h _ hok), push_push, List.range_succ_eq_map, List.map_cons,
      List.map_map]
    congr 2
    simp only [Nat.add_zero, List.singleton_append, List.cons.injEq, true_and]
    apply List.map_congr_left
    intro k _
    simp only [Function.comp, Nat.succ_eq_add_one]
    rw [Nat.add_assoc, Nat.add_comm 1 k]

theorem send_ok (s : rc522c_state) (h : Hal) (tx : Buf) (tx_bits : Nat) (hok : h.bus_ok) :
    transceive_send s h tx tx_bits = (none, h.push (send_ops s tx tx_bits)) := by
  unfold transceive_send
  obtain ⟨a1, a2⟩ := spi_write_byte_ok s h RC522_REG_COM_IRQ 0x7F hok
  simp only [a1, if_false, a2]
  obtain ⟨b1, b2⟩ := spi_write_byte_ok s (h.push [spi_write_op s RC522_REG_COM_IRQ 0x7F])
    RC522_REG_COM_IEN (0x80 ||| 0x77) hok
  simp only [b1, if_false, b2, push_push]
  obtain ⟨c1, c2⟩ := spi_write_byte_ok s
    (h.push ([spi_write_op s RC522_REG_COM_IRQ 0x7F]
      ++ [spi_write_op s RC522_REG_COM_IEN (0x80 ||| 0x77)]))
    RC522_REG_FIFO_LEVEL 0x80 hok
  simp only [c1, if_false, c2, push_push]
  obtain ⟨d1, d2⟩ := spi_write_byte_ok s
    (h.push ([spi_write_op s RC522_REG_COM_IRQ 0x7F]
      ++ [spi_write_op s RC522_REG_COM_IEN (0x80 ||| 0x77)]
      ++ [spi_write_op s RC522_REG_FIFO_LEVEL 0x80]))
    RC522_REG_CMD RC522_CMD_IDLE hok
  simp only [d1, if_false, d2, push_push]
  rw [tx_loop_ok s tx _ 0 _ (push_bus_ok h _ hok)]
  simp only [push_push]
  obtain ⟨e1, e2⟩ := spi_write_byte_ok s
    (h.push ([spi_write_op s RC522_REG_COM_IRQ 0x7F]
      ++ [spi_write_op s RC522_REG_COM_IEN (0x80 ||| 0x77)]
      ++ [spi_write_op s RC522_REG_FIFO_LEVEL 0x80]
      ++ [spi_write_op s RC522_REG_CMD RC522_CMD_IDLE]
      ++ (List.range ((tx_bits + 7) / 8)).map
          (fun k => spi_write_op s RC522_REG_FIFO_DATA (tx (0 + k)))))
    RC522_REG_CMD RC522_CMD_TRANSCEIVE hok
  simp only [e1, if_false, e2, push_push]
  obtain ⟨f1, f2⟩ := spi_write_byte_ok s
    (h.push ([spi_write_op s RC522_REG_COM_IRQ 0x7F]
      ++ [spi_write_op s RC522_REG_COM_IEN (0x80 ||| 0x77)]
      ++ [spi_write_op s RC522_REG_FIFO_LEVEL 0x80]
      ++ [spi_write_op s RC522_REG_CMD RC522_CMD_IDLE]
      ++ (List.range ((tx_bits + 7) / 8)).map
          (fun k => spi_write_op s RC522_REG_FIFO_DATA (tx (0 + k)))
      ++ [spi_write_op s RC522_REG_CMD RC522_CMD_TRANSCEIVE]))
    RC522_REG_BIT_FRAMING (0x80 ||| (tx_bits % 8)) hok
  simp only [f1, if_false, f2, push_push]
  simp [send_ops, List.append_assoc]

theorem poll_value_push (s : rc522c_state) (h : Hal) (k : Nat) :
    poll_value s (h.push [spi_read_op s RC522_REG_COM_IRQ]) k = poll_value s h (k + 1) := by
  unfold poll_value
  rw [push_read_value]
  congr 1
  simp [Hal.push, List.replicate_succ]

/-- On a bus that does not fail the polling loop with budget `n ≥ 1` makes `k` polls,
`1 ≤ k ≤ n`: the first `k - 1` show none of the three flags, the loop stops early only
on a flag, and `irq` is the value of the last poll. -/
theorem poll_ok (s : rc522c_state) (n : Nat) (irq0 : Nat) (h : Hal) (hok : h.bus_ok) :
    ∃ k, k ≤ n ∧
      transceive_poll_loop s (n + 1) irq0 h
        = (none, poll_value s h k,
            h.push (List.replicate (k + 1) (spi_read_op s RC522_REG_COM_IRQ)))
      ∧ (∀ j, j < k → poll_value s h j &&& 0x31 = 0)
      ∧ (k < n → poll_value s h k &&& 0x31 ≠ 0) := by
  induction n generalizing irq0 h with
  | zero =>
    refine ⟨0, by omega, ?_, fun j hj => absurd hj (by omega), fun hk => absurd hk (by omega)⟩
    obtain ⟨a1, a2, a3⟩ := spi_read_byte_ok s h RC522_REG_COM_IRQ irq0 hok
    unfold transceive_poll_loop
    simp only [a1, if_false, a2, a3]
    split <;> simp [transceive_poll_loop, poll_value]
  | succ n ih =>
    obtain ⟨a1, a2, a3⟩ := spi_read_byte_ok s h RC522_REG_COM_IRQ irq0 hok
    by_cases hf : poll_value s h 0 &&& 0x31 = 0
    · obtain ⟨k, hk, e, p1, p2⟩ := ih (poll_value s h 0)
        (h.push [spi_read_op s RC522_REG_COM_IRQ]) (push_bus_ok h _ hok)
      refine ⟨k + 1, by omega, ?_, ?_, ?_⟩
      · rw [transceive_poll_loop]
        simp only [a1, if_false, a2, a3]
        have hf' : ¬ (h.read_value (h.log ++ [spi_read_op s RC522_REG_COM_IRQ]) &&& 0x31 ≠ 0) :=
          not_not.mpr hf
        rw [if_neg hf']
        have e' : transceive_poll_loop s (n + 1)
            (h.read_value (h.log ++ [spi_read_op s RC522_REG_COM_IRQ]))
            (h.push [spi_read_op s RC522_REG_COM_IRQ]) = _ := e
        rw [e', poll_value_push, push_push]
        simp [List.replicate_succ]
      · intro j hj
        cases j with
        | zero => exact hf
        | succ j =>
          have := p1 j (by omega)
          rwa [poll_value_push] at this
      · intro hlt
        have := p2 (by omega)
        rwa [poll_value_push] at this
    · refine ⟨0, by omega, ?_, fun j hj => absurd hj (by omega), fun _ => hf⟩
      rw [transceive_poll_loop]
      simp only [a1, if_false, a2, a3]
      have hf' : h.read_value (h.log ++ [spi_read_op s RC522_REG_COM_IRQ]) &&& 0x31 ≠ 0 := hf
      rw [if_pos hf']
      simp [poll_value]

theorem rx_loop_ok (s : rc522c_state) (n i : Nat) (rx : Buf) (h : Hal) (hok : h.bus_ok) :
    transceive_rx_loop s n i rx h
      = (none,
          fun j => if i ≤ j ∧ j < i + n then
            h.read_value (h.log ++ List.replicate (j - i + 1) (spi_read_op s RC522_REG_FIFO_DATA))
            else rx j,
          h.push (List.replicate n (spi_read_op s RC522_REG_FIFO_DATA))) := by
  induction n generalizing i rx h with
  | zero =>
    simp only [transceive_rx_loop, List.replicate_zero, push_nil, Prod.mk.injEq, true_and,
      and_true]
    funext j
    have : ¬ (i ≤ j ∧ j < i + 0) := by omega
    rw [if_neg this]
  | succ n ih =>
    obtain ⟨a1, a2, a3⟩ := spi_read_byte_ok s h RC522_REG_FIFO_DATA (rx i) hok
    rw [transceive_rx_loop]
    simp only [a1, if_false, a2, a3]
    rw [ih (i + 1) _ _ (push_bus_ok h _ hok), push_push]
    simp only [Prod.mk.injEq, true_and]
    constructor
    · funext j
      by_cases h1 : i + 1 ≤ j ∧ j < i + 1 + n
      · have h2 : i ≤ j ∧ j < i + (n + 1) := by omega
        rw [if_pos h1, if_pos h2, push_read_value]
        congr 1
        have e : j - i + 1 = (j - (i + 1) + 1) + 1 := by omega
        rw [e]
        simp [Hal.push, List.replicate_succ]
      · rw [if_neg h1]
        by_cases h3 : j = i
        · subst h3
          have h2 : j ≤ j ∧ j < j + (n + 1) := by omega
          rw [if_pos h2]
          simp [Buf.set]
        · have h2 : ¬ (i ≤ j ∧ j < i + (n + 1)) := by omega
          rw [if_neg h2]
          simp [Buf.set, h3]
    · simp [List.replicate_succ]

/-- The last part of `rc522c_transceive` on a bus that does not fail. -/
theorem receive_ok (s : rc522c_state) (h : Hal) (irq : Nat) (rx : Buf) (rx_bits : Int)
    (hok : h.bus_ok) :
    transceive_receive s h irq rx rx_bits =
      if error_value s h &&& 0xDB ≠ 0 then
        ⟨.ERROR_DEV_CMD_FAILED, set_error s 104 (error_value s h &&& 0xDB : Nat),
          h.push ((receive_ops s).take 2), rx, rx_bits⟩
      else if irq &&& 0x1 ≠ 0 then
        ⟨.ERROR_TAG_MISSING, set_error s 108 (error_value s h &&& 0xDB : Nat),
          h.push ((receive_ops s).take 2), rx, rx_bits⟩
      else if level_value s h = 0 then
        ⟨.ERROR_TAG_MISSING, set_error s 115 (error_value s h &&& 0xDB : Nat),
          h.push ((receive_ops s).take 3), rx, rx_bits⟩
      else
        ⟨.SUCCESS, s,
          h.push (receive_ops s
            ++ List.replicate (level_value s h) (spi_read_op s RC522_REG_FIFO_DATA)),
          fun j => if j < level_value s h then data_value s h j else rx j,
          reported_bits (level_value s h) (ctrl_value s h)⟩ := by
  unfold transceive_receive
  obtain ⟨a1, a2⟩ := spi_write_byte_ok s h RC522_REG_BIT_FRAMING 0 hok
  simp only [a1, if_false, a2]
  obtain ⟨b1, b2, b3⟩ := spi_read_byte_ok s (h.push [spi_write_op s RC522_REG_BIT_FRAMING 0])
    RC522_REG_ERROR ((h.push [spi_write_op s RC522_REG_BIT_FRAMING 0]).uninit 1)
    (push_bus_ok h _ hok)
  simp only [b1, if_false, b2, b3, push_push, push_read_value]
  have e1 : h.read_value ((h.push [spi_write_op s RC522_REG_BIT_FRAMING 0]).log
      ++ [spi_read_op s RC522_REG_ERROR]) = error_value s h := by
    simp [error_value, receive_ops, Hal.push]
  rw [e1]
  have t2 : [spi_write_op s RC522_REG_BIT_FRAMING 0] ++ [spi_read_op s RC522_REG_ERROR]
      = (receive_ops s).take 2 := rfl
  rw [t2]
  by_cases he : error_value s h &&& 0xDB ≠ 0
  · rw [if_pos he, if_pos he]
  · rw [if_neg he, if_neg he]
    by_cases hi : irq &&& 0x1 ≠ 0
    · rw [if_pos hi, if_pos hi]
    · rw [if_neg hi, if_neg hi]
      obtain ⟨c1, c2, c3⟩ := spi_read_byte_ok s (h.push ((receive_ops s).take 2))
        RC522_REG_FIFO_LEVEL ((h.push ((receive_ops s).take 2)).uninit 2) (push_bus_ok h _ hok)
      simp only [c1, if_false, c2, c3, push_push, push_read_value]
      have e2 : h.read_value ((h.push ((receive_ops s).take 2)).log
          ++ [spi_read_op s RC522_REG_FIFO_LEVEL]) = level_value s h := by
        simp [level_value, receive_ops, Hal.push]
      rw [e2]
      have t3 : (receive_ops s).take 2 ++ [spi_read_op s RC522_REG_FIFO_LEVEL]
          = (receive_ops s).take 3 := rfl
      rw [t3]
      by_cases hl : level_value s h = 0
      · rw [if_pos hl, if_pos hl]
      · rw [if_neg hl, if_neg hl]
        obtain ⟨d1, d2, d3⟩ := spi_read_byte_ok s (h.push ((receive_ops s).take 3))
          RC522_REG_CTRL ((h.push ((receive_ops s).take 3)).uninit 3) (push_bus_ok h _ hok)
        simp only [d1, if_false, d2, d3, push_push, push_read_value]
        have e3 : h.read_value ((h.push ((receive_ops s).take 3)).log
            ++ [spi_read_op s RC522_REG_CTRL]) = ctrl_value s h := by
          simp [ctrl_value, receive_ops, Hal.push]
        rw [e3]
        have t4 : (receive_ops s).take 3 ++ [spi_read_op s RC522_REG_CTRL] = receive_ops s := rfl
        rw [t4]
        have hn : ¬ (level_value s h = 0 ∧
            (if ctrl_value s h &&& 0x7 ≠ 0 then
              (level_value s h : Int) * 8 - (8 - ((ctrl_value s h &&& 0x7 : Nat) : Int))
              else (level_value s h : Int) * 8) > 0) := fun hc => hl hc.1
        rw [if_neg hn, rx_loop_ok s _ 0 rx _ (push_bus_ok h _ hok)]
        simp only [push_push, push_read_value]
        congr 1
        funext j
        simp [data_value, Hal.push, List.append_assoc]

/-- The polling loop of a transceive run on a bus that does not fail: it makes `k + 1`
polls with `k < 2000`, `irq` is the value of the last one, all earlier ones showed none
of the three flags, and it stopped before the budget only on a flag. -/
theorem polled_ok (s : rc522c_state) (h : Hal) (tx : Buf) (tx_bits : Nat) (hok : h.bus_ok) :
    ∃ k, k < 2000
      ∧ polled s h tx tx_bits
        = (none, poll_value s (sent_hal s h tx tx_bits) k,
            (sent_hal s h tx tx_bits).push
              (List.replicate (k + 1) (spi_read_op s RC522_REG_COM_IRQ)))
      ∧ (∀ j, j < k → poll_value s (sent_hal s h tx tx_bits) j &&& 0x31 = 0)
      ∧ (k < 1999 → poll_value s (sent_hal s h tx tx_bits) k &&& 0x31 ≠ 0) := by
  obtain ⟨k, hk, e, p1, p2⟩ := poll_ok s 1999 ((sent_hal s h tx tx_bits).uninit 0)
    (sent_hal s h tx tx_bits) (push_bus_ok h _ hok)
  exact ⟨k, by omega, e, p1, p2⟩

/-- On a bus that does not fail a transceive run is its last part, started after the
polling loop. -/
theorem transceive_ok (s : rc522c_state) (h : Hal) (tx : Buf) (tx_bits : Nat) (rx : Buf)
    (rx_bits : Int) (hok : h.bus_ok) :
    rc522c_transceive s h tx tx_bits rx rx_bits
      = transceive_receive s (polled s h tx tx_bits).2.2 (polled s h tx tx_bits).2.1
          rx rx_bits := by
  obtain ⟨k, _, e, _, _⟩ := polled_ok s h tx tx_bits hok
  unfold rc522c_transceive
  rw [send_ok s h tx tx_bits hok]
  simp only []
  have e' : transceive_poll_loop s 2000 ((h.push (send_ops s tx tx_bits)).uninit 0)
      (h.push (send_ops s tx tx_bits)) = polled s h tx tx_bits := rfl
  rw [e', e]

theorem polled_bus_ok (s : rc522c_state) (h : Hal) (tx : Buf) (tx_bits : Nat) (hok : h.bus_ok) :
    (polled s h tx tx_bits).2.2.bus_ok := by
  obtain ⟨k, _, e, _, _⟩ := polled_ok s h tx tx_bits hok
  rw [e]
  exact hok

theorem read_op_ne (s : rc522c_state) (a b : Nat) (ha : a < 64) (hb : b < 64) (hab : a ≠ b) :
    spi_read_op s a ≠ spi_read_op s b := by
  unfold spi_read_op
  intro hc
  simp only [HalOp.spiXfer.injEq, List.cons.injEq, and_true, true_and] at hc
  have h1 : ∀ x, x < 64 → ((x <<< 1) ||| 0x80) % 256 = 2 * x + 128 := by
    intro x hx
    interval_cases x <;> rfl
  rw [h1 a ha, h1 b hb] at hc
  omega

theorem count_read_send_ops (s : rc522c_state) (tx : Buf) (tx_bits a : Nat) :
    (send_ops s tx tx_bits).count (spi_read_op s a) = 0 := by
  apply List.count_eq_zero.mpr
  simp [send_ops, spi_write_op, spi_read_op]

/-- Up to and including the read of the error register a transceive run on a bus that
does not fail reads neither the FIFO data register nor the FIFO-level register. -/
theorem count_fifo_before_level (s : rc522c_state) (h : Hal) (tx : Buf) (tx_bits : Nat)
    (hok : h.bus_ok) (a : Nat) (ha : a = RC522_REG_FIFO_DATA ∨ a = RC522_REG_FIFO_LEVEL) :
    (((polled s h tx tx_bits).2.2.push ((receive_ops s).take 2)).log).count (spi_read_op s a)
      = h.log.count (spi_read_op s a) := by
  obtain ⟨k, _, e, _, _⟩ := polled_ok s h tx tx_bits hok
  rw [e]
  have n1 : spi_read_op s RC522_REG_COM_IRQ ≠ spi_read_op s a := by
    rcases ha with rfl | rfl <;> exact read_op_ne s _ _ (by decide) (by decide) (by decide)
  have n2 : spi_read_op s RC522_REG_ERROR ≠ spi_read_op s a := by
    rcases ha with rfl | rfl <;> exact read_op_ne s _ _ (by decide) (by decide) (by decide)
  have n3 : spi_write_op s RC522_REG_BIT_FRAMING 0 ≠ spi_read_op s a := by
    simp [spi_write_op, spi_read_op]
  simp only [sent_hal, Hal.push, receive_ops, List.take, List.count_append,
    count_read_send_ops, List.count_replicate, List.count_cons, List.count_nil]
  simp [n1, n2, n3]

/-- C11: in every `rc522c_transceive` run on a bus that does not fail, with `irq` the last
value read in the polling loop and `e` the value read from the error register AND 0xDB:
if `e` is non-zero the status is DEV_CMD_FAILED with `error_code` `e`, whatever `irq` is
(also with the timer-expired bit set); if `e` is zero and bit 0x01 of `irq` is set the
status is TAG_MISSING. In both cases the receive buffer and `*rx_bits` are left as they
were, the read of the error register is the last bus call, and neither the FIFO data
register nor the FIFO-level register has been read. -/
theorem rc522c_transceive_error_timer (s : rc522c_state) (h : Hal) (tx : Buf) (tx_bits : Nat)
    (rx : Buf) (rx_bits : Int) (hok : h.bus_ok) :
    let irq := (polled s h tx tx_bits).2.1
    let hp := (polled s h tx tx_bits).2.2
    let e := error_value s hp &&& 0xDB
    let r := rc522c_transceive s h tx tx_bits rx rx_bits
    (∃ k, k < 2000
        ∧ hp = (sent_hal s h tx tx_bits).push
            (List.replicate (k + 1) (spi_read_op s RC522_REG_COM_IRQ))
        ∧ irq = h.read_value hp.log)
    ∧ (e ≠ 0 →
        r.status = .ERROR_DEV_CMD_FAILED ∧ r.s.error_code = e ∧ r.rx = rx ∧ r.rx_bits = rx_bits
        ∧ r.h = hp.push [spi_write_op s RC522_REG_BIT_FRAMING 0, spi_read_op s RC522_REG_ERROR])
    ∧ (e = 0 → irq &&& 0x01 ≠ 0 →
        r.status = .ERROR_TAG_MISSING ∧ r.rx = rx ∧ r.rx_bits = rx_bits
        ∧ r.h = hp.push [spi_write_op s RC522_REG_BIT_FRAMING 0, spi_read_op s RC522_REG_ERROR])
    ∧ ((hp.push [spi_write_op s RC522_REG_BIT_FRAMING 0,
          spi_read_op s RC522_REG_ERROR]).log.count (spi_read_op s RC522_REG_FIFO_DATA)
        = h.log.count (spi_read_op s RC522_REG_FIFO_DATA))
    ∧ ((hp.push [spi_write_op s RC522_REG_BIT_FRAMING 0,
          spi_read_op s RC522_REG_ERROR]).log.count (spi_read_op s RC522_REG_FIFO_LEVEL)
        = h.log.count (spi_read_op s RC522_REG_FIFO_LEVEL)) := by
  intro irq hp e r
  have hr : r = transceive_receive s hp irq rx rx_bits := transceive_ok s h tx tx_bits rx rx_bits hok
  rw [receive_ok s hp irq rx rx_bits (polled_bus_ok s h tx tx_bits hok)] at hr
  have t2 : (receive_ops s).take 2
      = [spi_write_op s RC522_REG_BIT_FRAMING 0, spi_read_op s RC522_REG_ERROR] := rfl
  rw [t2] at hr
  refine ⟨?_, ?_, ?_, ?_, ?_⟩
  · obtain ⟨k, hk, eq, _, _⟩ := polled_ok s h tx tx_bits hok
    refine ⟨k, hk, ?_, ?_⟩
    · show (polled s h tx tx_bits).2.2 = _
      rw [eq]
    · show (polled s h tx tx_bits).2.1 = h.read_value (polled s h tx tx_bits).2.2.log
      rw [eq]
      rfl
  · intro he
    have he' : error_value s hp &&& 0xDB ≠ 0 := he
    rw [if_pos he'] at hr
    rw [hr]
    exact ⟨rfl, rfl, rfl, rfl, rfl⟩
  · intro he hi
    have he' : ¬ (error_value s hp &&& 0xDB ≠ 0) := not_not.mpr he
    rw [if_neg he', if_pos hi] at hr
    rw [hr]
    exact ⟨rfl, rfl, rfl, rfl⟩
  · exact count_fifo_before_level s h tx tx_bits hok _ (Or.inl rfl)
  · exact count_fifo_before_level s h tx tx_bits hok _ (Or.inr rfl)

theorem mockHal_bus_ok (script : List MockExchange) : (mockHal script).bus_ok := by
  intro log
  show 0 < (mockRespond script log).status
  unfold mockRespond
  simp only []
  split <;> exact (by decide : (0 : Int) < 2)

theorem silentHal_bus_ok (level : Nat) : (silentHal level).bus_ok := by
  intro log
  show (0 : Int) < (match log.getLast? with
    | some (.spiXfer _ [0x94, 0]) => (⟨2, [0, level]⟩ : HalReply)
    | _ => ⟨2, [0, 0]⟩).status
  split <;> exact (by decide : (0 : Int) < 2)

/-- C11 witness: the chip reports a timer expiry (0x01) together with a FIFO overflow
(error bit 0x10): the run ends with DEV_CMD_FAILED and `error_code` 0x10. -/
theorem rc522c_transceive_error_timer_witness :
    (mockHal (mockTimeout 0x10)).bus_ok
    ∧ (rc522c_transceive state0 (mockHal (mockTimeout 0x10)) (Buf.ofList [0x26]) 7
        (fun _ => 0) 0).status = .ERROR_DEV_CMD_FAILED
    ∧ (rc522c_transceive state0 (mockHal (mockTimeout 0x10)) (Buf.ofList [0x26]) 7
        (fun _ => 0) 0).s.error_code = 0x10 :=
  ⟨mockHal_bus_ok _,
    ((rc522c_transceive_error_timer state0 (mockHal (mockTimeout 0x10)) (Buf.ofList [0x26]) 7
      (fun _ => 0) 0 (mockHal_bus_ok _)).2.1 (by decide!)).1,
    by decide!⟩

theorem and_one_of_and_flags (x : Nat) (hx : x &&& 0x31 = 0) : x &&& 0x1 = 0 := by
  have h49 : (0x31 : Nat) &&& 0x1 = 0x1 := by decide
  have : x &&& 0x1 = (x &&& 0x31) &&& 0x1 := by
    rw [Nat.land_assoc, h49]
  rw [this, hx]
  rfl

theorem reported_bits_bounds (n ctrl : Nat) :
    (ctrl &&& 0x7 = 0 → reported_bits n ctrl = 8 * (n : Int))
    ∧ (ctrl &&& 0x7 ≠ 0 →
        reported_bits n ctrl = 8 * (n : Int) - (8 - ((ctrl &&& 0x7 : Nat) : Int)))
    ∧ 8 * ((n : Int) - 1) < reported_bits n ctrl ∧ reported_bits n ctrl ≤ 8 * (n : Int) := by
  have hv : ctrl &&& 0x7 ≤ 7 := Nat.and_le_right
  unfold reported_bits
  by_cases h0 : ctrl &&& 0x7 = 0
  · simp only [h0, ne_eq, not_true_eq_false, if_false]
    refine ⟨fun _ => by ring, fun hc => absurd hc (by simp), by omega, by omega⟩
  · simp only [h0, ne_eq, not_false_eq_true, if_true]
    refine ⟨fun hc => absurd hc (by simp), fun _ => by ring, by omega, by omega⟩

/-- C12: in every `rc522c_transceive` run on a bus that does not fail which passes the
error check (masked error register 0) and the timer check (bit 0x01 of `irq` clear), with
`n` the value read from the FIFO-level register and `v` the value read from the control
register AND 7: if `n = 0` the status is TAG_MISSING; if `1 ≤ n ≤ 64` the status is
SUCCESS, the reported bit count is `8 * n` when `v = 0` and `8 * n - (8 - v)` otherwise
(so `8 * (n - 1) < rx_bits ≤ 8 * n`), exactly `n` reads of the FIFO data register follow
the read of the control register, and the receive buffer holds their values in read
order at positions `0..n-1` and is unchanged elsewhere. -/
theorem rc522c_transceive_received (s : rc522c_state) (h : Hal) (tx : Buf) (tx_bits : Nat)
    (rx : Buf) (rx_bits : Int) (hok : h.bus_ok)
    (he : error_value s (polled s h tx tx_bits).2.2 &&& 0xDB = 0)
    (hi : (polled s h tx tx_bits).2.1 &&& 0x01 = 0) :
    let hp := (polled s h tx tx_bits).2.2
    let n := level_value s hp
    let v := ctrl_value s hp &&& 0x7
    let r := rc522c_transceive s h tx tx_bits rx rx_bits
    (n = 0 → r.status = .ERROR_TAG_MISSING)
    ∧ (1 ≤ n → n ≤ 64 →
        r.status = .SUCCESS
        ∧ (v = 0 → r.rx_bits = 8 * (n : Int))
        ∧ (v ≠ 0 → r.rx_bits = 8 * (n : Int) - (8 - (v : Int)))
        ∧ 8 * ((n : Int) - 1) < r.rx_bits ∧ r.rx_bits ≤ 8 * (n : Int)
        ∧ (∀ j, j < n → r.rx j = data_value s hp j)
        ∧ (∀ j, n ≤ j → r.rx j = rx j)
        ∧ r.h = hp.push (receive_ops s
            ++ List.replicate n (spi_read_op s RC522_REG_FIFO_DATA))) := by
  intro hp n v r
  have hr : r = transceive_receive s hp (polled s h tx tx_bits).2.1 rx rx_bits :=
    transceive_ok s h tx tx_bits rx rx_bits hok
  rw [receive_ok s hp _ rx rx_bits (polled_bus_ok s h tx tx_bits hok)] at hr
  have he' : ¬ (error_value s hp &&& 0xDB ≠ 0) := not_not.mpr he
  have hi' : ¬ ((polled s h tx tx_bits).2.1 &&& 0x1 ≠ 0) := not_not.mpr hi
  rw [if_neg he', if_neg hi'] at hr
  constructor
  · intro hn
    have hn' : level_value s hp = 0 := hn
    rw [if_pos hn'] at hr
    rw [hr]
  · intro h1 _
    have hn' : ¬ level_value s hp = 0 := by
      have : 1 ≤ level_value s hp := h1
      omega
    rw [if_neg hn'] at hr
    obtain ⟨b1, b2, b3, b4⟩ := reported_bits_bounds n (ctrl_value s hp)
    rw [hr]
    refine ⟨rfl, b1, b2, b3, b4, ?_, ?_, rfl⟩
    · intro j hj
      show (if j < level_value s hp then data_value s hp j else rx j) = _
      rw [if_pos hj]
    · intro j hj
      show (if j < level_value s hp then data_value s hp j else rx j) = _
      rw [if_neg (by omega)]

/-- C12 witness: a two-byte answer (ATQA) is received whole: SUCCESS with 16 bits. -/
theorem rc522c_transceive_received_witness :
    (mockHal [mockBytes [0x44, 0x00]]).bus_ok
    ∧ (rc522c_transceive state0 (mockHal [mockBytes [0x44, 0x00]]) (Buf.ofList [0x26]) 7
        (fun _ => 0) 0).status = .SUCCESS
    ∧ (rc522c_transceive state0 (mockHal [mockBytes [0x44, 0x00]]) (Buf.ofList [0x26]) 7
        (fun _ => 0) 0).rx_bits = 16 :=
  ⟨mockHal_bus_ok _,
    ((rc522c_transceive_received state0 (mockHal [mockBytes [0x44, 0x00]]) (Buf.ofList [0x26]) 7
      (fun _ => 0) 0 (mockHal_bus_ok _) (by decide!) (by decide!)).2 (by decide!)
        (by decide!)).1,
    by decide!⟩

theorem silent_read_last (level : Nat) (l : List HalOp) (op : HalOp) :
    (silentHal level).read_value (l ++ [op]) = (silentHal level).read_value [op] := by
  unfold Hal.read_value silentHal
  simp only [List.getLast?_append, List.getLast?_singleton, Option.or_some]

theorem silent_poll_value (level : Nat) (s : rc522c_state) (l : List HalOp) (j : Nat) :
    poll_value s ((silentHal level).push l) j = 0 := by
  unfold poll_value
  rw [push_read_value, List.replicate_succ', ← List.append_assoc, silent_read_last]
  rfl

theorem silent_error_value (level : Nat) (s : rc522c_state) (l : List HalOp) :
    error_value s ((silentHal level).push l) = 0 := by
  unfold error_value
  rw [push_read_value]
  have : (receive_ops s).take 2
      = [spi_write_op s RC522_REG_BIT_FRAMING 0] ++ [spi_read_op s RC522_REG_ERROR] := rfl
  rw [this, ← List.append_assoc, silent_read_last]
  rfl

theorem silent_level_value (level : Nat) (s : rc522c_state) (l : List HalOp) :
    level_value s ((silentHal level).push l) = level % 256 := by
  unfold level_value
  rw [push_read_value]
  have : (receive_ops s).take 3
      = [spi_write_op s RC522_REG_BIT_FRAMING 0, spi_read_op s RC522_REG_ERROR]
        ++ [spi_read_op s RC522_REG_FIFO_LEVEL] := rfl
  rw [this, ← List.append_assoc, silent_read_last]
  rfl

theorem silent_polled (level : Nat) (s : rc522c_state) (tx : Buf) (tx_bits : Nat) :
    ∃ l, (polled s (silentHal level) tx tx_bits).2.2 = (silentHal level).push l
      ∧ (polled s (silentHal level) tx tx_bits).2.1 = 0 := by
  obtain ⟨k, _, e, _, _⟩ := polled_ok s (silentHal level) tx tx_bits (silentHal_bus_ok level)
  rw [e]
  refine ⟨send_ops s tx tx_bits ++ List.replicate (k + 1) (spi_read_op s RC522_REG_COM_IRQ),
    ?_, ?_⟩
  · simp only [sent_hal, push_push]
  · exact silent_poll_value level s _ k

/-- What `rc522c_transceive` returns on the silent chip: the polling loop runs out, and
the status depends on the FIFO-level register alone. -/
theorem silent_transceive_status (level : Nat) (s : rc522c_state) (tx : Buf) (tx_bits : Nat)
    (rx : Buf) (rx_bits : Int) :
    (rc522c_transceive s (silentHal level) tx tx_bits rx rx_bits).status
      = if level % 256 = 0 then .ERROR_TAG_MISSING else .SUCCESS := by
  obtain ⟨l, e1, e2⟩ := silent_polled level s tx tx_bits
  rw [transceive_ok s _ tx tx_bits rx rx_bits (silentHal_bus_ok level), e1, e2,
    receive_ok s _ 0 rx rx_bits (push_bus_ok _ _ (silentHal_bus_ok level)),
    silent_error_value, silent_level_value]
  have z1 : ¬ ((0 : Nat) &&& 0xDB ≠ 0) := by decide
  have z2 : ¬ ((0 : Nat) &&& 0x1 ≠ 0) := by decide
  rw [if_neg z1, if_neg z2]
  split <;> rfl

/-- C13 (as stated) fails: on a bus that does not fail, with the masked error register 0
and none of the three flags shown in any of the 2000 polls, a FIFO-level register that
then reads 1 makes `rc522c_transceive` return SUCCESS, not TAG_MISSING. -/
theorem poll_exhausted_not_tag_missing :
    (silentHal 1).bus_ok
    ∧ (∀ j, j < 2000 →
        poll_value state0 (sent_hal state0 (silentHal 1) (Buf.ofList [0x26]) 7) j &&& 0x31 = 0)
    ∧ error_value state0 (polled state0 (silentHal 1) (Buf.ofList [0x26]) 7).2.2 &&& 0xDB = 0
    ∧ (rc522c_transceive state0 (silentHal 1) (Buf.ofList [0x26]) 7 (fun _ => 0) 0).status
        = .SUCCESS
    ∧ (rc522c_transceive state0 (silentHal 1) (Buf.ofList [0x26]) 7 (fun _ => 0) 0).status
        ≠ .ERROR_TAG_MISSING := by
  have hst := silent_transceive_status 1 state0 (Buf.ofList [0x26]) 7 (fun _ => 0) 0
  have h1 : ¬ (1 % 256 = 0) := by decide
  rw [if_neg h1] at hst
  refine ⟨silentHal_bus_ok 1, ?_, ?_, hst, ?_⟩
  · intro j _
    rw [sent_hal, silent_poll_value]
    rfl
  · obtain ⟨l, e1, _⟩ := silent_polled 1 state0 (Buf.ofList [0x26]) 7
    rw [e1, silent_error_value]
    rfl
  · rw [hst]
    decide

/-- C13 (amended): in every `rc522c_transceive` run on a bus that does not fail in which
none of the 2000 polls of the interrupt register shows data-received (0x20),
command-complete (0x10) or timer-expired (0x01), the masked error register is 0 and the
FIFO-level register then reads 0: the polling loop uses its whole budget of 2000 polls
and the status is TAG_MISSING, with the receive buffer left as it was. -/
theorem rc522c_transceive_poll_exhausted (s : rc522c_state) (h : Hal) (tx : Buf)
    (tx_bits : Nat) (rx : Buf) (rx_bits : Int) (hok : h.bus_ok)
    (hq : ∀ j, j < 2000 → poll_value s (sent_hal s h tx tx_bits) j &&& 0x31 = 0)
    (he : error_value s (polled s h tx tx_bits).2.2 &&& 0xDB = 0)
    (hl : level_value s (polled s h tx tx_bits).2.2 = 0) :
    (polled s h tx tx_bits).2.2
        = (sent_hal s h tx tx_bits).push
            (List.replicate 2000 (spi_read_op s RC522_REG_COM_IRQ))
    ∧ (rc522c_transceive s h tx tx_bits rx rx_bits).status = .ERROR_TAG_MISSING
    ∧ (rc522c_transceive s h tx tx_bits rx rx_bits).rx = rx := by
  obtain ⟨k, hk, e, _, p2⟩ := polled_ok s h tx tx_bits hok
  have hk' : k = 1999 := by
    by_contra hc
    exact p2 (by omega) (hq k hk)
  subst hk'
  have hirq : (polled s h tx tx_bits).2.1 &&& 0x1 = 0 := by
    rw [e]
    exact and_one_of_and_flags _ (hq 1999 (by decide))
  have hr := transceive_ok s h tx tx_bits rx rx_bits hok
  rw [receive_ok s _ _ rx rx_bits (polled_bus_ok s h tx tx_bits hok),
    if_neg (not_not.mpr he), if_neg (not_not.mpr hirq), if_pos hl] at hr
  refine ⟨by rw [e], by rw [hr], by rw [hr]⟩

/-- C13 witness: the silent chip with an empty FIFO: 2000 polls, then TAG_MISSING. -/
theorem rc522c_transceive_poll_exhausted_witness :
    (silentHal 0).bus_ok
    ∧ (rc522c_transceive state0 (silentHal 0) (Buf.ofList [0x26]) 7 (fun _ => 0) 0).status
        = .ERROR_TAG_MISSING :=
  ⟨silentHal_bus_ok 0,
    (rc522c_transceive_poll_exhausted state0 (silentHal 0) (Buf.ofList [0x26]) 7 (fun _ => 0) 0
      (silentHal_bus_ok 0)
      (fun j _ => by rw [sent_hal, silent_poll_value]; rfl)
      (by
        obtain ⟨l, e1, _⟩ := silent_polled 0 state0 (Buf.ofList [0x26]) 7
        rw [e1, silent_error_value]
        rfl)
      (by
        obtain ⟨l, e1, _⟩ := silent_polled 0 state0 (Buf.ofList [0x26]) 7
        rw [e1, silent_level_value])).2.1⟩

/-- C17 fails on the code: when the FIFO-level register reads 100, `rc522c_transceive`
returns SUCCESS after 100 reads of the FIFO data register, stores the bytes in
`rx[0..99]` (positions 64 and 99 of the receive buffer included, past position 63) and
reports 800 bits; the comment above the function promises callers that 64 bytes
suffice. -/
theorem rc522c_transceive_fifo_overrun :
    (mockHal [mockBytes (List.replicate 100 0xAB)]).bus_ok
    ∧ level_value state0
        (polled state0 (mockHal [mockBytes (List.replicate 100 0xAB)]) (Buf.ofList [0x26]) 7).2.2
        = 100
    ∧ (rc522c_transceive state0 (mockHal [mockBytes (List.replicate 100 0xAB)])
        (Buf.ofList [0x26]) 7 (fun _ => 0) 0).status = .SUCCESS
    ∧ ((rc522c_transceive state0 (mockHal [mockBytes (List.replicate 100 0xAB)])
        (Buf.ofList [0x26]) 7 (fun _ => 0) 0).h.log.count
          (spi_read_op state0 RC522_REG_FIFO_DATA)) = 100
    ∧ (rc522c_transceive state0 (mockHal [mockBytes (List.replicate 100 0xAB)])
        (Buf.ofList [0x26]) 7 (fun _ => 0) 0).rx 64 = 0xAB
    ∧ (rc522c_transceive state0 (mockHal [mockBytes (List.replicate 100 0xAB)])
        (Buf.ofList [0x26]) 7 (fun _ => 0) 0).rx 99 = 0xAB
    ∧ (rc522c_transceive state0 (mockHal [mockBytes (List.replicate 100 0xAB)])
        (Buf.ofList [0x26]) 7 (fun _ => 0) 0).rx_bits = 800 :=
  ⟨mockHal_bus_ok _, by decide!, by decide!, by decide!, by decide!, by decide!, by decide!⟩

/-! ## Lemmas: how many bytes an exchange drains into the receive array -/

theorem grows_refl (s : rc522c_state) (h : Hal) : Hal.grows s 0 h h := ⟨rfl, rfl, le_refl _⟩

theorem grows_trans {s : rc522c_state} {n m : Nat} {h1 h2 h3 : Hal}
    (a : Hal.grows s n h1 h2) (b : Hal.grows s m h2 h3) : Hal.grows s (n + m) h1 h3 :=
  ⟨b.1.trans a.1, b.2.1.trans a.2.1, by have := a.2.2; have := b.2.2; omega⟩

theorem grows_mono {s : rc522c_state} {n m : Nat} {h1 h2 : Hal} (a : Hal.grows s n h1 h2)
    (hnm : n ≤ m) : Hal.grows s m h1 h2 :=
  ⟨a.1, a.2.1, by have := a.2.2; omega⟩

theorem grows_push (s : rc522c_state) (h : Hal) (ops : List HalOp) :
    Hal.grows s (ops.count (spi_read_op s RC522_REG_FIFO_DATA)) h (h.push ops) :=
  ⟨rfl, rfl, by simp [Hal.push, List.count_append]⟩

theorem grows_write (s : rc522c_state) (h : Hal) (addr val : Nat) :
    Hal.grows s 0 h (spi_write_byte s h addr val).2 := by
  have := grows_push s h [spi_write_op s addr val]
  have e : [spi_write_op s addr val].count (spi_read_op s RC522_REG_FIFO_DATA) = 0 := by
    simp [spi_write_op, spi_read_op]
  rw [e] at this
  exact this

theorem grows_read (s : rc522c_state) (h : Hal) (addr val : Nat) :
    Hal.grows s 1 h (spi_read_byte s h addr val).2.2 := by
  have := grows_push s h [spi_read_op s addr]
  refine grows_mono this ?_
  exact List.count_le_length _ _

theorem grows_read_other (s : rc522c_state) (h : Hal) (addr val : Nat) (ha : addr < 64)
    (hne : addr ≠ RC522_REG_FIFO_DATA) : Hal.grows s 0 h (spi_read_byte s h addr val).2.2 := by
  have := grows_push s h [spi_read_op s addr]
  have e : [spi_read_op s addr].count (spi_read_op s RC522_REG_FIFO_DATA) = 0 := by
    apply List.count_eq_zero.mpr
    simp only [List.mem_singleton]
    exact fun hc => read_op_ne s _ _ (by decide) ha (Ne.symm hne) hc
  rw [e] at this
  exact this

theorem grows_tx_loop (s : rc522c_state) (tx : Buf) (n i : Nat) (h : Hal) :
    Hal.grows s 0 h (transceive_tx_loop s tx n i h).2 := by
  induction n generalizing i h with
  | zero => exact grows_refl s h
  | succ n ih =>
    unfold transceive_tx_loop
    simp only []
    split
    · exact grows_write s h _ _
    · exact grows_trans (grows_write s h _ _) (ih _ _)

theorem grows_poll_loop (s : rc522c_state) (n irq : Nat) (h : Hal) :
    Hal.grows s 0 h (transceive_poll_loop s n irq h).2.2 := by
  induction n generalizing irq h with
  | zero => exact grows_refl s h
  | succ n ih =>
    have g := grows_read_other s h RC522_REG_COM_IRQ irq (by decide) (by decide)
    unfold transceive_poll_loop
    simp only []
    split
    · exact g
    · split
      · exact g
      · exact grows_trans g (ih _ _)

theorem grows_rx_loop (s : rc522c_state) (n i : Nat) (rx : Buf) (h : Hal) :
    Hal.grows s n h (transceive_rx_loop s n i rx h).2.2 := by
  induction n generalizing i rx h with
  | zero => exact grows_refl s h
  | succ n ih =>
    have g := grows_read s h RC522_REG_FIFO_DATA (rx i)
    unfold transceive_rx_loop
    simp only []
    split
    · exact grows_mono g (by omega)
    · exact grows_mono (grows_trans g (ih _ _ _)) (by omega)

theorem grows_step0 {s : rc522c_state} {n : Nat} {h1 h2 h3 : Hal}
    (a : Hal.grows s 0 h1 h2) (b : Hal.grows s n h2 h3) : Hal.grows s n h1 h3 :=
  grows_mono (grows_trans a b) (by omega)

theorem grows_ite_pair {α : Type} (s : rc522c_state) (n : Nat) (h : Hal) (c : Prop)
    [Decidable c] (a b : α × Hal) (ha : Hal.grows s n h a.2) (hb : Hal.grows s n h b.2) :
    Hal.grows s n h (if c then a else b).2 := by
  split
  · exact ha
  · exact hb

theorem grows_ite_result (s : rc522c_state) (n : Nat) (h : Hal) (c : Prop) [Decidable c]
    (a b : transceive_result) (ha : Hal.grows s n h a.h) (hb : Hal.grows s n h b.h) :
    Hal.grows s n h (if c then a else b).h := by
  split
  · exact ha
  · exact hb

theorem grows_send (s : rc522c_state) (h : Hal) (tx : Buf) (tx_bits : Nat) :
    Hal.grows s 0 h (transceive_send s h tx tx_bits).2 := by
  have g1 := grows_write s h RC522_REG_COM_IRQ 0x7F
  have g2 := grows_step0 g1 (grows_write s _ RC522_REG_COM_IEN (0x80 ||| 0x77))
  have g3 := grows_step0 g2 (grows_write s _ RC522_REG_FIFO_LEVEL 0x80)
  have g4 := grows_step0 g3 (grows_write s _ RC522_REG_CMD RC522_CMD_IDLE)
  have g5 := grows_step0 g4 (grows_tx_loop s tx ((tx_bits + 7) / 8) 0 _)
  unfold transceive_send
  simp only []
  refine grows_ite_pair s 0 h _ _ _ g1 ?_
  refine grows_ite_pair s 0 h _ _ _ g2 ?_
  refine grows_ite_pair s 0 h _ _ _ g3 ?_
  refine grows_ite_pair s 0 h _ _ _ g4 ?_
  split
  · rename_i heq
    rw [heq] at g5
    exact g5
  · rename_i heq
    rw [heq] at g5
    have g6 := grows_step0 g5 (grows_write s _ RC522_REG_CMD RC522_CMD_TRANSCEIVE)
    have g7 := grows_step0 g6
      (grows_write s _ RC522_REG_BIT_FRAMING (0x80 ||| (tx_bits % 8)))
    refine grows_ite_pair s 0 h _ _ _ g6 ?_
    exact grows_ite_pair s 0 h _ _ _ g7 g7

theorem ite_le_of_le (c : Prop) [Decidable c] (a b n : Nat) (ha : a ≤ n) (hb : b ≤ n) :
    (if c then a else b) ≤ n := by
  split
  · exact ha
  · exact hb

theorem grows_rx_loop_match (s : rc522c_state) (m : Nat) (rx : Buf) (h0 h : Hal) (bits : Int)
    (n : Nat) (g : Hal.grows s n h0 (transceive_rx_loop s m 0 rx h).2.2) :
    Hal.grows s n h0 (match transceive_rx_loop s m 0 rx h with
      | (some ret, rx, h) =>
        (⟨ rc522c_status.ERROR_PIGPIO, set_error s 129 ret, h, rx, bits⟩ : transceive_result)
      | (none, rx, h) => ⟨.SUCCESS, s, h, rx, bits⟩).h := by
  split
  · rename_i heq
    rw [heq] at g
    exact g
  · rename_i heq
    rw [heq] at g
    exact g

theorem grows_receive (s : rc522c_state) (h : Hal) (irq : Nat) (rx : Buf) (rx_bits : Int)
    (n : Nat) (hn : 1 ≤ n) (hf : h.fifo_level_le n) :
    Hal.grows s n h (transceive_receive s h irq rx rx_bits).h := by
  have g1 := grows_write s h RC522_REG_BIT_FRAMING 0
  have g2 := grows_step0 g1 (grows_read_other s _ RC522_REG_ERROR
    (Hal.uninit (spi_write_byte s h RC522_REG_BIT_FRAMING 0).2 1) (by decide) (by decide))
  have g3 := grows_step0 g2 (grows_read_other s _ RC522_REG_FIFO_LEVEL
    (Hal.uninit (spi_read_byte s (spi_write_byte s h RC522_REG_BIT_FRAMING 0).2 RC522_REG_ERROR
      (Hal.uninit (spi_write_byte s h RC522_REG_BIT_FRAMING 0).2 1)).2.2 2)
    (by decide) (by decide))
  have g4 := grows_step0 g3 (grows_read_other s _ RC522_REG_CTRL
    (Hal.uninit (spi_read_byte s (spi_read_byte s (spi_write_byte s h RC522_REG_BIT_FRAMING 0).2
      RC522_REG_ERROR (Hal.uninit (spi_write_byte s h RC522_REG_BIT_FRAMING 0).2 1)).2.2
      RC522_REG_FIFO_LEVEL
      (Hal.uninit (spi_read_byte s (spi_write_byte s h RC522_REG_BIT_FRAMING 0).2 RC522_REG_ERROR
        (Hal.uninit (spi_write_byte s h RC522_REG_BIT_FRAMING 0).2 1)).2.2 2)).2.2 3)
    (by decide) (by decide))
  have hl := hf s (h.log ++ [spi_write_op s RC522_REG_BIT_FRAMING 0]
    ++ [spi_read_op s RC522_REG_ERROR])
  unfold transceive_receive
  simp only []
  refine grows_ite_result s n h _ _ _ (grows_mono g1 (by omega)) ?_
  refine grows_ite_result s n h _ _ _ (grows_mono g2 (by omega)) ?_
  refine grows_ite_result s n h _ _ _ (grows_mono g2 (by omega)) ?_
  refine grows_ite_result s n h _ _ _ (grows_mono g2 (by omega)) ?_
  refine grows_ite_result s n h _ _ _ (grows_mono g3 (by omega)) ?_
  refine grows_ite_result s n h _ _ _ (grows_mono g3 (by omega)) ?_
  refine grows_ite_result s n h _ _ _ (grows_mono g4 (by omega)) ?_
  apply grows_rx_loop_match
  refine grows_mono (grows_step0 g4 (grows_rx_loop s _ 0 rx _)) ?_
  exact ite_le_of_le _ _ _ _ hn hl

/-- A call of `rc522c_transceive` leaves the bus as it was and, when the FIFO-level
register never reports more than `n` bytes (`n ≥ 1`), makes at most `n` passes of the
drain loop. -/
theorem grows_transceive (s : rc522c_state) (h : Hal) (tx : Buf) (tx_bits : Nat) (rx : Buf)
    (rx_bits : Int) (n : Nat) (hn : 1 ≤ n) (hf : h.fifo_level_le n) :
    Hal.grows s n h (rc522c_transceive s h tx tx_bits rx rx_bits).h := by
  have g1 := grows_send s h tx tx_bits
  have g2 := grows_step0 g1 (grows_poll_loop s 2000 (Hal.uninit (transceive_send s h tx tx_bits).2 0)
    (transceive_send s h tx tx_bits).2)
  unfold rc522c_transceive
  split
  · rename_i heq
    rw [heq] at g1
    exact grows_mono g1 (by omega)
  · rename_i heq
    rw [heq] at g2
    simp only []
    split
    · rename_i heq2
      rw [heq2] at g2
      exact grows_mono g2 (by omega)
    · rename_i heq2
      rw [heq2] at g2
      refine grows_step0 g2 (grows_receive s _ _ _ _ n hn ?_)
      intro s' log
      have := hf s' log
      rw [g2.1, g2.2.1]
      exact this

theorem fifo_level_le_grows {s : rc522c_state} {n m : Nat} {h1 h2 : Hal}
    (g : Hal.grows s m h1 h2) (hf : h1.fifo_level_le n) : h2.fifo_level_le n := by
  intro s' log
  have := hf s' log
  rw [g.1, g.2.1]
  exact this

theorem rx_stores_le (s : rc522c_state) (h : Hal) (tx : Buf) (tx_bits : Nat) (rx : Buf)
    (rx_bits : Int) (hf : h.fifo_level_le 64) :
    rx_stores s h (rc522c_transceive s h tx tx_bits rx rx_bits) ≤ 64 := by
  have := (grows_transceive s h tx tx_bits rx rx_bits 64 (by omega) hf).2.2
  unfold rx_stores
  omega

theorem rx64_ok (s : rc522c_state) (h : Hal) (tx : Buf) (tx_bits : Nat) (rx : Buf)
    (rx_bits : Int) (hf : h.fifo_level_le 64) :
    rx64 s h (rc522c_transceive s h tx tx_bits rx rx_bits)
      = some (rc522c_transceive s h tx tx_bits rx rx_bits) := by
  unfold rx64
  rw [if_neg (by have := rx_stores_le s h tx tx_bits rx rx_bits hf; omega)]

theorem rx64_some {s : rc522c_state} {h : Hal} {r x : transceive_result}
    (hx : rx64 s h r = some x) : x = r ∧ rx_stores s h r ≤ 64 := by
  unfold rx64 at hx
  split at hx
  · exact absurd hx (by simp)
  · exact ⟨(Option.some.inj hx).symm, by omega⟩

theorem transceive_fifo (s : rc522c_state) (h : Hal) (tx : Buf) (tx_bits : Nat) (rx : Buf)
    (rx_bits : Int) (hf : h.fifo_level_le 64) :
    (rc522c_transceive s h tx tx_bits rx rx_bits).h.fifo_level_le 64 :=
  fifo_level_le_grows (grows_transceive s h tx tx_bits rx rx_bits 64 (by omega) hf) hf

theorem mockHal_fifo_level_le (script : List MockExchange)
    (hs : ∀ x ∈ script, x.bytes.length ≤ 64) : (mockHal script).fifo_level_le 64 := by
  intro s log
  show (if (mockRespond script (log ++ [spi_read_op s RC522_REG_FIFO_LEVEL])).status > 0 then
    (mockRespond script (log ++ [spi_read_op s RC522_REG_FIFO_LEVEL])).rx.getD 1 0 % 256
    else _) ≤ 64
  have e : mockRespond script (log ++ [spi_read_op s RC522_REG_FIFO_LEVEL])
      = ⟨2, [0, (script.getD ((mockScan (log ++ [spi_read_op s RC522_REG_FIFO_LEVEL])).1 - 1)
          ⟨0x01, 0, [], 0⟩).bytes.length]⟩ := by
    unfold mockRespond
    simp only [List.getLast?_append, List.getLast?_singleton, Option.or_some]
    rfl
  rw [e]
  have hb : ∀ k, (script.getD k ⟨0x01, 0, [], 0⟩).bytes.length ≤ 64 := by
    intro k
    rw [List.getD_eq_getElem?_getD]
    cases hk : script[k]? with
    | none => simp
    | some x => exact hs x (List.getElem?_mem hk)
  have h2 : (2 : Int) > 0 := by decide
  rw [if_pos h2]
  exact le_trans (Nat.mod_le _ _) (hb _)

/-! ## Initialisation -/

/-- C15: for every `antenna_gain` outside 0..7, `rc522_init` returns -1 with the
invalid-gain RC522Error set and has made no pigpio call at all: the environment (its log
of calls included) and the embedded device state are exactly as on entry, because the
range check stands before the call of `rc522c_init`. -/
theorem rc522_init_antenna_gain_range (cstate : rc522c_state) (h : Hal)
    (spi_baud_rate antenna_gain rst_pin : Int) (hg : antenna_gain < 0 ∨ antenna_gain > 7) :
    (rc522_init cstate h (some (spi_baud_rate, antenna_gain, rst_pin))).ret = -1
    ∧ (rc522_init cstate h (some (spi_baud_rate, antenna_gain, rst_pin))).exc
        = some (.invalid_antenna_gain antenna_gain)
    ∧ (rc522_init cstate h (some (spi_baud_rate, antenna_gain, rst_pin))).h = h
    ∧ (rc522_init cstate h (some (spi_baud_rate, antenna_gain, rst_pin))).h.log = h.log
    ∧ (rc522_init cstate h (some (spi_baud_rate, antenna_gain, rst_pin))).cstate = cstate := by
  simp only [rc522_init, if_pos hg, and_self]

/-- C15 witness: gain 8 on a working reader: error, and the log of pigpio calls stays
empty. -/
theorem rc522_init_antenna_gain_range_witness :
    ((8 : Int) < 0 ∨ (8 : Int) > 7)
    ∧ (rc522_init state0 (initHal 0x92 0) (some (1000000, 8, 25))).ret = -1
    ∧ (rc522_init state0 (initHal 0x92 0) (some (1000000, 8, 25))).h.log = [] :=
  ⟨by decide,
    (rc522_init_antenna_gain_range state0 (initHal 0x92 0) 1000000 8 25 (by decide)).1,
    (rc522_init_antenna_gain_range state0 (initHal 0x92 0) 1000000 8 25 (by decide)).2.2.2.1⟩

/-- The same reader with gain 4, for contrast: `rc522_init` returns 0 after the pigpio
calls of `rc522c_init` and `init_dev`, the gain register receiving 0x40. -/
theorem rc522_init_in_range_run :
    (rc522_init state0 (initHal 0x92 0) (some (1000000, 4, 25))).ret = 0
    ∧ (rc522_init state0 (initHal 0x92 0) (some (1000000, 4, 25))).exc = none
    ∧ (rc522_init state0 (initHal 0x92 0) (some (1000000, 4, 25))).cstate.dev_version = 0x92
    ∧ (rc522_init state0 (initHal 0x92 0) (some (1000000, 4, 25))).h.log
        = [.gpioInitialise, .spiOpen 0 1000000 0, .gpioSetMode 25 1, .gpioWrite 25 0,
           .gpioDelay 10, .gpioWrite 25 1, .gpioDelay 400,
           .spiXfer 0 [0xEE, 0], .spiWrite 0 [0x54, 0x8D], .spiWrite 0 [0x56, 0x3E],
           .spiWrite 0 [0x58, 0], .spiWrite 0 [0x5A, 30], .spiWrite 0 [0x2A, 0x40],
           .spiWrite 0 [0x22, 0x3D], .spiWrite 0 [0x4C, 0x40], .spiXfer 0 [0xA8, 0],
           .spiWrite 0 [0x28, 0x03]] :=
  ⟨by decide!, by decide!, by decide!, by decide!⟩

/-! ## Read, write and authenticate -/

theorem read_xfer_state (s : rc522c_state) (h : Hal) (p : Nat) (x : transceive_result)
    (hx : rc522c_ntag_read_xfer s h p = some x) (hs : x.status = .SUCCESS) : x.s = s := by
  unfold rc522c_ntag_read_xfer at hx
  rw [(rx64_some hx).1] at hs ⊢
  exact transceive_success_state _ _ _ _ _ _ hs

theorem write_xfer_state (s : rc522c_state) (h : Hal) (p : Nat) (inp : Buf)
    (x : transceive_result) (hx : rc522c_ntag_write_xfer s h p inp = some x)
    (hs : x.status = .SUCCESS) : x.s = s := by
  unfold rc522c_ntag_write_xfer at hx
  rw [(rx64_some hx).1] at hs ⊢
  exact transceive_success_state _ _ _ _ _ _ hs

theorem authenticate_xfer_state (s : rc522c_state) (h : Hal) (pwd : Buf)
    (x : transceive_result) (hx : rc522c_ntag_authenticate_xfer s h pwd = some x)
    (hs : x.status = .SUCCESS) : x.s = s := by
  unfold rc522c_ntag_authenticate_xfer at hx
  rw [(rx64_some hx).1] at hs ⊢
  exact transceive_success_state _ _ _ _ _ _ hs

theorem read_of_xfer (s : rc522c_state) (h : Hal) (p : Nat) (out : Buf) (x : transceive_result)
    (hsel : s.tag_selected ≠ 0) (hx : rc522c_ntag_read_xfer s h p = some x) :
    rc522c_ntag_read s h p out = some (rc522c_ntag_read_end x out) := by
  unfold rc522c_ntag_read
  rw [if_neg hsel, hx]
  rfl

theorem write_of_xfer (s : rc522c_state) (h : Hal) (p : Nat) (inp : Buf)
    (x : transceive_result) (hsel : s.tag_selected ≠ 0)
    (hx : rc522c_ntag_write_xfer s h p inp = some x) :
    rc522c_ntag_write s h p inp = some (rc522c_ntag_write_end x) := by
  unfold rc522c_ntag_write
  rw [if_neg hsel, hx]
  rfl

theorem authenticate_of_xfer (s : rc522c_state) (h : Hal) (pwd out : Buf)
    (x : transceive_result) (hsel : s.tag_selected ≠ 0)
    (hx : rc522c_ntag_authenticate_xfer s h pwd = some x) :
    rc522c_ntag_authenticate s h pwd out = some (rc522c_ntag_authenticate_end x out) := by
  unfold rc522c_ntag_authenticate
  rw [if_neg hsel, hx]
  rfl

/-- The classification of the reply `x` of a READ exchange that succeeded and left the
device state `s`. -/
theorem read_classification (s : rc522c_state) (out : Buf) (x : transceive_result)
    (hx : x.status = .SUCCESS) (hs : x.s = s) :
    let nibble := x.rx 0 &&& 0xF
    let r := rc522c_ntag_read_end x out
    (x.rx_bits = 4 ∧ nibble ≠ 0xA →
        r.status = .ERROR_TAG_NAK ∧ r.s.error_code = nibble ∧ r.out = out
        ∧ (nibble = 1 →
            _raise_error r.s r.status = (.RC522TagError, .nak_parity_or_crc_error 267)))
    ∧ (¬ (x.rx_bits = 4 ∧ nibble ≠ 0xA) ∧ x.rx_bits ≠ 144 →
        r.status = .ERROR_TAG_UNSUPPORTED ∧ r.out = out)
    ∧ (¬ (x.rx_bits = 4 ∧ nibble ≠ 0xA) ∧ x.rx_bits = 144
          ∧ compute_crc s.crc x.rx 16 ≠ (x.rx 16, x.rx 17) →
        r.status = .ERROR_TAG_UNSUPPORTED ∧ r.out = out)
    ∧ (¬ (x.rx_bits = 4 ∧ nibble ≠ 0xA) ∧ x.rx_bits = 144
          ∧ compute_crc s.crc x.rx 16 = (x.rx 16, x.rx 17) →
        r.status = .SUCCESS ∧ Buf.take r.out 16 = Buf.take x.rx 16
        ∧ ∀ i, 16 ≤ i → r.out i = out i) := by
  intro nibble r
  have hr : r = rc522c_ntag_read_end x out := rfl
  unfold rc522c_ntag_read_end at hr
  simp only [if_false, hx, ne_eq, not_true_eq_false] at hr
  change r = (if x.rx_bits = NTAG_ACKNAK_RX_BITS ∧ ¬ (x.rx 0 &&& NTAG_ACKNAK_MASK) = NTAG_ACK
      then _ else _) at hr
  simp only [NTAG_ACKNAK_RX_BITS, NTAG_ACKNAK_MASK, NTAG_ACK, RC522_READ_LEN] at hr
  refine ⟨?_, ?_, ?_, ?_⟩
  · intro hn
    have hn' : x.rx_bits = 4 ∧ ¬ (x.rx 0 &&& 0xF) = 0xA := hn
    rw [if_pos hn'] at hr
    rw [hr]
    refine ⟨rfl, rfl, rfl, ?_⟩
    intro h1
    have h1' : x.rx 0 &&& 0xF = 1 := h1
    simp [_raise_error, set_error, h1', NTAG_NAK_INVALID_ARG, NTAG_NAK_CRC_ERROR]
  · rintro ⟨hn, hb⟩
    have hn' : ¬ (x.rx_bits = 4 ∧ ¬ (x.rx 0 &&& 0xF) = 0xA) := hn
    rw [if_neg hn'] at hr
    have hb' : ¬ x.rx_bits = ((16 + 2) * 8 : Nat) := by simpa using hb
    rw [if_pos hb'] at hr
    rw [hr]
    exact ⟨rfl, rfl⟩
  · rintro ⟨hn, hb, hc⟩
    have hn' : ¬ (x.rx_bits = 4 ∧ ¬ (x.rx 0 &&& 0xF) = 0xA) := hn
    rw [if_neg hn'] at hr
    have hb' : ¬ ¬ x.rx_bits = ((16 + 2) * 8 : Nat) := by simpa using hb
    rw [if_neg hb'] at hr
    have hc' : ¬ (compute_crc x.s.crc x.rx 16).1 = x.rx 16
        ∨ ¬ (compute_crc x.s.crc x.rx 16).2 = x.rx 17 := by
      rw [hs]
      by_contra hcon
      push_neg at hcon
      exact hc (Prod.ext hcon.1 hcon.2)
    rw [if_pos hc'] at hr
    rw [hr]
    exact ⟨rfl, rfl⟩
  · rintro ⟨hn, hb, hc⟩
    have hn' : ¬ (x.rx_bits = 4 ∧ ¬ (x.rx 0 &&& 0xF) = 0xA) := hn
    rw [if_neg hn'] at hr
    have hb' : ¬ ¬ x.rx_bits = ((16 + 2) * 8 : Nat) := by simpa using hb
    rw [if_neg hb'] at hr
    have hc' : ¬ (¬ (compute_crc x.s.crc x.rx 16).1 = x.rx 16
        ∨ ¬ (compute_crc x.s.crc x.rx 16).2 = x.rx 17) := by
      rw [hs, hc]
      simp
    rw [if_neg hc'] at hr
    rw [hr]
    refine ⟨rfl, ?_, ?_⟩
    · simp only [Buf.take, Buf.memcpy]
      apply List.map_congr_left
      intro a ha
      show (if a < 16 then x.rx a else out a) = x.rx a
      rw [if_pos (List.mem_range.mp ha)]
    · intro i hi
      simp [Buf.memcpy, Nat.not_lt.mpr hi]

theorem read_end_fail_out (x : transceive_result) (out : Buf)
    (hs : (rc522c_ntag_read_end x out).status ≠ .SUCCESS) :
    (rc522c_ntag_read_end x out).out = out := by
  revert hs
  unfold rc522c_ntag_read_end
  simp only []
  split
  · intro _; rfl
  · split
    · intro _; rfl
    · split
      · intro _; rfl
      · split
        · intro _; rfl
        · intro hs; exact absurd rfl hs

theorem read_fail_out (s : rc522c_state) (h : Hal) (p : Nat) (out : Buf) (r : out_result)
    (hr : rc522c_ntag_read s h p out = some r) (hs : r.status ≠ .SUCCESS) : r.out = out := by
  unfold rc522c_ntag_read at hr
  split at hr
  · rw [← Option.some.inj hr]
  · cases hx : rc522c_ntag_read_xfer s h p with
    | none => rw [hx] at hr; exact absurd hr (by simp)
    | some x =>
      rw [hx] at hr
      have e : rc522c_ntag_read_end x out = r := Option.some.inj hr
      rw [← e] at hs ⊢
      exact read_end_fail_out x out hs

/-- C3 (as stated) fails: with a tag selected, a READ whose transceive succeeds with
800 received bits (100 bytes, neither a NAK nor 144 bits) does not end with status
TAG_UNSUPPORTED: the 100 bytes are drained into the 64-byte array `rx`
(rc522c.c:254, 128-129), and `rc522c_ntag_read` has no defined result. -/
theorem read_long_reply_no_status :
    (state_selected .KIND_215).tag_selected ≠ 0
    ∧ (rc522c_transceive (state_selected .KIND_215)
        (mockHal [mockBytes (List.replicate 100 0xAB)])
        (Buf.ofList (spec_crc_frame (state_selected .KIND_215).crc [0x30, 4])) 32
        (mockHal [mockBytes (List.replicate 100 0xAB)]).uninitBuf
        ((mockHal [mockBytes (List.replicate 100 0xAB)]).uninit 64)).status = .SUCCESS
    ∧ (rc522c_transceive (state_selected .KIND_215)
        (mockHal [mockBytes (List.replicate 100 0xAB)])
        (Buf.ofList (spec_crc_frame (state_selected .KIND_215).crc [0x30, 4])) 32
        (mockHal [mockBytes (List.replicate 100 0xAB)]).uninitBuf
        ((mockHal [mockBytes (List.replicate 100 0xAB)]).uninit 64)).rx_bits = 800
    ∧ rx_stores (state_selected .KIND_215) (mockHal [mockBytes (List.replicate 100 0xAB)])
        (rc522c_transceive (state_selected .KIND_215)
          (mockHal [mockBytes (List.replicate 100 0xAB)])
          (Buf.ofList (spec_crc_frame (state_selected .KIND_215).crc [0x30, 4])) 32
          (mockHal [mockBytes (List.replicate 100 0xAB)]).uninitBuf
          ((mockHal [mockBytes (List.replicate 100 0xAB)]).uninit 64)) = 100
    ∧ rc522c_ntag_read (state_selected .KIND_215)
        (mockHal [mockBytes (List.replicate 100 0xAB)]) 4 (fun _ => 0) = none :=
  ⟨by decide, by decide!, by decide!, by decide!, Option.isNone_iff_eq_none.mp (by decide!)⟩

/-- C3 (amended): `rc522c_ntag_read` with a tag selected and a READ exchange that stayed
inside the 64-byte receive array and succeeded, leaving `x` with `x.rx_bits` bits and
bytes `x.rx`: the function returns, and a 4-bit reply whose low nibble is not 0xA gives
TAG_NAK with that nibble as `error_code` (and nibble 1 is raised as the parity/CRC NAK);
otherwise a bit count other than 144 gives TAG_UNSUPPORTED; otherwise a CRC over
`rx[0..15]` different from `(rx[16], rx[17])` gives TAG_UNSUPPORTED; otherwise the status
is SUCCESS and the 16 output bytes are `rx[0..15]`. In every run that returns another
status than SUCCESS the output buffer is left as it was. -/
theorem rc522c_ntag_read_spec (s : rc522c_state) (h : Hal) (start_page : Nat) (out : Buf) :
    (∀ x, s.tag_selected ≠ 0 → rc522c_ntag_read_xfer s h start_page = some x →
      x.status = .SUCCESS →
      ∃ r, rc522c_ntag_read s h start_page out = some r
        ∧ (x.rx_bits = 4 ∧ x.rx 0 &&& 0xF ≠ 0xA →
            r.status = .ERROR_TAG_NAK ∧ r.s.error_code = (x.rx 0 &&& 0xF : Nat) ∧ r.out = out
            ∧ (x.rx 0 &&& 0xF = 1 →
                _raise_error r.s r.status = (.RC522TagError, .nak_parity_or_crc_error 267)))
        ∧ (¬ (x.rx_bits = 4 ∧ x.rx 0 &&& 0xF ≠ 0xA) ∧ x.rx_bits ≠ 144 →
            r.status = .ERROR_TAG_UNSUPPORTED ∧ r.out = out)
        ∧ (¬ (x.rx_bits = 4 ∧ x.rx 0 &&& 0xF ≠ 0xA) ∧ x.rx_bits = 144
              ∧ compute_crc s.crc x.rx 16 ≠ (x.rx 16, x.rx 17) →
            r.status = .ERROR_TAG_UNSUPPORTED ∧ r.out = out)
        ∧ (¬ (x.rx_bits = 4 ∧ x.rx 0 &&& 0xF ≠ 0xA) ∧ x.rx_bits = 144
              ∧ compute_crc s.crc x.rx 16 = (x.rx 16, x.rx 17) →
            r.status = .SUCCESS ∧ Buf.take r.out 16 = Buf.take x.rx 16
            ∧ ∀ i, 16 ≤ i → r.out i = out i))
    ∧ (∀ r, rc522c_ntag_read s h start_page out = some r → r.status ≠ .SUCCESS →
        r.out = out) := by
  refine ⟨fun x hsel hx hs => ⟨_, read_of_xfer s h start_page out x hsel hx, ?_⟩,
    fun r hr hs => read_fail_out s h start_page out r hr hs⟩
  exact read_classification s out x hs (read_xfer_state s h start_page x hx hs)

/-- C3 witness (scenario C): a 4-bit reply 0x1 to a READ is a TAG_NAK, raised as the
parity/CRC error. -/
theorem rc522c_ntag_read_spec_witness :
    (state_selected .KIND_215).tag_selected ≠ 0
    ∧ ∃ x r, rc522c_ntag_read_xfer (state_selected .KIND_215) (mockHal [mockNibble 1]) 4 = some x
      ∧ x.status = .SUCCESS
      ∧ rc522c_ntag_read (state_selected .KIND_215) (mockHal [mockNibble 1]) 4 (fun _ => 0)
          = some r
      ∧ r.status = .ERROR_TAG_NAK
      ∧ _raise_error r.s r.status = (.RC522TagError, .nak_parity_or_crc_error 267) := by
  obtain ⟨x, hx, hv⟩ := Option.map_eq_some'.mp
    (by decide! : (rc522c_ntag_read_xfer (state_selected .KIND_215) (mockHal [mockNibble 1]) 4).map
      (fun x => (x.status, x.rx_bits, x.rx 0 &&& 0xF)) = some (.SUCCESS, 4, 1))
  simp only [Prod.mk.injEq] at hv
  obtain ⟨r, hr, c1, _⟩ := (rc522c_ntag_read_spec (state_selected .KIND_215)
    (mockHal [mockNibble 1]) 4 (fun _ => 0)).1 x (by decide) hx hv.1
  obtain ⟨d1, _, _, d4⟩ := c1 ⟨hv.2.1, by rw [hv.2.2]; decide⟩
  exact ⟨by decide, x, r, hx, hv.1, hr, d1, d4 hv.2.2⟩

theorem write_classification (x : transceive_result) (hx : x.status = .SUCCESS) :
    let nibble := x.rx 0 &&& 0xF
    let r := rc522c_ntag_write_end x
    (r.status = .SUCCESS ↔ x.rx_bits = 4 ∧ nibble = 0xA)
    ∧ (x.rx_bits = 4 ∧ nibble ≠ 0xA → r.status = .ERROR_TAG_NAK ∧ r.s.error_code = nibble)
    ∧ (x.rx_bits ≠ 4 → r.status = .ERROR_TAG_UNSUPPORTED) := by
  intro nibble r
  have hr : r = rc522c_ntag_write_end x := rfl
  unfold rc522c_ntag_write_end at hr
  simp only [if_false, hx, ne_eq, not_true_eq_false] at hr
  change r = (if ¬ x.rx_bits = NTAG_ACKNAK_RX_BITS then _ else
    if ¬ (x.rx 0 &&& NTAG_ACKNAK_MASK) = NTAG_ACK then _ else _) at hr
  simp only [NTAG_ACKNAK_RX_BITS, NTAG_ACKNAK_MASK, NTAG_ACK] at hr
  by_cases hb : x.rx_bits = 4
  · by_cases hn : x.rx 0 &&& 0xF = 0xA
    · rw [if_neg (not_not.mpr hb), if_neg (not_not.mpr hn)] at hr
      rw [hr]
      exact ⟨⟨fun _ => ⟨hb, hn⟩, fun _ => rfl⟩, fun h2 => absurd hn h2.2, fun h2 => absurd hb h2⟩
    · rw [if_neg (not_not.mpr hb), if_pos hn] at hr
      rw [hr]
      refine ⟨⟨fun h2 => ?_, fun h2 => absurd h2.2 hn⟩, fun _ => ⟨rfl, rfl⟩, fun h2 => absurd hb h2⟩
      exact absurd h2 (by simp)
  · rw [if_pos hb] at hr
    rw [hr]
    refine ⟨⟨fun h2 => ?_, fun h2 => absurd h2.1 hb⟩, fun h2 => absurd h2.1 hb, fun _ => rfl⟩
    exact absurd h2 (by simp)

/-- C4 (as stated) fails: with a tag selected, a WRITE whose transceive succeeds with
800 received bits (a bit count other than 4) does not end with status TAG_UNSUPPORTED:
the 100 bytes are drained into the 64-byte array `rx` (rc522c.c:282, 128-129), and
`rc522c_ntag_write` has no defined result. -/
theorem write_long_reply_no_status :
    (state_selected .KIND_215).tag_selected ≠ 0
    ∧ (rc522c_transceive (state_selected .KIND_215)
        (mockHal [mockBytes (List.replicate 100 0xAB)])
        (Buf.ofList (spec_crc_frame (state_selected .KIND_215).crc [0xA2, 4, 1, 2, 3, 4])) 64
        (mockHal [mockBytes (List.replicate 100 0xAB)]).uninitBuf
        ((mockHal [mockBytes (List.replicate 100 0xAB)]).uninit 64)).status = .SUCCESS
    ∧ (rc522c_transceive (state_selected .KIND_215)
        (mockHal [mockBytes (List.replicate 100 0xAB)])
        (Buf.ofList (spec_crc_frame (state_selected .KIND_215).crc [0xA2, 4, 1, 2, 3, 4])) 64
        (mockHal [mockBytes (List.replicate 100 0xAB)]).uninitBuf
        ((mockHal [mockBytes (List.replicate 100 0xAB)]).uninit 64)).rx_bits = 800
    ∧ rc522c_ntag_write (state_selected .KIND_215)
        (mockHal [mockBytes (List.replicate 100 0xAB)]) 4 (Buf.ofList [1, 2, 3, 4]) = none :=
  ⟨by decide, by decide!, by decide!, Option.isNone_iff_eq_none.mp (by decide!)⟩

/-- C4 (amended): `rc522c_ntag_write` with a tag selected and a WRITE exchange that stayed
inside the 64-byte receive array and succeeded, leaving `x`: the function returns; the
status is SUCCESS exactly when 4 bits came back and the low nibble of the first byte is
the ACK code 0xA; 4 bits with another nibble give TAG_NAK with that nibble as
`error_code`; any other bit count gives TAG_UNSUPPORTED. -/
theorem rc522c_ntag_write_spec (s : rc522c_state) (h : Hal) (page : Nat) (inp : Buf)
    (x : transceive_result) (hsel : s.tag_selected ≠ 0)
    (hx : rc522c_ntag_write_xfer s h page inp = some x) (hs : x.status = .SUCCESS) :
    ∃ r, rc522c_ntag_write s h page inp = some r
      ∧ (r.status = .SUCCESS ↔ x.rx_bits = 4 ∧ x.rx 0 &&& 0xF = 0xA)
      ∧ (x.rx_bits = 4 ∧ x.rx 0 &&& 0xF ≠ 0xA →
          r.status = .ERROR_TAG_NAK ∧ r.s.error_code = (x.rx 0 &&& 0xF : Nat))
      ∧ (x.rx_bits ≠ 4 → r.status = .ERROR_TAG_UNSUPPORTED) :=
  ⟨_, write_of_xfer s h page inp x hsel hx, write_classification x hs⟩

/-- C4 witness: a 4-bit ACK to a WRITE is SUCCESS. -/
theorem rc522c_ntag_write_spec_witness :
    (state_selected .KIND_215).tag_selected ≠ 0
    ∧ ∃ x r, rc522c_ntag_write_xfer (state_selected .KIND_215) (mockHal [mockNibble 0xA]) 4
          (Buf.ofList [1, 2, 3, 4]) = some x
      ∧ x.status = .SUCCESS
      ∧ rc522c_ntag_write (state_selected .KIND_215) (mockHal [mockNibble 0xA]) 4
          (Buf.ofList [1, 2, 3, 4]) = some r
      ∧ r.status = .SUCCESS := by
  obtain ⟨x, hx, hv⟩ := Option.map_eq_some'.mp
    (by decide! : (rc522c_ntag_write_xfer (state_selected .KIND_215) (mockHal [mockNibble 0xA]) 4
      (Buf.ofList [1, 2, 3, 4])).map
      (fun x => (x.status, x.rx_bits, x.rx 0 &&& 0xF)) = some (.SUCCESS, 4, 0xA))
  simp only [Prod.mk.injEq] at hv
  obtain ⟨r, hr, c1, _⟩ := rc522c_ntag_write_spec (state_selected .KIND_215)
    (mockHal [mockNibble 0xA]) 4 (Buf.ofList [1, 2, 3, 4]) x (by decide) hx hv.1
  exact ⟨by decide, x, r, hx, hv.1, hr, c1.2 ⟨hv.2.1, hv.2.2⟩⟩

theorem authenticate_classification (s : rc522c_state) (out : Buf) (x : transceive_result)
    (hx : x.status = .SUCCESS) (hs : x.s = s) :
    let nibble := x.rx 0 &&& 0xF
    let r := rc522c_ntag_authenticate_end x out
    (x.rx_bits = 4 ∧ nibble ≠ 0xA → r.status = .ERROR_TAG_NAK ∧ r.s.error_code = nibble)
    ∧ (¬ (x.rx_bits = 4 ∧ nibble ≠ 0xA) ∧ x.rx_bits ≠ 32 →
        r.status = .ERROR_TAG_UNSUPPORTED)
    ∧ (¬ (x.rx_bits = 4 ∧ nibble ≠ 0xA) ∧ x.rx_bits = 32
          ∧ compute_crc s.crc x.rx 2 ≠ (x.rx 2, x.rx 3) →
        r.status = .ERROR_TAG_UNSUPPORTED)
    ∧ (¬ (x.rx_bits = 4 ∧ nibble ≠ 0xA) ∧ x.rx_bits = 32
          ∧ compute_crc s.crc x.rx 2 = (x.rx 2, x.rx 3) →
        r.status = .SUCCESS ∧ r.out 0 = x.rx 0 ∧ r.out 1 = x.rx 1) := by
  intro nibble r
  have hr : r = rc522c_ntag_authenticate_end x out := rfl
  unfold rc522c_ntag_authenticate_end at hr
  simp only [if_false, hx, ne_eq, not_true_eq_false] at hr
  change r = (if x.rx_bits = NTAG_ACKNAK_RX_BITS ∧ ¬ (x.rx 0 &&& NTAG_ACKNAK_MASK) = NTAG_ACK
      then _ else _) at hr
  simp only [NTAG_ACKNAK_RX_BITS, NTAG_ACKNAK_MASK, NTAG_ACK] at hr
  refine ⟨?_, ?_, ?_, ?_⟩
  · intro hn
    have hn' : x.rx_bits = 4 ∧ ¬ (x.rx 0 &&& 0xF) = 0xA := hn
    rw [if_pos hn'] at hr
    rw [hr]
    exact ⟨rfl, rfl⟩
  · rintro ⟨hn, hb⟩
    have hn' : ¬ (x.rx_bits = 4 ∧ ¬ (x.rx 0 &&& 0xF) = 0xA) := hn
    rw [if_neg hn'] at hr
    have hb' : ¬ x.rx_bits = 4 * 8 := by simpa using hb
    rw [if_pos hb'] at hr
    rw [hr]
  · rintro ⟨hn, hb, hc⟩
    have hn' : ¬ (x.rx_bits = 4 ∧ ¬ (x.rx 0 &&& 0xF) = 0xA) := hn
    rw [if_neg hn'] at hr
    have hb' : ¬ ¬ x.rx_bits = 4 * 8 := by simpa using hb
    rw [if_neg hb'] at hr
    have hc' : ¬ (compute_crc x.s.crc x.rx 2).1 = x.rx 2
        ∨ ¬ (compute_crc x.s.crc x.rx 2).2 = x.rx 3 := by
      rw [hs]
      by_contra hcon
      push_neg at hcon
      exact hc (Prod.ext hcon.1 hcon.2)
    rw [if_pos hc'] at hr
    rw [hr]
  · rintro ⟨hn, hb, hc⟩
    have hn' : ¬ (x.rx_bits = 4 ∧ ¬ (x.rx 0 &&& 0xF) = 0xA) := hn
    rw [if_neg hn'] at hr
    have hb' : ¬ ¬ x.rx_bits = 4 * 8 := by simpa using hb
    rw [if_neg hb'] at hr
    have hc' : ¬ (¬ (compute_crc x.s.crc x.rx 2).1 = x.rx 2
        ∨ ¬ (compute_crc x.s.crc x.rx 2).2 = x.rx 3) := by
      rw [hs, hc]
      simp
    rw [if_neg hc'] at hr
    rw [hr]
    exact ⟨rfl, by simp [Buf.set], by simp [Buf.set]⟩

/-- C5 (as stated) fails: with a tag selected, a PWD_AUTH whose transceive succeeds with
800 received bits (neither a NAK nor 32 bits) does not end with status TAG_UNSUPPORTED:
the 100 bytes are drained into the 64-byte array `rx` (rc522c.c:303, 128-129), and
`rc522c_ntag_authenticate` has no defined result. -/
theorem authenticate_long_reply_no_status :
    (state_selected .KIND_215).tag_selected ≠ 0
    ∧ (rc522c_transceive (state_selected .KIND_215)
        (mockHal [mockBytes (List.replicate 100 0xAB)])
        (Buf.ofList (spec_crc_frame (state_selected .KIND_215).crc [0x1B, 1, 2, 3, 4])) 56
        (mockHal [mockBytes (List.replicate 100 0xAB)]).uninitBuf
        ((mockHal [mockBytes (List.replicate 100 0xAB)]).uninit 64)).status = .SUCCESS
    ∧ (rc522c_transceive (state_selected .KIND_215)
        (mockHal [mockBytes (List.replicate 100 0xAB)])
        (Buf.ofList (spec_crc_frame (state_selected .KIND_215).crc [0x1B, 1, 2, 3, 4])) 56
        (mockHal [mockBytes (List.replicate 100 0xAB)]).uninitBuf
        ((mockHal [mockBytes (List.replicate 100 0xAB)]).uninit 64)).rx_bits = 800
    ∧ rc522c_ntag_authenticate (state_selected .KIND_215)
        (mockHal [mockBytes (List.replicate 100 0xAB)]) (Buf.ofList [1, 2, 3, 4])
        (fun _ => 0) = none :=
  ⟨by decide, by decide!, by decide!, Option.isNone_iff_eq_none.mp (by decide!)⟩

/-- C5 (amended): `rc522c_ntag_authenticate` with a tag selected and a PWD_AUTH exchange
that stayed inside the 64-byte receive array and succeeded, leaving `x`: the function
returns; a 4-bit reply whose low nibble is not 0xA gives TAG_NAK with that nibble as
`error_code`; otherwise a bit count other than 32 gives TAG_UNSUPPORTED; otherwise a CRC
over `rx[0..1]` different from `(rx[2], rx[3])` gives TAG_UNSUPPORTED; otherwise the
status is SUCCESS and the returned PACK is `(rx[0], rx[1])`. -/
theorem rc522c_ntag_authenticate_spec (s : rc522c_state) (h : Hal) (pwd : Buf) (out : Buf)
    (x : transceive_result) (hsel : s.tag_selected ≠ 0)
    (hx : rc522c_ntag_authenticate_xfer s h pwd = some x) (hs : x.status = .SUCCESS) :
    ∃ r, rc522c_ntag_authenticate s h pwd out = some r
      ∧ (x.rx_bits = 4 ∧ x.rx 0 &&& 0xF ≠ 0xA →
          r.status = .ERROR_TAG_NAK ∧ r.s.error_code = (x.rx 0 &&& 0xF : Nat))
      ∧ (¬ (x.rx_bits = 4 ∧ x.rx 0 &&& 0xF ≠ 0xA) ∧ x.rx_bits ≠ 32 →
          r.status = .ERROR_TAG_UNSUPPORTED)
      ∧ (¬ (x.rx_bits = 4 ∧ x.rx 0 &&& 0xF ≠ 0xA) ∧ x.rx_bits = 32
            ∧ compute_crc s.crc x.rx 2 ≠ (x.rx 2, x.rx 3) →
          r.status = .ERROR_TAG_UNSUPPORTED)
      ∧ (¬ (x.rx_bits = 4 ∧ x.rx 0 &&& 0xF ≠ 0xA) ∧ x.rx_bits = 32
            ∧ compute_crc s.crc x.rx 2 = (x.rx 2, x.rx 3) →
          r.status = .SUCCESS ∧ r.out 0 = x.rx 0 ∧ r.out 1 = x.rx 1) :=
  ⟨_, authenticate_of_xfer s h pwd out x hsel hx,
    authenticate_classification s out x hs (authenticate_xfer_state s h pwd x hx hs)⟩

/-- C5 witness: a 32-bit reply with a valid CRC returns its first two bytes as PACK. -/
theorem rc522c_ntag_authenticate_spec_witness :
    (state_selected .KIND_215).tag_selected ≠ 0
    ∧ ∃ x r, rc522c_ntag_authenticate_xfer (state_selected .KIND_215)
          (mockHal [mockBytes [0xAB, 0xCD, 0x1E, 0x48]]) (Buf.ofList [1, 2, 3, 4]) = some x
      ∧ x.status = .SUCCESS
      ∧ rc522c_ntag_authenticate (state_selected .KIND_215)
          (mockHal [mockBytes [0xAB, 0xCD, 0x1E, 0x48]]) (Buf.ofList [1, 2, 3, 4])
          (fun _ => 0) = some r
      ∧ r.status = .SUCCESS ∧ r.out 0 = 0xAB ∧ r.out 1 = 0xCD := by
  obtain ⟨x, hx, hv⟩ := Option.map_eq_some'.mp
    (by decide! : (rc522c_ntag_authenticate_xfer (state_selected .KIND_215)
      (mockHal [mockBytes [0xAB, 0xCD, 0x1E, 0x48]]) (Buf.ofList [1, 2, 3, 4])).map
      (fun x => (x.status, x.rx_bits, x.rx 0, x.rx 1,
        decide (compute_crc (state_selected .KIND_215).crc x.rx 2 = (x.rx 2, x.rx 3))))
        = some (.SUCCESS, 32, 0xAB, 0xCD, true))
  simp only [Prod.mk.injEq] at hv
  obtain ⟨h1, h2, h3, h4, h5⟩ := hv
  obtain ⟨r, hr, _, _, _, c4⟩ := rc522c_ntag_authenticate_spec (state_selected .KIND_215)
    (mockHal [mockBytes [0xAB, 0xCD, 0x1E, 0x48]]) (Buf.ofList [1, 2, 3, 4]) (fun _ => 0) x
    (by decide) hx h1
  obtain ⟨d1, d2, d3⟩ := c4 ⟨by rw [h2]; simp, h2, of_decide_eq_true h5⟩
  exact ⟨by decide, x, r, hx, h1, hr, d1, d2.trans h3, d3.trans h4⟩

/-- C10: with `tag_selected` equal to 0, `rc522c_ntag_read`, `rc522c_ntag_write` and
`rc522c_ntag_authenticate` each return TAG_MISSING, leave the environment as it was (no
bus call is made, the log is unchanged) and leave their output buffer as it was. -/
theorem ntag_ops_without_selected_tag (s : rc522c_state) (h : Hal) (page : Nat)
    (out inp pwd : Buf) (hsel : s.tag_selected = 0) :
    (∃ r, rc522c_ntag_read s h page out = some r
      ∧ r.status = .ERROR_TAG_MISSING ∧ r.h = h ∧ r.out = out)
    ∧ (∃ r, rc522c_ntag_write s h page inp = some r
      ∧ r.status = .ERROR_TAG_MISSING ∧ r.h = h)
    ∧ (∃ r, rc522c_ntag_authenticate s h pwd out = some r
      ∧ r.status = .ERROR_TAG_MISSING ∧ r.h = h ∧ r.out = out) := by
  refine ⟨⟨⟨.ERROR_TAG_MISSING, set_error s 258 0, h, out⟩, ?_, rfl, rfl, rfl⟩,
    ⟨⟨.ERROR_TAG_MISSING, set_error s 286 0, h⟩, ?_, rfl, rfl⟩,
    ⟨⟨.ERROR_TAG_MISSING, set_error s 307 0, h, out⟩, ?_, rfl, rfl, rfl⟩⟩
  · simp only [rc522c_ntag_read, hsel, if_true]
  · simp only [rc522c_ntag_write, hsel, if_true]
  · simp only [rc522c_ntag_authenticate, hsel, if_true]

/-- C10 witness: on the freshly initialised state no tag is selected and a read makes no
bus call. -/
theorem ntag_ops_without_selected_tag_witness :
    state0.tag_selected = 0
    ∧ ∃ r, rc522c_ntag_read state0 (mockHal []) 4 (fun _ => 0) = some r ∧ r.h.log = [] := by
  obtain ⟨r, hr, _, hh, _⟩ := (ntag_ops_without_selected_tag state0 (mockHal []) 4
    (fun _ => 0) (fun _ => 0) (fun _ => 0) rfl).1
  exact ⟨rfl, r, hr, by rw [hh]; rfl⟩

/-! ## Lemmas on the protect transaction -/

theorem write_congr (s : rc522c_state) (h : Hal) (p : Nat) (inp inp' : Buf)
    (h0 : inp 0 = inp' 0) (h1 : inp 1 = inp' 1) (h2 : inp 2 = inp' 2) (h3 : inp 3 = inp' 3) :
    rc522c_ntag_write s h p inp = rc522c_ntag_write s h p inp' := by
  simp only [rc522c_ntag_write, rc522c_ntag_write_xfer, h0, h1, h2, h3]

theorem write_shift (s : rc522c_state) (h : Hal) (p : Nat) (b : Buf) (k : Nat) :
    rc522c_ntag_write s h p (Buf.shift b k)
      = rc522c_ntag_write s h p (Buf.ofList [b (k + 0), b (k + 1), b (k + 2), b (k + 3)]) :=
  write_congr _ _ _ _ _ rfl rfl rfl rfl

theorem protect_base_of_mem (k : rc522c_tag_kind) (base : Nat)
    (hb : (k, base) ∈ spec_base_pages) :
    protect_config_start_page k = some base ∧ (base + 2) % 256 = base + 2
      ∧ base % 256 = base ∧ (base + 3) % 256 = base + 3 ∧ (base + 1) % 256 = base + 1 := by
  simp only [spec_base_pages, List.mem_cons, Prod.mk.injEq, List.mem_singleton,
    List.mem_nil_iff, or_false] at hb
  rcases hb with ⟨rfl, rfl⟩ | ⟨rfl, rfl⟩ | ⟨rfl, rfl⟩ <;> decide

/-- Protect on a supported tag, with the pages and the payloads of its five operations
written out. -/
theorem protect_unfold (s : rc522c_state) (h : Hal) (pwd pack : Buf) (start_page rw : Int)
    (base : Nat) (hb : (s.tag_kind, base) ∈ spec_base_pages) :
    rc522c_ntag_protect s h pwd pack start_page rw =
      (rc522c_ntag_write s h (base + 2) (Buf.ofList [pwd 0, pwd 1, pwd 2, pwd 3])).bind fun r1 =>
      if r1.status ≠ .SUCCESS then some r1 else
      (rc522c_ntag_read r1.s r1.h base r1.h.uninitBuf).bind fun r2 =>
      if r2.status ≠ .SUCCESS then some r2.toStatus else
      (rc522c_ntag_write r2.s r2.h base
        (Buf.ofList [r2.out 0, r2.out 1, r2.out 2, (start_page % 256).toNat])).bind fun r3 =>
      if r3.status ≠ .SUCCESS then some r3 else
      (rc522c_ntag_write r3.s r3.h (base + 3)
        (Buf.ofList [pack 0, pack 1, r2.out 14, r2.out 15])).bind fun r4 =>
      if r4.status ≠ .SUCCESS then some r4 else
      rc522c_ntag_write r4.s r4.h (base + 1)
        (Buf.ofList [spec_access_byte (r2.out 4) rw, r2.out 5, r2.out 6, r2.out 7]) := by
  obtain ⟨hk, e2, e0, e3, e1⟩ := protect_base_of_mem _ _ hb
  have w1 : rc522c_ntag_write s h (base + 2) pwd
      = rc522c_ntag_write s h (base + 2) (Buf.ofList [pwd 0, pwd 1, pwd 2, pwd 3]) :=
    write_congr _ _ _ _ _ rfl rfl rfl rfl
  unfold rc522c_ntag_protect
  rw [hk]
  by_cases hrw : rw = 0 <;>
  simp [e2, e0, e3, e1, w1, out_result.toStatus, write_shift, Buf.shift,
    Buf.set, spec_access_byte, hrw]

theorem write_end_h (x : transceive_result) : (rc522c_ntag_write_end x).h = x.h := by
  unfold rc522c_ntag_write_end
  simp only []
  split
  · rfl
  · split
    · rfl
    · split <;> rfl

theorem read_end_h (x : transceive_result) (out : Buf) :
    (rc522c_ntag_read_end x out).h = x.h := by
  unfold rc522c_ntag_read_end
  simp only []
  split
  · rfl
  · split
    · rfl
    · split
      · rfl
      · split <;> rfl

/-- When the FIFO-level register never reports more than 64 bytes a write has a result,
and the environment it leaves is the same bus. -/
theorem write_defined (s : rc522c_state) (h : Hal) (p : Nat) (inp : Buf)
    (hf : h.fifo_level_le 64) :
    ∃ r, rc522c_ntag_write s h p inp = some r ∧ r.h.fifo_level_le 64 := by
  unfold rc522c_ntag_write
  split
  · exact ⟨_, rfl, hf⟩
  · unfold rc522c_ntag_write_xfer
    simp only []
    rw [rx64_ok _ _ _ _ _ _ hf]
    refine ⟨_, rfl, ?_⟩
    rw [write_end_h]
    exact transceive_fifo _ _ _ _ _ _ hf

theorem read_defined (s : rc522c_state) (h : Hal) (p : Nat) (out : Buf)
    (hf : h.fifo_level_le 64) :
    ∃ r, rc522c_ntag_read s h p out = some r ∧ r.h.fifo_level_le 64 := by
  unfold rc522c_ntag_read
  split
  · exact ⟨_, rfl, hf⟩
  · unfold rc522c_ntag_read_xfer
    simp only []
    rw [rx64_ok _ _ _ _ _ _ hf]
    refine ⟨_, rfl, ?_⟩
    rw [read_end_h]
    exact transceive_fifo _ _ _ _ _ _ hf

/-- The five operations behind a trace. -/
theorem trace_some (s : rc522c_state) (h : Hal) (pwd pack : Buf) (start_page rw : Int)
    (base : Nat) (t : protect_trace)
    (ht : spec_protect_trace s h pwd pack start_page rw base = some t) :
    rc522c_ntag_write s h (base + 2) (Buf.ofList [pwd 0, pwd 1, pwd 2, pwd 3]) = some t.w_pwd
    ∧ rc522c_ntag_read t.w_pwd.s t.w_pwd.h base t.w_pwd.h.uninitBuf = some t.r_cfg
    ∧ rc522c_ntag_write t.r_cfg.s t.r_cfg.h base
        (Buf.ofList [t.r_cfg.out 0, t.r_cfg.out 1, t.r_cfg.out 2, (start_page % 256).toNat])
        = some t.w_auth0
    ∧ rc522c_ntag_write t.w_auth0.s t.w_auth0.h (base + 3)
        (Buf.ofList [pack 0, pack 1, t.r_cfg.out 14, t.r_cfg.out 15]) = some t.w_pack
    ∧ rc522c_ntag_write t.w_pack.s t.w_pack.h (base + 1)
        (Buf.ofList [spec_access_byte (t.r_cfg.out 4) rw, t.r_cfg.out 5, t.r_cfg.out 6,
          t.r_cfg.out 7]) = some t.w_access := by
  unfold spec_protect_trace at ht
  simp only [Option.bind_eq_some] at ht
  obtain ⟨r1, e1, r2, e2, r3, e3, r4, e4, r5, e5, e⟩ := ht
  have e' := Option.some.inj e
  subst e'
  exact ⟨e1, e2, e3, e4, e5⟩

theorem trace_of_ops (s : rc522c_state) (h : Hal) (pwd pack : Buf) (start_page rw : Int)
    (base : Nat) (r1 : status_result) (r2 : out_result) (r3 r4 r5 : status_result)
    (e1 : rc522c_ntag_write s h (base + 2) (Buf.ofList [pwd 0, pwd 1, pwd 2, pwd 3]) = some r1)
    (e2 : rc522c_ntag_read r1.s r1.h base r1.h.uninitBuf = some r2)
    (e3 : rc522c_ntag_write r2.s r2.h base
        (Buf.ofList [r2.out 0, r2.out 1, r2.out 2, (start_page % 256).toNat]) = some r3)
    (e4 : rc522c_ntag_write r3.s r3.h (base + 3)
        (Buf.ofList [pack 0, pack 1, r2.out 14, r2.out 15]) = some r4)
    (e5 : rc522c_ntag_write r4.s r4.h (base + 1)
        (Buf.ofList [spec_access_byte (r2.out 4) rw, r2.out 5, r2.out 6, r2.out 7]) = some r5) :
    spec_protect_trace s h pwd pack start_page rw base = some ⟨r1, r2, r3, r4, r5⟩ := by
  unfold spec_protect_trace
  rw [e1]
  simp only [Option.some_bind]
  rw [e2]
  simp only [Option.some_bind]
  rw [e3]
  simp only [Option.some_bind]
  rw [e4]
  simp only [Option.some_bind]
  rw [e5]
  simp only [Option.some_bind]

/-- When the FIFO-level register never reports more than 64 bytes the five operations of
the trace all have a result. -/
theorem trace_defined (s : rc522c_state) (h : Hal) (pwd pack : Buf) (start_page rw : Int)
    (base : Nat) (hf : h.fifo_level_le 64) :
    ∃ t, spec_protect_trace s h pwd pack start_page rw base = some t := by
  obtain ⟨r1, e1, f1⟩ := write_defined s h (base + 2) (Buf.ofList [pwd 0, pwd 1, pwd 2, pwd 3]) hf
  obtain ⟨r2, e2, f2⟩ := read_defined r1.s r1.h base r1.h.uninitBuf f1
  obtain ⟨r3, e3, f3⟩ := write_defined r2.s r2.h base
    (Buf.ofList [r2.out 0, r2.out 1, r2.out 2, (start_page % 256).toNat]) f2
  obtain ⟨r4, e4, f4⟩ := write_defined r3.s r3.h (base + 3)
    (Buf.ofList [pack 0, pack 1, r2.out 14, r2.out 15]) f3
  obtain ⟨r5, e5, _⟩ := write_defined r4.s r4.h (base + 1)
    (Buf.ofList [spec_access_byte (r2.out 4) rw, r2.out 5, r2.out 6, r2.out 7]) f4
  exact ⟨_, trace_of_ops s h pwd pack start_page rw base r1 r2 r3 r4 r5 e1 e2 e3 e4 e5⟩

/-- Protect is the spec's trace, cut at the first operation that does not succeed. -/
theorem protect_eq_trace (s : rc522c_state) (h : Hal) (pwd pack : Buf) (start_page rw : Int)
    (base : Nat) (hb : (s.tag_kind, base) ∈ spec_base_pages) (t : protect_trace)
    (ht : spec_protect_trace s h pwd pack start_page rw base = some t) :
    rc522c_ntag_protect s h pwd pack start_page rw = some
      (if t.w_pwd.status ≠ .SUCCESS then t.w_pwd
      else if t.r_cfg.status ≠ .SUCCESS then t.r_cfg.toStatus
      else if t.w_auth0.status ≠ .SUCCESS then t.w_auth0
      else if t.w_pack.status ≠ .SUCCESS then t.w_pack
      else t.w_access) := by
  obtain ⟨e1, e2, e3, e4, e5⟩ := trace_some s h pwd pack start_page rw base t ht
  rw [protect_unfold s h pwd pack start_page rw base hb, e1]
  simp only [Option.some_bind]
  rw [e2]
  simp only [Option.some_bind]
  rw [e3]
  simp only [Option.some_bind]
  rw [e4]
  simp only [Option.some_bind]
  rw [e5]
  split_ifs <;> rfl

/-- C6 (as stated) fails: on an NTAG213 whose tag answers the first write of protect
with 100 bytes, the write's transceive succeeds with 800 bits, the bytes are drained
into the 64-byte array `rx` of `rc522c_ntag_write` (rc522c.c:282, 128-129), and neither
that step nor `rc522c_ntag_protect` has a defined status. -/
theorem protect_long_reply_no_status :
    ((state_selected .KIND_213).tag_kind, 0x29) ∈ spec_base_pages
    ∧ (rc522c_transceive (state_selected .KIND_213)
        (mockHal [mockBytes (List.replicate 100 0xAB)])
        (Buf.ofList (spec_crc_frame (state_selected .KIND_213).crc [0xA2, 0x2B, 1, 2, 3, 4])) 64
        (mockHal [mockBytes (List.replicate 100 0xAB)]).uninitBuf
        ((mockHal [mockBytes (List.replicate 100 0xAB)]).uninit 64)).status = .SUCCESS
    ∧ rc522c_ntag_write (state_selected .KIND_213)
        (mockHal [mockBytes (List.replicate 100 0xAB)]) 0x2B (Buf.ofList [1, 2, 3, 4]) = none
    ∧ rc522c_ntag_protect (state_selected .KIND_213)
        (mockHal [mockBytes (List.replicate 100 0xAB)])
        (Buf.ofList [1, 2, 3, 4]) (Buf.ofList [5, 6]) 16 1 = none :=
  ⟨by decide, by decide!, Option.isNone_iff_eq_none.mp (by decide!),
    Option.isNone_iff_eq_none.mp (by decide!)⟩

/-- C6 (amended): when the FIFO-level register never reports more than 64 bytes, for a
tag of kind NTAG213/215/216 with base page 0x29/0x83/0xE3 the five operations
write(base+2), read(base), write(base), write(base+3), write(base+1) of the trace all
have a result and `rc522c_ntag_protect` returns: it returns SUCCESS exactly when all five
succeed, and when one of them is the first not to succeed the result (status, device
state and environment, hence the log of bus calls) is exactly what that operation left,
so no later exchange takes place. With an unknown kind it returns TAG_UNSUPPORTED and
makes no bus call. -/
theorem rc522c_ntag_protect_steps (s : rc522c_state) (h : Hal) (pwd pack : Buf)
    (start_page rw : Int) :
    (h.fifo_level_le 64 → ∀ base, (s.tag_kind, base) ∈ spec_base_pages →
      ∃ t r, spec_protect_trace s h pwd pack start_page rw base = some t
        ∧ rc522c_ntag_protect s h pwd pack start_page rw = some r
        ∧ (r.status = .SUCCESS ↔
            t.w_pwd.status = .SUCCESS ∧ t.r_cfg.status = .SUCCESS
              ∧ t.w_auth0.status = .SUCCESS ∧ t.w_pack.status = .SUCCESS
              ∧ t.w_access.status = .SUCCESS)
        ∧ (t.w_pwd.status ≠ .SUCCESS → r = t.w_pwd)
        ∧ (t.w_pwd.status = .SUCCESS → t.r_cfg.status ≠ .SUCCESS → r = t.r_cfg.toStatus)
        ∧ (t.w_pwd.status = .SUCCESS → t.r_cfg.status = .SUCCESS →
            t.w_auth0.status ≠ .SUCCESS → r = t.w_auth0)
        ∧ (t.w_pwd.status = .SUCCESS → t.r_cfg.status = .SUCCESS →
            t.w_auth0.status = .SUCCESS → t.w_pack.status ≠ .SUCCESS → r = t.w_pack)
        ∧ (t.w_pwd.status = .SUCCESS → t.r_cfg.status = .SUCCESS →
            t.w_auth0.status = .SUCCESS → t.w_pack.status = .SUCCESS → r = t.w_access))
    ∧ (s.tag_kind = .UNKNOWN →
        ∃ r, rc522c_ntag_protect s h pwd pack start_page rw = some r
          ∧ r.status = .ERROR_TAG_UNSUPPORTED ∧ r.h = h) := by
  constructor
  · intro hf base hb
    obtain ⟨t, ht⟩ := trace_defined s h pwd pack start_page rw base hf
    refine ⟨t, _, ht, protect_eq_trace s h pwd pack start_page rw base hb t ht, ?_⟩
    generalize hr : (if t.w_pwd.status ≠ .SUCCESS then t.w_pwd
      else if t.r_cfg.status ≠ .SUCCESS then t.r_cfg.toStatus
      else if t.w_auth0.status ≠ .SUCCESS then t.w_auth0
      else if t.w_pack.status ≠ .SUCCESS then t.w_pack
      else t.w_access) = r
    replace hr := hr.symm
    by_cases h1 : t.w_pwd.status = .SUCCESS
    · by_cases h2 : t.r_cfg.status = .SUCCESS
      · by_cases h3 : t.w_auth0.status = .SUCCESS
        · by_cases h4 : t.w_pack.status = .SUCCESS
          · simp only [h1, h2, h3, h4, ne_eq, not_true_eq_false, if_false] at hr
            rw [hr]
            simp [h1, h2, h3, h4]
          · simp only [h1, h2, h3, h4, ne_eq, not_true_eq_false, if_false, not_false_eq_true,
              if_true] at hr
            rw [hr]
            simp [h1, h2, h3, h4]
        · simp only [h1, h2, h3, ne_eq, not_true_eq_false, if_false, not_false_eq_true,
            if_true] at hr
          rw [hr]
          simp [h1, h2, h3]
      · simp only [h1, h2, ne_eq, not_true_eq_false, if_false, not_false_eq_true,
          if_true] at hr
        rw [hr]
        simp [h1, h2, out_result.toStatus]
    · simp only [h1, ne_eq, not_false_eq_true, if_true] at hr
      rw [hr]
      simp [h1]
  · intro hk
    refine ⟨⟨.ERROR_TAG_UNSUPPORTED, set_error s 347 0, h⟩, ?_, rfl, rfl⟩
    simp [rc522c_ntag_protect, protect_config_start_page, hk]

/-- C6 witness: on an NTAG213 whose tag answers the AUTH0 write (third step) with NAK 0x3,
protect returns what that write left: the PACK and ACCESS writes are not attempted. -/
theorem rc522c_ntag_protect_steps_witness :
    (mockHal (mockProtect 0x3 0xA 0xA)).fifo_level_le 64
    ∧ ((state_selected .KIND_213).tag_kind, 0x29) ∈ spec_base_pages
    ∧ ∃ t r, spec_protect_trace (state_selected .KIND_213) (mockHal (mockProtect 0x3 0xA 0xA))
          (Buf.ofList [1, 2, 3, 4]) (Buf.ofList [5, 6]) 16 1 0x29 = some t
      ∧ rc522c_ntag_protect (state_selected .KIND_213) (mockHal (mockProtect 0x3 0xA 0xA))
          (Buf.ofList [1, 2, 3, 4]) (Buf.ofList [5, 6]) 16 1 = some r
      ∧ t.w_auth0.status = .ERROR_TAG_NAK
      ∧ r = t.w_auth0 := by
  have hf : (mockHal (mockProtect 0x3 0xA 0xA)).fifo_level_le 64 :=
    mockHal_fifo_level_le _ (by decide)
  obtain ⟨t, r, ht, hr, _, _, _, c3, _⟩ :=
    (rc522c_ntag_protect_steps (state_selected .KIND_213) (mockHal (mockProtect 0x3 0xA 0xA))
      (Buf.ofList [1, 2, 3, 4]) (Buf.ofList [5, 6]) 16 1).1 hf 0x29 (by decide)
  have hv : (spec_protect_trace (state_selected .KIND_213) (mockHal (mockProtect 0x3 0xA 0xA))
      (Buf.ofList [1, 2, 3, 4]) (Buf.ofList [5, 6]) 16 1 0x29).map
        (fun t => (t.w_pwd.status, t.r_cfg.status, t.w_auth0.status))
      = some (.SUCCESS, .SUCCESS, .ERROR_TAG_NAK) := by decide!
  rw [ht] at hv
  simp only [Option.map_some', Option.some.injEq, Prod.mk.injEq] at hv
  exact ⟨hf, by decide, t, r, ht, hr, hv.2.2,
    c3 hv.1 hv.2.1 (by rw [hv.2.2]; decide)⟩

theorem read_end_success_out (x : transceive_result) (out : Buf)
    (hs : (rc522c_ntag_read_end x out).status = .SUCCESS) :
    x.status = .SUCCESS ∧ (rc522c_ntag_read_end x out).out = Buf.memcpy out x.rx 16 := by
  revert hs
  unfold rc522c_ntag_read_end
  simp only []
  split
  · rename_i hx
    intro hs; exact absurd hs hx
  · rename_i hx
    split
    · intro hs; exact absurd hs (by simp)
    · split
      · intro hs; exact absurd hs (by simp)
      · split
        · intro hs; exact absurd hs (by simp)
        · intro _; exact ⟨not_not.mp hx, rfl⟩

theorem read_success_out (s : rc522c_state) (h : Hal) (p : Nat) (out : Buf) (r : out_result)
    (hr : rc522c_ntag_read s h p out = some r) (hs : r.status = .SUCCESS) :
    ∃ x, rc522c_ntag_read_xfer s h p = some x ∧ x.status = .SUCCESS
      ∧ r.out = Buf.memcpy out x.rx 16 := by
  unfold rc522c_ntag_read at hr
  split at hr
  · rw [← Option.some.inj hr] at hs
    exact absurd hs (by simp)
  · cases hx : rc522c_ntag_read_xfer s h p with
    | none => rw [hx] at hr; exact absurd hr (by simp)
    | some x =>
      rw [hx] at hr
      have e : rc522c_ntag_read_end x out = r := Option.some.inj hr
      rw [← e] at hs ⊢
      exact ⟨x, rfl, read_end_success_out x out hs⟩

theorem spec_access_byte_lt (c4 : Nat) (rw : Int) : spec_access_byte c4 rw < 256 := by
  unfold spec_access_byte
  split <;> exact Nat.mod_lt _ (by norm_num)

theorem spec_access_byte_bits (c4 : Nat) (rw : Int) :
    (spec_access_byte c4 rw).testBit 7 = decide (rw ≠ 0)
    ∧ ∀ i, i < 7 → (spec_access_byte c4 rw).testBit i = c4.testBit i := by
  unfold spec_access_byte
  by_cases hrw : rw = 0
  · simp only [hrw, ne_eq, not_true_eq_false, if_false, decide_False]
    rw [show (256 : Nat) = 2 ^ 8 by norm_num, show (0x7F : Nat) = 2 ^ 7 - 1 by norm_num]
    refine ⟨?_, fun i hi => ?_⟩
    · simp only [Nat.testBit_mod_two_pow, Nat.testBit_and, Nat.testBit_two_pow_sub_one]
      simp
    · have hi8 : i < 8 := by omega
      simp only [Nat.testBit_mod_two_pow, Nat.testBit_and, Nat.testBit_two_pow_sub_one]
      simp [hi, hi8]
  · simp only [hrw, ne_eq, not_false_eq_true, if_true, decide_True]
    rw [show (256 : Nat) = 2 ^ 8 by norm_num, show (0x80 : Nat) = 2 ^ 7 by norm_num]
    refine ⟨?_, fun i hi => ?_⟩
    · simp only [Nat.testBit_mod_two_pow, Nat.testBit_or, Nat.testBit_two_pow]
      simp
    · have hi8 : i < 8 := by omega
      have hne : ¬ (7 = i) := by omega
      simp only [Nat.testBit_mod_two_pow, Nat.testBit_or, Nat.testBit_two_pow]
      simp [hi8, hne]

/-- C7: in a `rc522c_ntag_protect` run that returns SUCCESS on a tag with configuration
base page `base`, where the configuration read returned the bytes `c[0..15]`: the run is
the five operations of the trace, each of which returned SUCCESS; the write to `base + 2`
carries the 4 password bytes, the write to `base` carries
`(c[0], c[1], c[2], start_page mod 256)`, the write to `base + 3` carries
`(pack[0], pack[1], c[14], c[15])`, and the write to `base + 1` carries
`(a, c[5], c[6], c[7])` where `a` is a byte whose bit 0x80 is set exactly when `rw` is
non-zero (mode read+write) and whose other 7 bits are those of `c[4]`. -/
theorem rc522c_ntag_protect_data (s : rc522c_state) (h : Hal) (pwd pack : Buf)
    (start_page rw : Int) (base : Nat) (hb : (s.tag_kind, base) ∈ spec_base_pages)
    (r : status_result) (hp : rc522c_ntag_protect s h pwd pack start_page rw = some r)
    (hs : r.status = .SUCCESS) :
    ∃ t, spec_protect_trace s h pwd pack start_page rw base = some t
      ∧ r = t.w_access
      ∧ (t.w_pwd.status = .SUCCESS ∧ t.r_cfg.status = .SUCCESS ∧ t.w_auth0.status = .SUCCESS
          ∧ t.w_pack.status = .SUCCESS ∧ t.w_access.status = .SUCCESS)
      ∧ (∃ x, rc522c_ntag_read_xfer t.w_pwd.s t.w_pwd.h base = some x
          ∧ Buf.take t.r_cfg.out 16 = Buf.take x.rx 16)
      ∧ rc522c_ntag_write s h (base + 2) (Buf.ofList [pwd 0, pwd 1, pwd 2, pwd 3])
          = some t.w_pwd
      ∧ rc522c_ntag_read t.w_pwd.s t.w_pwd.h base t.w_pwd.h.uninitBuf = some t.r_cfg
      ∧ (∃ p, rc522c_ntag_write t.r_cfg.s t.r_cfg.h base
            (Buf.ofList [t.r_cfg.out 0, t.r_cfg.out 1, t.r_cfg.out 2, p]) = some t.w_auth0
          ∧ p < 256 ∧ (p : Int) = start_page % 256)
      ∧ rc522c_ntag_write t.w_auth0.s t.w_auth0.h (base + 3)
          (Buf.ofList [pack 0, pack 1, t.r_cfg.out 14, t.r_cfg.out 15]) = some t.w_pack
      ∧ (∃ a, rc522c_ntag_write t.w_pack.s t.w_pack.h (base + 1)
            (Buf.ofList [a, t.r_cfg.out 5, t.r_cfg.out 6, t.r_cfg.out 7]) = some t.w_access
          ∧ a < 256 ∧ a.testBit 7 = decide (rw ≠ 0)
          ∧ ∀ i, i < 7 → a.testBit i = (t.r_cfg.out 4).testBit i) := by
  rw [protect_unfold s h pwd pack start_page rw base hb] at hp
  obtain ⟨r1, e1, hp⟩ := Option.bind_eq_some.mp hp
  by_cases h1 : r1.status = .SUCCESS
  swap
  · rw [if_pos h1] at hp
    rw [← Option.some.inj hp] at hs
    exact absurd hs h1
  rw [if_neg (not_not.mpr h1)] at hp
  obtain ⟨r2, e2, hp⟩ := Option.bind_eq_some.mp hp
  by_cases h2 : r2.status = .SUCCESS
  swap
  · rw [if_pos h2] at hp
    rw [← Option.some.inj hp] at hs
    exact absurd hs h2
  rw [if_neg (not_not.mpr h2)] at hp
  obtain ⟨r3, e3, hp⟩ := Option.bind_eq_some.mp hp
  by_cases h3 : r3.status = .SUCCESS
  swap
  · rw [if_pos h3] at hp
    rw [← Option.some.inj hp] at hs
    exact absurd hs h3
  rw [if_neg (not_not.mpr h3)] at hp
  obtain ⟨r4, e4, hp⟩ := Option.bind_eq_some.mp hp
  by_cases h4 : r4.status = .SUCCESS
  swap
  · rw [if_pos h4] at hp
    rw [← Option.some.inj hp] at hs
    exact absurd hs h4
  rw [if_neg (not_not.mpr h4)] at hp
  obtain ⟨x, hx, _, ho⟩ := read_success_out r1.s r1.h base r1.h.uninitBuf r2 e2 h2
  refine ⟨⟨r1, r2, r3, r4, r⟩,
    trace_of_ops s h pwd pack start_page rw base r1 r2 r3 r4 r e1 e2 e3 e4 hp, rfl,
    ⟨h1, h2, h3, h4, hs⟩, ⟨x, hx, ?_⟩, e1, e2, ⟨(start_page % 256).toNat, e3, ?_, ?_⟩, e4,
    ⟨spec_access_byte (r2.out 4) rw, hp, spec_access_byte_lt (r2.out 4) rw,
      spec_access_byte_bits (r2.out 4) rw⟩⟩
  · show Buf.take r2.out 16 = _
    rw [ho]
    simp only [Buf.take, Buf.memcpy]
    apply List.map_congr_left
    intro a ha
    show (if a < 16 then _ else _) = _
    rw [if_pos (List.mem_range.mp ha)]
  · omega
  · omega

/-- C7 witness: a successful protect of an NTAG213 in read+write mode from page 16. -/
theorem rc522c_ntag_protect_data_witness :
    ((state_selected .KIND_213).tag_kind, 0x29) ∈ spec_base_pages
    ∧ ∃ r t, rc522c_ntag_protect (state_selected .KIND_213) (mockHal (mockProtect 0xA 0xA 0xA))
          (Buf.ofList [1, 2, 3, 4]) (Buf.ofList [5, 6]) 16 1 = some r
      ∧ r.status = .SUCCESS
      ∧ spec_protect_trace (state_selected .KIND_213) (mockHal (mockProtect 0xA 0xA 0xA))
          (Buf.ofList [1, 2, 3, 4]) (Buf.ofList [5, 6]) 16 1 0x29 = some t
      ∧ r = t.w_access := by
  obtain ⟨r, hr, hs⟩ := Option.map_eq_some'.mp
    (by decide! : (rc522c_ntag_protect (state_selected .KIND_213)
      (mockHal (mockProtect 0xA 0xA 0xA)) (Buf.ofList [1, 2, 3, 4]) (Buf.ofList [5, 6]) 16 1).map
        (fun r => r.status) = some .SUCCESS)
  obtain ⟨t, ht, e, _⟩ := rc522c_ntag_protect_data (state_selected .KIND_213)
    (mockHal (mockProtect 0xA 0xA 0xA)) (Buf.ofList [1, 2, 3, 4]) (Buf.ofList [5, 6]) 16 1 0x29
    (by decide) r hr hs
  exact ⟨by decide, r, t, hr, hs, ht, e⟩

/-! ## Lemmas on the select state machine -/

theorem result_eta (y : transceive_result) (hy : y.status = .SUCCESS) :
    (⟨.SUCCESS, y.s, y.h, y.rx, y.rx_bits⟩ : transceive_result) = y := by
  cases y
  simp only [transceive_result.mk.injEq, and_true] at *
  exact hy.symm

/-- The three ways the checks on a select reply can end. -/
theorem select_cl_end_spec (cl : Nat) (y : transceive_result) :
    let r := rc522c_ntag_select_cl_end cl y
    (y.status ≠ .SUCCESS → r = y)
    ∧ (y.status = .SUCCESS → ¬ sel_pass cl y →
        r.status = .ERROR_TAG_UNSUPPORTED ∧ (∃ l, r.s = set_error y.s l 0) ∧ r.h = y.h)
    ∧ (y.status = .SUCCESS → sel_pass cl y → r = y) := by
  intro r
  have hr : r = rc522c_ntag_select_cl_end cl y := rfl
  unfold rc522c_ntag_select_cl_end at hr
  simp only [] at hr
  change r = (if y.status ≠ .SUCCESS then y else
    if y.rx_bits ≠ 24 then _ else
    if (compute_crc y.s.crc y.rx 1).1 ≠ y.rx 1 ∨ (compute_crc y.s.crc y.rx 1).2 ≠ y.rx 2 then _
    else if cl = 0 then (if y.rx 0 &&& 0x04 = 0 then _ else _)
    else (if y.rx 0 &&& 0x04 ≠ 0 then _ else _)) at hr
  refine ⟨?_, ?_, ?_⟩
  · intro hy
    rw [if_pos hy] at hr
    exact hr
  · intro hy hq
    rw [if_neg (not_not.mpr hy)] at hr
    unfold sel_pass at hq
    by_cases h1 : y.rx_bits = 24
    · rw [if_neg (not_not.mpr h1)] at hr
      by_cases h2 : (compute_crc y.s.crc y.rx 1).1 ≠ y.rx 1
          ∨ (compute_crc y.s.crc y.rx 1).2 ≠ y.rx 2
      · rw [if_pos h2] at hr
        rw [hr]
        exact ⟨rfl, ⟨_, rfl⟩, rfl⟩
      · rw [if_neg h2] at hr
        by_cases h3 : cl = 0
        · rw [if_pos h3] at hr
          have h4 : y.rx 0 &&& 0x04 = 0 := by
            by_contra hc
            exact hq ⟨h1, h2, by rw [if_pos h3]; exact hc⟩
          rw [if_pos h4] at hr
          rw [hr]
          exact ⟨rfl, ⟨_, rfl⟩, rfl⟩
        · rw [if_neg h3] at hr
          have h4 : y.rx 0 &&& 0x04 ≠ 0 := by
            by_contra hc
            exact hq ⟨h1, h2, by rw [if_neg h3]; exact not_not.mpr hc⟩
          rw [if_pos h4] at hr
          rw [hr]
          exact ⟨rfl, ⟨_, rfl⟩, rfl⟩
    · rw [if_pos h1] at hr
      rw [hr]
      exact ⟨rfl, ⟨_, rfl⟩, rfl⟩
  · intro hy hq
    rw [if_neg (not_not.mpr hy), if_neg (not_not.mpr hq.1), if_neg hq.2.1] at hr
    by_cases h3 : cl = 0
    · have h4 := hq.2.2
      rw [if_pos h3] at h4
      rw [if_pos h3, if_neg h4] at hr
      rw [hr]
      exact result_eta y hy
    · have h4 := hq.2.2
      rw [if_neg h3] at h4
      rw [if_neg h3, if_neg h4] at hr
      rw [hr]
      exact result_eta y hy

theorem select_cl_end_h (cl : Nat) (y : transceive_result) :
    (rc522c_ntag_select_cl_end cl y).h = y.h := by
  obtain ⟨c1, c2, c3⟩ := select_cl_end_spec cl y
  by_cases h1 : y.status = .SUCCESS
  · by_cases h2 : sel_pass cl y
    · rw [c3 h1 h2]
    · exact (c2 h1 h2).2.2
  · rw [c1 h1]

/-- The five ways one cascade level that has a result can end. -/
theorem select_cl_spec (cl : Nat) (s : rc522c_state) (h : Hal) (rx : Buf) (rx_bits : Int)
    (r : transceive_result) (hr : rc522c_ntag_select_cl cl s h rx rx_bits = some r) :
    let x := rc522c_ntag_select_sdd cl s h rx rx_bits
    let y := rc522c_ntag_select_sel cl (rc522c_ntag_select_nfcid cl x.s x.rx) x.h x.rx x.rx_bits
    (x.status ≠ .SUCCESS → r = x)
    ∧ (x.status = .SUCCESS → ¬ sdd_pass cl x →
        r.status = .ERROR_TAG_UNSUPPORTED ∧ (∃ l, r.s = set_error x.s l 0) ∧ r.h = x.h)
    ∧ (x.status = .SUCCESS → sdd_pass cl x → y.status ≠ .SUCCESS → r = y)
    ∧ (x.status = .SUCCESS → sdd_pass cl x → y.status = .SUCCESS → ¬ sel_pass cl y →
        r.status = .ERROR_TAG_UNSUPPORTED ∧ (∃ l, r.s = set_error y.s l 0) ∧ r.h = y.h)
    ∧ (x.status = .SUCCESS → sdd_pass cl x → y.status = .SUCCESS → sel_pass cl y → r = y) := by
  intro x y
  unfold rc522c_ntag_select_cl at hr
  obtain ⟨x', hx', hr⟩ := Option.bind_eq_some.mp hr
  have ex : x' = x := (rx64_some hx').1
  subst ex
  simp only [] at hr
  change (if x.status ≠ .SUCCESS then some x else
    if x.rx_bits ≠ 5 * 8 then _ else
    if (x.rx 0 ^^^ x.rx 1 ^^^ x.rx 2 ^^^ x.rx 3) % 256 ≠ x.rx 4 then _ else
    if cl = 0 ∧ x.rx 0 ≠ NFC_CASCADE_TAG then _ else
    (rx64 (rc522c_ntag_select_nfcid cl x.s x.rx) x.h y).bind
      fun r => some (rc522c_ntag_select_cl_end cl r)) = some r at hr
  have reach : x.status = .SUCCESS → sdd_pass cl x → r = rc522c_ntag_select_cl_end cl y := by
    intro hx hp
    rw [if_neg (not_not.mpr hx), if_neg (not_not.mpr hp.1), if_neg (not_not.mpr hp.2.1),
      if_neg hp.2.2] at hr
    obtain ⟨y', hy', hr⟩ := Option.bind_eq_some.mp hr
    rw [(rx64_some hy').1] at hr
    exact (Option.some.inj hr).symm
  obtain ⟨d1, d2, d3⟩ := select_cl_end_spec cl y
  refine ⟨?_, ?_, ?_, ?_, ?_⟩
  · intro hx
    rw [if_pos hx] at hr
    exact (Option.some.inj hr).symm
  · intro hx hp
    rw [if_neg (not_not.mpr hx)] at hr
    unfold sdd_pass at hp
    by_cases h1 : x.rx_bits = 5 * 8
    · rw [if_neg (not_not.mpr h1)] at hr
      by_cases h2 : (x.rx 0 ^^^ x.rx 1 ^^^ x.rx 2 ^^^ x.rx 3) % 256 = x.rx 4
      · rw [if_neg (not_not.mpr h2)] at hr
        have h3 : cl = 0 ∧ x.rx 0 ≠ NFC_CASCADE_TAG := by
          by_contra hc
          exact hp ⟨h1, h2, hc⟩
        rw [if_pos h3] at hr
        rw [← Option.some.inj hr]
        exact ⟨rfl, ⟨_, rfl⟩, rfl⟩
      · rw [if_pos h2] at hr
        rw [← Option.some.inj hr]
        exact ⟨rfl, ⟨_, rfl⟩, rfl⟩
    · rw [if_pos h1] at hr
      rw [← Option.some.inj hr]
      exact ⟨rfl, ⟨_, rfl⟩, rfl⟩
  · intro hx hp hy
    rw [reach hx hp]
    exact d1 hy
  · intro hx hp hy hq
    rw [reach hx hp]
    exact d2 hy hq
  · intro hx hp hy hq
    rw [reach hx hp]
    exact d3 hy hq

theorem defined_ite {α : Type} (P : α → Prop) (c : Prop) [Decidable c] (a b : Option α)
    (ha : ∃ r, a = some r ∧ P r) (hb : ∃ r, b = some r ∧ P r) :
    ∃ r, (if c then a else b) = some r ∧ P r := by
  split
  · exact ha
  · exact hb

/-- When the FIFO-level register never reports more than 64 bytes a cascade level has a
result, and the environment it leaves is the same bus. -/
theorem select_cl_defined (cl : Nat) (s : rc522c_state) (h : Hal) (rx : Buf) (rx_bits : Int)
    (hf : h.fifo_level_le 64) :
    ∃ r, rc522c_ntag_select_cl cl s h rx rx_bits = some r ∧ r.h.fifo_level_le 64 := by
  have e1 : rx64 s h (rc522c_ntag_select_sdd cl s h rx rx_bits)
      = some (rc522c_ntag_select_sdd cl s h rx rx_bits) := rx64_ok s h _ _ rx rx_bits hf
  have f1 : (rc522c_ntag_select_sdd cl s h rx rx_bits).h.fifo_level_le 64 :=
    transceive_fifo s h _ _ rx rx_bits hf
  unfold rc522c_ntag_select_cl
  rw [e1]
  simp only [Option.some_bind]
  refine defined_ite _ _ _ _ ⟨_, rfl, f1⟩ ?_
  refine defined_ite _ _ _ _ ⟨_, rfl, f1⟩ ?_
  refine defined_ite _ _ _ _ ⟨_, rfl, f1⟩ ?_
  refine defined_ite _ _ _ _ ⟨_, rfl, f1⟩ ?_
  have e2 : ∀ s' : rc522c_state,
      rx64 s' (rc522c_ntag_select_sdd cl s h rx rx_bits).h
        (rc522c_ntag_select_sel cl s' (rc522c_ntag_select_sdd cl s h rx rx_bits).h
          (rc522c_ntag_select_sdd cl s h rx rx_bits).rx
          (rc522c_ntag_select_sdd cl s h rx rx_bits).rx_bits)
      = some (rc522c_ntag_select_sel cl s' (rc522c_ntag_select_sdd cl s h rx rx_bits).h
          (rc522c_ntag_select_sdd cl s h rx rx_bits).rx
          (rc522c_ntag_select_sdd cl s h rx rx_bits).rx_bits) :=
    fun s' => rx64_ok s' _ _ _ _ _ f1
  rw [e2]
  simp only [Option.some_bind]
  refine ⟨_, rfl, ?_⟩
  rw [select_cl_end_h]
  exact transceive_fifo _ _ _ _ _ _ f1

theorem select_cl_same_bus (cl : Nat) (s : rc522c_state) (h : Hal) (rx : Buf) (rx_bits : Int)
    (r : transceive_result) (hr : rc522c_ntag_select_cl cl s h rx rx_bits = some r)
    (hf : h.fifo_level_le 64) : r.h.fifo_level_le 64 := by
  obtain ⟨r', e, f⟩ := select_cl_defined cl s h rx rx_bits hf
  rw [hr] at e
  rw [Option.some.inj e]
  exact f

theorem same_sel_of_same_tag {s s' : rc522c_state} (h : same_tag s s') : same_sel s s' :=
  ⟨h.2.1, h.2.2.2.2, h.2.2.2.1⟩

theorem same_sel_trans {a b c : rc522c_state} (h1 : same_sel a b) (h2 : same_sel b c) :
    same_sel a c :=
  ⟨h2.1.trans h1.1, h2.2.1.trans h1.2.1, h2.2.2.trans h1.2.2⟩

theorem same_sel_nfcid (cl : Nat) (s : rc522c_state) (rx : Buf) :
    same_sel s (rc522c_ntag_select_nfcid cl s rx) := by
  unfold rc522c_ntag_select_nfcid
  split <;> exact ⟨rfl, rfl, rfl⟩

theorem sdd_same_tag (cl : Nat) (s : rc522c_state) (h : Hal) (rx : Buf) (b : Int) :
    same_tag s (rc522c_ntag_select_sdd cl s h rx b).s :=
  transceive_same_tag _ _ _ _ _ _

theorem sel_same_tag (cl : Nat) (s : rc522c_state) (h : Hal) (rx : Buf) (b : Int) :
    same_tag s (rc522c_ntag_select_sel cl s h rx b).s :=
  transceive_same_tag _ _ _ _ _ _

theorem version_same_tag (s : rc522c_state) (h : Hal) (rx : Buf) (b : Int) :
    same_tag s (rc522c_ntag_select_get_version s h rx b).s :=
  transceive_same_tag _ _ _ _ _ _

theorem reqa_same_tag (s : rc522c_state) (h : Hal) (rx : Buf) (b : Int) :
    same_tag s (rc522c_ntag_select_reqa s h rx b).s :=
  transceive_same_tag _ _ _ _ _ _

theorem same_sel_set_error {s s' : rc522c_state} (l c : Int) (h : same_sel s s') :
    same_sel s (set_error s' l c) := h

/-- One cascade level never touches `tag_selected`, the CRC table or `tag_kind`. -/
theorem select_cl_same_sel (cl : Nat) (s : rc522c_state) (h : Hal) (rx : Buf) (b : Int)
    (r : transceive_result) (hr : rc522c_ntag_select_cl cl s h rx b = some r) :
    same_sel s r.s := by
  have hx := same_sel_of_same_tag (sdd_same_tag cl s h rx b)
  have hy := same_sel_trans (same_sel_trans hx (same_sel_nfcid cl _ _))
    (same_sel_of_same_tag (sel_same_tag cl
      (rc522c_ntag_select_nfcid cl (rc522c_ntag_select_sdd cl s h rx b).s
        (rc522c_ntag_select_sdd cl s h rx b).rx)
      (rc522c_ntag_select_sdd cl s h rx b).h (rc522c_ntag_select_sdd cl s h rx b).rx
      (rc522c_ntag_select_sdd cl s h rx b).rx_bits))
  obtain ⟨c1, c2, c3, c4, c5⟩ := select_cl_spec cl s h rx b r hr
  by_cases h1 : (rc522c_ntag_select_sdd cl s h rx b).status = .SUCCESS
  · by_cases h2 : sdd_pass cl (rc522c_ntag_select_sdd cl s h rx b)
    · by_cases h3 : (rc522c_ntag_select_sel cl
          (rc522c_ntag_select_nfcid cl (rc522c_ntag_select_sdd cl s h rx b).s
            (rc522c_ntag_select_sdd cl s h rx b).rx)
          (rc522c_ntag_select_sdd cl s h rx b).h (rc522c_ntag_select_sdd cl s h rx b).rx
          (rc522c_ntag_select_sdd cl s h rx b).rx_bits).status = .SUCCESS
      · by_cases h4 : sel_pass cl (rc522c_ntag_select_sel cl
            (rc522c_ntag_select_nfcid cl (rc522c_ntag_select_sdd cl s h rx b).s
              (rc522c_ntag_select_sdd cl s h rx b).rx)
            (rc522c_ntag_select_sdd cl s h rx b).h (rc522c_ntag_select_sdd cl s h rx b).rx
            (rc522c_ntag_select_sdd cl s h rx b).rx_bits)
        · rw [c5 h1 h2 h3 h4]; exact hy
        · obtain ⟨_, ⟨l, hl⟩, _⟩ := c4 h1 h2 h3 h4
          rw [hl]; exact hy
      · rw [c3 h1 h2 h3]; exact hy
    · obtain ⟨_, ⟨l, hl⟩, _⟩ := c2 h1 h2
      rw [hl]; exact hx
  · rw [c1 h1]; exact hx

/-- A cascade level that succeeds passed all its checks and ends with the select
exchange. -/
theorem select_cl_success (cl : Nat) (s : rc522c_state) (h : Hal) (rx : Buf) (b : Int)
    (r : transceive_result) (hr : rc522c_ntag_select_cl cl s h rx b = some r)
    (hs : r.status = .SUCCESS) :
    (rc522c_ntag_select_sdd cl s h rx b).status = .SUCCESS
    ∧ sdd_pass cl (rc522c_ntag_select_sdd cl s h rx b)
    ∧ (rc522c_ntag_select_sel cl
          (rc522c_ntag_select_nfcid cl (rc522c_ntag_select_sdd cl s h rx b).s
            (rc522c_ntag_select_sdd cl s h rx b).rx)
          (rc522c_ntag_select_sdd cl s h rx b).h (rc522c_ntag_select_sdd cl s h rx b).rx
          (rc522c_ntag_select_sdd cl s h rx b).rx_bits).status = .SUCCESS
    ∧ sel_pass cl (rc522c_ntag_select_sel cl
          (rc522c_ntag_select_nfcid cl (rc522c_ntag_select_sdd cl s h rx b).s
            (rc522c_ntag_select_sdd cl s h rx b).rx)
          (rc522c_ntag_select_sdd cl s h rx b).h (rc522c_ntag_select_sdd cl s h rx b).rx
          (rc522c_ntag_select_sdd cl s h rx b).rx_bits)
    ∧ r = rc522c_ntag_select_sel cl
          (rc522c_ntag_select_nfcid cl (rc522c_ntag_select_sdd cl s h rx b).s
            (rc522c_ntag_select_sdd cl s h rx b).rx)
          (rc522c_ntag_select_sdd cl s h rx b).h (rc522c_ntag_select_sdd cl s h rx b).rx
          (rc522c_ntag_select_sdd cl s h rx b).rx_bits := by
  obtain ⟨c1, c2, c3, c4, c5⟩ := select_cl_spec cl s h rx b r hr
  by_cases h1 : (rc522c_ntag_select_sdd cl s h rx b).status = .SUCCESS
  · by_cases h2 : sdd_pass cl (rc522c_ntag_select_sdd cl s h rx b)
    · by_cases h3 : (rc522c_ntag_select_sel cl
          (rc522c_ntag_select_nfcid cl (rc522c_ntag_select_sdd cl s h rx b).s
            (rc522c_ntag_select_sdd cl s h rx b).rx)
          (rc522c_ntag_select_sdd cl s h rx b).h (rc522c_ntag_select_sdd cl s h rx b).rx
          (rc522c_ntag_select_sdd cl s h rx b).rx_bits).status = .SUCCESS
      · by_cases h4 : sel_pass cl (rc522c_ntag_select_sel cl
            (rc522c_ntag_select_nfcid cl (rc522c_ntag_select_sdd cl s h rx b).s
              (rc522c_ntag_select_sdd cl s h rx b).rx)
            (rc522c_ntag_select_sdd cl s h rx b).h (rc522c_ntag_select_sdd cl s h rx b).rx
            (rc522c_ntag_select_sdd cl s h rx b).rx_bits)
        · exact ⟨h1, h2, h3, h4, c5 h1 h2 h3 h4⟩
        · have := (c4 h1 h2 h3 h4).1
          rw [hs] at this
          exact absurd this (by decide)
      · have := c3 h1 h2 h3
        rw [this] at hs
        exact absurd hs h3
    · have := (c2 h1 h2).1
      rw [hs] at this
      exact absurd this (by decide)
  · have := c1 h1
    rw [this] at hs
    exact absurd hs h1

/-- The ways the GET_VERSION block can end. -/
theorem select_version_spec (v : transceive_result) :
    let r := rc522c_ntag_select_version_end v
    (v.status ≠ .SUCCESS → r = ⟨v.status, v.s, v.h⟩)
    ∧ (v.status = .SUCCESS → is_nak v →
        r = ⟨.ERROR_TAG_NAK, set_error v.s 222 (v.rx 0 &&& 0xF : Nat), v.h⟩)
    ∧ (v.status = .SUCCESS → ¬ is_nak v → ¬ version_pass v →
        r.status = .ERROR_TAG_UNSUPPORTED ∧ (∃ l, r.s = set_error v.s l 0) ∧ r.h = v.h)
    ∧ (v.status = .SUCCESS → ¬ is_nak v → version_pass v →
        (v.rx 6 = 0x0F → r = ⟨.SUCCESS, { v.s with tag_kind := .KIND_213, tag_selected := 1 }, v.h⟩)
        ∧ (v.rx 6 = 0x11 →
            r = ⟨.SUCCESS, { v.s with tag_kind := .KIND_215, tag_selected := 1 }, v.h⟩)
        ∧ (v.rx 6 = 0x13 →
            r = ⟨.SUCCESS, { v.s with tag_kind := .KIND_216, tag_selected := 1 }, v.h⟩)
        ∧ (v.rx 6 ≠ 0x0F → v.rx 6 ≠ 0x11 → v.rx 6 ≠ 0x13 →
            r.status = .ERROR_TAG_UNSUPPORTED ∧ (∃ l, r.s = set_error v.s l 0) ∧ r.h = v.h)) := by
  intro r
  have hr : r = rc522c_ntag_select_version_end v := rfl
  unfold rc522c_ntag_select_version_end at hr
  simp only [] at hr
  change r = (if v.status ≠ .SUCCESS then _ else
    if v.rx_bits = NTAG_ACKNAK_RX_BITS ∧ v.rx 0 &&& NTAG_ACKNAK_MASK ≠ NTAG_ACK then _ else
    if v.rx_bits ≠ 10 * 8 then _ else
    if (compute_crc v.s.crc v.rx 8).1 ≠ v.rx 8 ∨ (compute_crc v.s.crc v.rx 8).2 ≠ v.rx 9 then _
    else if v.rx NTAG_VERSION_STORAGE_SIZE_BYTE = NTAG_VERSION_STORAGE_SIZE_213 then _
    else if v.rx NTAG_VERSION_STORAGE_SIZE_BYTE = NTAG_VERSION_STORAGE_SIZE_215 then _
    else if v.rx NTAG_VERSION_STORAGE_SIZE_BYTE = NTAG_VERSION_STORAGE_SIZE_216 then _
    else _) at hr
  simp only [NTAG_ACKNAK_RX_BITS, NTAG_ACKNAK_MASK, NTAG_ACK, NTAG_VERSION_STORAGE_SIZE_BYTE,
    NTAG_VERSION_STORAGE_SIZE_213, NTAG_VERSION_STORAGE_SIZE_215,
    NTAG_VERSION_STORAGE_SIZE_216] at hr
  refine ⟨?_, ?_, ?_, ?_⟩
  · intro hv
    rw [hr, if_pos hv]
  · intro hv hn
    have hn' : v.rx_bits = 4 ∧ v.rx 0 &&& 0xF ≠ 0xA := hn
    rw [hr, if_neg (not_not.mpr hv), if_pos hn']
  · intro hv hn hp
    have hn' : ¬ (v.rx_bits = 4 ∧ v.rx 0 &&& 0xF ≠ 0xA) := hn
    rw [if_neg (not_not.mpr hv), if_neg hn'] at hr
    unfold version_pass at hp
    by_cases h1 : v.rx_bits = 10 * 8
    · rw [if_neg (not_not.mpr h1)] at hr
      have h2 : (compute_crc v.s.crc v.rx 8).1 ≠ v.rx 8
          ∨ (compute_crc v.s.crc v.rx 8).2 ≠ v.rx 9 := by
        by_contra hc
        exact hp ⟨h1, hc⟩
      rw [if_pos h2] at hr
      rw [hr]
      exact ⟨rfl, ⟨_, rfl⟩, rfl⟩
    · rw [if_pos h1] at hr
      rw [hr]
      exact ⟨rfl, ⟨_, rfl⟩, rfl⟩
  · intro hv hn hp
    have hn' : ¬ (v.rx_bits = 4 ∧ v.rx 0 &&& 0xF ≠ 0xA) := hn
    rw [if_neg (not_not.mpr hv), if_neg hn', if_neg (not_not.mpr hp.1), if_neg hp.2] at hr
    refine ⟨?_, ?_, ?_, ?_⟩
    · intro h6
      rw [hr, if_pos h6]
    · intro h6
      have h0 : ¬ v.rx 6 = 0x0F := by rw [h6]; decide
      rw [hr, if_neg h0, if_pos h6]
    · intro h6
      have h0 : ¬ v.rx 6 = 0x0F := by rw [h6]; decide
      have h1 : ¬ v.rx 6 = 0x11 := by rw [h6]; decide
      rw [hr, if_neg h0, if_neg h1, if_pos h6]
    · intro h0 h1 h2
      rw [hr, if_neg h0, if_neg h1, if_neg h2]
      exact ⟨rfl, ⟨_, rfl⟩, rfl⟩

/-- The GET_VERSION block sets `tag_selected` to 1 exactly when it succeeds and otherwise
leaves it alone. -/
theorem select_version_sel (v : transceive_result) :
    ((rc522c_ntag_select_version_end v).status = .SUCCESS →
        (rc522c_ntag_select_version_end v).s.tag_selected = 1)
    ∧ ((rc522c_ntag_select_version_end v).status ≠ .SUCCESS →
        (rc522c_ntag_select_version_end v).s.tag_selected = v.s.tag_selected) := by
  have hv : v.s.tag_selected = v.s.tag_selected := rfl
  obtain ⟨c1, c2, c3, c4⟩ := select_version_spec v
  by_cases h1 : v.status = .SUCCESS
  · by_cases h2 : is_nak v
    · rw [c2 h1 h2]
      exact ⟨fun hc => absurd hc (by simp), fun _ => hv⟩
    · by_cases h3 : version_pass v
      · obtain ⟨d1, d2, d3, d4⟩ := c4 h1 h2 h3
        by_cases e1 : v.rx 6 = 0x0F
        · rw [d1 e1]
          exact ⟨fun _ => rfl, fun hc => absurd rfl hc⟩
        · by_cases e2 : v.rx 6 = 0x11
          · rw [d2 e2]
            exact ⟨fun _ => rfl, fun hc => absurd rfl hc⟩
          · by_cases e3 : v.rx 6 = 0x13
            · rw [d3 e3]
              exact ⟨fun _ => rfl, fun hc => absurd rfl hc⟩
            · obtain ⟨f1, ⟨l, f2⟩, _⟩ := d4 e1 e2 e3
              rw [f1, f2]
              exact ⟨fun hc => absurd hc (by decide), fun _ => hv⟩
      · obtain ⟨f1, ⟨l, f2⟩, _⟩ := c3 h1 h2 h3
        rw [f1, f2]
        exact ⟨fun hc => absurd hc (by decide), fun _ => hv⟩
  · rw [c1 h1]
    exact ⟨fun hc => absurd hc h1, fun _ => hv⟩

theorem select_version_end_h (v : transceive_result) :
    (rc522c_ntag_select_version_end v).h = v.h := by
  obtain ⟨c1, c2, c3, c4⟩ := select_version_spec v
  by_cases h1 : v.status = .SUCCESS
  · by_cases h2 : is_nak v
    · rw [c2 h1 h2]
    · by_cases h3 : version_pass v
      · obtain ⟨d1, d2, d3, d4⟩ := c4 h1 h2 h3
        by_cases e1 : v.rx 6 = 0x0F
        · rw [d1 e1]
        · by_cases e2 : v.rx 6 = 0x11
          · rw [d2 e2]
          · by_cases e3 : v.rx 6 = 0x13
            · rw [d3 e3]
            · exact (d4 e1 e2 e3).2.2
      · exact (c3 h1 h2 h3).2.2
  · rw [c1 h1]

/-- The GET_VERSION block, when it has a result, ends with the checks on the reply of
the exchange. -/
theorem select_version_some (s : rc522c_state) (h : Hal) (rx : Buf) (b : Int)
    (r : status_result) (hr : rc522c_ntag_select_version s h rx b = some r) :
    r = rc522c_ntag_select_version_end (rc522c_ntag_select_get_version s h rx b) := by
  unfold rc522c_ntag_select_version at hr
  obtain ⟨v, hv, hr⟩ := Option.bind_eq_some.mp hr
  rw [(rx64_some hv).1] at hr
  exact (Option.some.inj hr).symm

theorem select_version_defined (s : rc522c_state) (h : Hal) (rx : Buf) (b : Int)
    (hf : h.fifo_level_le 64) :
    rc522c_ntag_select_version s h rx b
      = some (rc522c_ntag_select_version_end (rc522c_ntag_select_get_version s h rx b)) := by
  have e1 : rx64 s h (rc522c_ntag_select_get_version s h rx b)
      = some (rc522c_ntag_select_get_version s h rx b) := rx64_ok s h _ _ rx b hf
  unfold rc522c_ntag_select_version
  rw [e1]
  rfl

/-- The stage results of a select run that has a result: the REQA exchange, cascade
level 1 run after it, cascade level 2 run after the select exchange of level 1, the
GET_VERSION block. -/
theorem select_unfold (s : rc522c_state) (h : Hal) (r : status_result)
    (hr : rc522c_ntag_select s h = some r) :
    let t := spec_select_trace s h
    (t.reqa.status ≠ .SUCCESS → r = ⟨t.reqa.status, t.reqa.s, t.reqa.h⟩)
    ∧ (t.reqa.status = .SUCCESS → t.reqa.rx_bits ≠ 16 →
        r = ⟨.ERROR_TAG_UNSUPPORTED, set_error t.reqa.s 144 0, t.reqa.h⟩)
    ∧ (t.reqa.status = .SUCCESS → t.reqa.rx_bits = 16 →
        ∃ m0, rc522c_ntag_select_cl 0 t.reqa.s t.reqa.h t.reqa.rx t.reqa.rx_bits = some m0
          ∧ (m0.status ≠ .SUCCESS → r = ⟨m0.status, m0.s, m0.h⟩)
          ∧ (m0.status = .SUCCESS → m0 = t.sel1
              ∧ ∃ m1, rc522c_ntag_select_cl 1 t.sel1.s t.sel1.h t.sel1.rx t.sel1.rx_bits
                    = some m1
                ∧ (m1.status ≠ .SUCCESS → r = ⟨m1.status, m1.s, m1.h⟩)
                ∧ (m1.status = .SUCCESS → m1 = t.sel2
                    ∧ r = rc522c_ntag_select_version_end t.version))) := by
  intro t
  unfold rc522c_ntag_select at hr
  simp only [] at hr
  obtain ⟨x0, hx0, hr⟩ := Option.bind_eq_some.mp hr
  have ex : x0 = t.reqa := (rx64_some hx0).1
  subst ex
  refine ⟨?_, ?_, ?_⟩
  · intro h0
    rw [if_pos h0] at hr
    exact (Option.some.inj hr).symm
  · intro h0 h1
    rw [if_neg (not_not.mpr h0), if_pos h1] at hr
    exact (Option.some.inj hr).symm
  · intro h0 h1
    rw [if_neg (not_not.mpr h0), if_neg (not_not.mpr h1)] at hr
    obtain ⟨m0, hm0, hr⟩ := Option.bind_eq_some.mp hr
    refine ⟨m0, hm0, ?_, ?_⟩
    · intro h2
      rw [if_pos h2] at hr
      exact (Option.some.inj hr).symm
    · intro h2
      rw [if_neg (not_not.mpr h2)] at hr
      have e0 : m0 = t.sel1 := (select_cl_success 0 _ _ _ _ m0 hm0 h2).2.2.2.2
      subst e0
      obtain ⟨m1, hm1, hr⟩ := Option.bind_eq_some.mp hr
      refine ⟨rfl, m1, hm1, ?_, ?_⟩
      · intro h3
        rw [if_pos h3] at hr
        exact (Option.some.inj hr).symm
      · intro h3
        rw [if_neg (not_not.mpr h3)] at hr
        have e1 : m1 = t.sel2 := (select_cl_success 1 _ _ _ _ m1 hm1 h3).2.2.2.2
        subst e1
        exact ⟨rfl, select_version_some _ _ _ _ r hr⟩

/-- When the FIFO-level register never reports more than 64 bytes `rc522c_ntag_select`
has a result. -/
theorem select_defined (s : rc522c_state) (h : Hal) (hf : h.fifo_level_le 64) :
    ∃ r, rc522c_ntag_select s h = some r := by
  have e0 : rx64 { s with tag_selected := 0 } h
      (rc522c_ntag_select_reqa { s with tag_selected := 0 } h h.uninitBuf (h.uninit 64))
      = some (rc522c_ntag_select_reqa { s with tag_selected := 0 } h h.uninitBuf
          (h.uninit 64)) := rx64_ok _ h _ _ _ _ hf
  have f0 : (rc522c_ntag_select_reqa { s with tag_selected := 0 } h h.uninitBuf
      (h.uninit 64)).h.fifo_level_le 64 := transceive_fifo _ h _ _ _ _ hf
  unfold rc522c_ntag_select
  simp only []
  rw [e0]
  simp only [Option.some_bind]
  split
  · exact ⟨_, rfl⟩
  · split
    · exact ⟨_, rfl⟩
    · obtain ⟨m0, hm0, f1⟩ := select_cl_defined 0 _ _ _ _ f0
      rw [hm0]
      simp only [Option.some_bind]
      split
      · exact ⟨_, rfl⟩
      · obtain ⟨m1, hm1, f2⟩ := select_cl_defined 1 m0.s _ m0.rx m0.rx_bits f1
        rw [hm1]
        simp only [Option.some_bind]
        split
        · exact ⟨_, rfl⟩
        · rw [select_version_defined _ _ _ _ f2]
          exact ⟨_, rfl⟩

theorem reqa_same_sel (s : rc522c_state) (h : Hal) :
    (spec_select_trace s h).reqa.s.tag_selected = 0
    ∧ (spec_select_trace s h).reqa.s.crc = s.crc := by
  have := reqa_same_tag { s with tag_selected := 0 } h h.uninitBuf (h.uninit 64)
  exact ⟨this.2.1, this.2.2.2.2⟩

theorem sdd_success_state (cl : Nat) (s : rc522c_state) (h : Hal) (rx : Buf) (b : Int)
    (hs : (rc522c_ntag_select_sdd cl s h rx b).status = .SUCCESS) :
    (rc522c_ntag_select_sdd cl s h rx b).s = s :=
  transceive_success_state _ _ _ _ _ _ hs

theorem sel_success_state (cl : Nat) (s : rc522c_state) (h : Hal) (rx : Buf) (b : Int)
    (hs : (rc522c_ntag_select_sel cl s h rx b).status = .SUCCESS) :
    (rc522c_ntag_select_sel cl s h rx b).s = s :=
  transceive_success_state _ _ _ _ _ _ hs

theorem get_version_success_state (s : rc522c_state) (h : Hal) (rx : Buf) (b : Int)
    (hs : (rc522c_ntag_select_get_version s h rx b).status = .SUCCESS) :
    (rc522c_ntag_select_get_version s h rx b).s = s :=
  transceive_success_state _ _ _ _ _ _ hs

/-- When both cascade levels succeed, the first five exchanges succeeded and the state
holds the identifier bytes of the two anti-collision replies. -/
theorem select_levels_success (s : rc522c_state) (h : Hal) (m0 m1 : transceive_result)
    (hm0 : rc522c_ntag_select_cl 0 (spec_select_trace s h).reqa.s (spec_select_trace s h).reqa.h
      (spec_select_trace s h).reqa.rx (spec_select_trace s h).reqa.rx_bits = some m0)
    (h2 : m0.status = .SUCCESS)
    (hm1 : rc522c_ntag_select_cl 1 (spec_select_trace s h).sel1.s (spec_select_trace s h).sel1.h
      (spec_select_trace s h).sel1.rx (spec_select_trace s h).sel1.rx_bits = some m1)
    (h3 : m1.status = .SUCCESS) :
    (spec_select_trace s h).sdd1.status = .SUCCESS
    ∧ (spec_select_trace s h).sel1.status = .SUCCESS
    ∧ (spec_select_trace s h).sdd2.status = .SUCCESS
    ∧ (spec_select_trace s h).sel2.status = .SUCCESS
    ∧ Buf.take (spec_select_trace s h).sel2.s.tag_nfcid 7 =
        [(spec_select_trace s h).sdd1.rx 1, (spec_select_trace s h).sdd1.rx 2,
         (spec_select_trace s h).sdd1.rx 3, (spec_select_trace s h).sdd2.rx 0,
         (spec_select_trace s h).sdd2.rx 1, (spec_select_trace s h).sdd2.rx 2,
         (spec_select_trace s h).sdd2.rx 3] := by
  obtain ⟨a1, _, a3, _, _⟩ := select_cl_success 0 _ _ _ _ m0 hm0 h2
  obtain ⟨b1, _, b3, _, _⟩ := select_cl_success 1 _ _ _ _ m1 hm1 h3
  have a1' : (spec_select_trace s h).sdd1.status = .SUCCESS := a1
  have a3' : (spec_select_trace s h).sel1.status = .SUCCESS := a3
  have b1' : (spec_select_trace s h).sdd2.status = .SUCCESS := b1
  have b3' : (spec_select_trace s h).sel2.status = .SUCCESS := b3
  refine ⟨a1', a3', b1', b3', ?_⟩
  have e4 : (spec_select_trace s h).sel2.s
      = rc522c_ntag_select_nfcid 1 (spec_select_trace s h).sdd2.s
          (spec_select_trace s h).sdd2.rx := sel_success_state _ _ _ _ _ b3
  have e3 : (spec_select_trace s h).sdd2.s = (spec_select_trace s h).sel1.s :=
    sdd_success_state _ _ _ _ _ b1
  have e2 : (spec_select_trace s h).sel1.s
      = rc522c_ntag_select_nfcid 0 (spec_select_trace s h).sdd1.s
          (spec_select_trace s h).sdd1.rx := sel_success_state _ _ _ _ _ a3
  rw [e4, e3, e2]
  simp [rc522c_ntag_select_nfcid, Buf.take, Buf.set, List.range, List.range.loop]

/-- What a select run that has a result leaves. -/
theorem select_spec_of_some (s : rc522c_state) (h : Hal) (r : status_result)
    (hr : rc522c_ntag_select s h = some r) :
    let t := spec_select_trace s h
    (r.s.tag_selected = 1 ↔ r.status = .SUCCESS)
    ∧ (r.status ≠ .SUCCESS → r.s.tag_selected = 0)
    ∧ (r.status = .SUCCESS →
        (t.reqa.status = .SUCCESS ∧ t.sdd1.status = .SUCCESS ∧ t.sel1.status = .SUCCESS
          ∧ t.sdd2.status = .SUCCESS ∧ t.sel2.status = .SUCCESS ∧ t.version.status = .SUCCESS)
        ∧ Buf.take r.s.tag_nfcid 7 =
            [t.sdd1.rx 1, t.sdd1.rx 2, t.sdd1.rx 3,
             t.sdd2.rx 0, t.sdd2.rx 1, t.sdd2.rx 2, t.sdd2.rx 3]
        ∧ ((t.version.rx 6 = 0x0F ∧ r.s.tag_kind = .KIND_213)
          ∨ (t.version.rx 6 = 0x11 ∧ r.s.tag_kind = .KIND_215)
          ∨ (t.version.rx 6 = 0x13 ∧ r.s.tag_kind = .KIND_216))) := by
  intro t
  have fail : ∀ r' : status_result, r = r' → r'.status ≠ .SUCCESS → r'.s.tag_selected = 0 →
      (r.s.tag_selected = 1 ↔ r.status = .SUCCESS)
      ∧ (r.status ≠ .SUCCESS → r.s.tag_selected = 0)
      ∧ (r.status = .SUCCESS →
        (t.reqa.status = .SUCCESS ∧ t.sdd1.status = .SUCCESS ∧ t.sel1.status = .SUCCESS
          ∧ t.sdd2.status = .SUCCESS ∧ t.sel2.status = .SUCCESS ∧ t.version.status = .SUCCESS)
        ∧ Buf.take r.s.tag_nfcid 7 =
            [t.sdd1.rx 1, t.sdd1.rx 2, t.sdd1.rx 3,
             t.sdd2.rx 0, t.sdd2.rx 1, t.sdd2.rx 2, t.sdd2.rx 3]
        ∧ ((t.version.rx 6 = 0x0F ∧ r.s.tag_kind = .KIND_213)
          ∨ (t.version.rx 6 = 0x11 ∧ r.s.tag_kind = .KIND_215)
          ∨ (t.version.rx 6 = 0x13 ∧ r.s.tag_kind = .KIND_216))) := by
    intro r' hr hs h0
    rw [hr]
    refine ⟨⟨fun hc => ?_, fun hc => absurd hc hs⟩, fun _ => h0, fun hc => absurd hc hs⟩
    rw [h0] at hc
    exact absurd hc (by decide)
  obtain ⟨u1, u2, u3⟩ := select_unfold s h r hr
  obtain ⟨q0, _⟩ := reqa_same_sel s h
  by_cases h0 : t.reqa.status = .SUCCESS
  · by_cases h1 : t.reqa.rx_bits = 16
    · obtain ⟨m0, hm0, u3a, u4⟩ := u3 h0 h1
      have q1 := (select_cl_same_sel 0 t.reqa.s t.reqa.h t.reqa.rx t.reqa.rx_bits m0 hm0).1
      by_cases h2 : m0.status = .SUCCESS
      · obtain ⟨e0, m1, hm1, v1, v2⟩ := u4 h2
        have q2 := (select_cl_same_sel 1 t.sel1.s t.sel1.h t.sel1.rx t.sel1.rx_bits m1 hm1).1
        have q3 : t.sel1.s.tag_selected = 0 := by
          rw [← e0, q1]; exact q0
        by_cases h3 : m1.status = .SUCCESS
        · obtain ⟨e1, hr'⟩ := v2 h3
          have q4 : t.sel2.s.tag_selected = 0 := by
            rw [← e1, q2]; exact q3
          have q5 : t.version.s.tag_selected = 0 :=
            (version_same_tag t.sel2.s t.sel2.h t.sel2.rx t.sel2.rx_bits).2.1.trans q4
          obtain ⟨w1, w2⟩ := select_version_sel t.version
          by_cases h4 : r.status = .SUCCESS
          · obtain ⟨l1, l2, l3, l4, l5⟩ := select_levels_success s h m0 m1 hm0 h2 hm1 h3
            obtain ⟨c1, c2, c3, c4⟩ := select_version_spec t.version
            have hsel : r.s.tag_selected = 1 := by
              rw [hr']; exact w1 (by rw [← hr']; exact h4)
            refine ⟨⟨fun _ => h4, fun _ => hsel⟩, fun hc => absurd h4 hc, fun _ => ?_⟩
            have hv : t.version.status = .SUCCESS := by
              by_contra hc
              have := c1 hc
              rw [← hr'] at this
              rw [this] at h4
              exact hc h4
            have hvs : t.version.s = t.sel2.s := get_version_success_state _ _ _ _ hv
            have hn : ¬ is_nak t.version := by
              intro hc
              have := c2 hv hc
              rw [← hr'] at this
              rw [this] at h4
              exact absurd h4 (by simp)
            have hp : version_pass t.version := by
              by_contra hc
              have := (c3 hv hn hc).1
              rw [← hr'] at this
              rw [this] at h4
              exact absurd h4 (by decide)
            obtain ⟨d1, d2, d3, d4⟩ := c4 hv hn hp
            refine ⟨⟨h0, l1, l2, l3, l4, hv⟩, ?_, ?_⟩
            · by_cases e1 : t.version.rx 6 = 0x0F
              · have := d1 e1
                rw [← hr'] at this
                rw [this]
                show Buf.take t.version.s.tag_nfcid 7 = _
                rw [hvs]; exact l5
              · by_cases e2 : t.version.rx 6 = 0x11
                · have := d2 e2
                  rw [← hr'] at this
                  rw [this]
                  show Buf.take t.version.s.tag_nfcid 7 = _
                  rw [hvs]; exact l5
                · by_cases e3 : t.version.rx 6 = 0x13
                  · have := d3 e3
                    rw [← hr'] at this
                    rw [this]
                    show Buf.take t.version.s.tag_nfcid 7 = _
                    rw [hvs]; exact l5
                  · have := (d4 e1 e2 e3).1
                    rw [← hr'] at this
                    rw [this] at h4
                    exact absurd h4 (by decide)
            · by_cases e1 : t.version.rx 6 = 0x0F
              · have := d1 e1
                rw [← hr'] at this
                rw [this]
                exact Or.inl ⟨e1, rfl⟩
              · by_cases e2 : t.version.rx 6 = 0x11
                · have := d2 e2
                  rw [← hr'] at this
                  rw [this]
                  exact Or.inr (Or.inl ⟨e2, rfl⟩)
                · by_cases e3 : t.version.rx 6 = 0x13
                  · have := d3 e3
                    rw [← hr'] at this
                    rw [this]
                    exact Or.inr (Or.inr ⟨e3, rfl⟩)
                  · have := (d4 e1 e2 e3).1
                    rw [← hr'] at this
                    rw [this] at h4
                    exact absurd h4 (by decide)
          · refine fail _ hr' (by rw [← hr']; exact h4) ?_
            rw [w2 (by rw [← hr']; exact h4)]
            exact q5
        · exact fail _ (v1 h3) h3 (by rw [q2]; exact q3)
      · exact fail _ (u3a h2) h2 (by rw [q1]; exact q0)
    · exact fail _ (u2 h0 h1) (by simp) q0
  · exact fail _ (u1 h0) h0 q0

/-- C1 (as stated) fails: when the tag answers REQA with 100 bytes the REQA exchange
succeeds with 800 bits after draining 100 bytes into the 64-byte array `rx`
(rc522c.c:136, 128-129): `rc522c_ntag_select` has no defined result, so neither a status
nor a `tag_selected` to relate to it. -/
theorem select_long_reply_no_status :
    (spec_select_trace state0 (mockHal [mockBytes (List.replicate 100 0xAB)])).reqa.status
        = .SUCCESS
    ∧ (spec_select_trace state0 (mockHal [mockBytes (List.replicate 100 0xAB)])).reqa.rx_bits
        = 800
    ∧ rx_stores { state0 with tag_selected := 0 } (mockHal [mockBytes (List.replicate 100 0xAB)])
        (spec_select_trace state0 (mockHal [mockBytes (List.replicate 100 0xAB)])).reqa = 100
    ∧ rc522c_ntag_select state0 (mockHal [mockBytes (List.replicate 100 0xAB)]) = none :=
  ⟨by decide!, by decide!, by decide!, Option.isNone_iff_eq_none.mp (by decide!)⟩

/-- C1 (amended): when the FIFO-level register never reports more than 64 bytes,
`rc522c_ntag_select` returns, whatever else the chip and bus did, and after it
`tag_selected` is 1 exactly when the status is SUCCESS and is 0 after every failure; on
SUCCESS all six exchanges succeeded, `tag_nfcid` is bytes 1..3 of the level-1
anti-collision reply followed by bytes 0..3 of the level-2 anti-collision reply, and
`tag_kind` is NTAG213/215/216 according to byte 6 of the GET_VERSION reply being
0x0F/0x11/0x13. -/
theorem rc522c_ntag_select_spec (s : rc522c_state) (h : Hal) (hf : h.fifo_level_le 64) :
    let t := spec_select_trace s h
    ∃ r, rc522c_ntag_select s h = some r
      ∧ (r.s.tag_selected = 1 ↔ r.status = .SUCCESS)
      ∧ (r.status ≠ .SUCCESS → r.s.tag_selected = 0)
      ∧ (r.status = .SUCCESS →
          (t.reqa.status = .SUCCESS ∧ t.sdd1.status = .SUCCESS ∧ t.sel1.status = .SUCCESS
            ∧ t.sdd2.status = .SUCCESS ∧ t.sel2.status = .SUCCESS
            ∧ t.version.status = .SUCCESS)
          ∧ Buf.take r.s.tag_nfcid 7 =
              [t.sdd1.rx 1, t.sdd1.rx 2, t.sdd1.rx 3,
               t.sdd2.rx 0, t.sdd2.rx 1, t.sdd2.rx 2, t.sdd2.rx 3]
          ∧ ((t.version.rx 6 = 0x0F ∧ r.s.tag_kind = .KIND_213)
            ∨ (t.version.rx 6 = 0x11 ∧ r.s.tag_kind = .KIND_215)
            ∨ (t.version.rx 6 = 0x13 ∧ r.s.tag_kind = .KIND_216))) := by
  intro t
  obtain ⟨r, hr⟩ := select_defined s h hf
  exact ⟨r, hr, select_spec_of_some s h r hr⟩

/-- C1 witness (scenario B): the scripted NTAG215 is selected, its identifier stored and
its kind recognised. -/
theorem rc522c_ntag_select_spec_witness :
    (mockHal mockNtag215).fifo_level_le 64
    ∧ ∃ r, rc522c_ntag_select state0 (mockHal mockNtag215) = some r
      ∧ r.status = .SUCCESS ∧ r.s.tag_selected = 1 ∧ r.s.tag_kind = .KIND_215
      ∧ Buf.take r.s.tag_nfcid 7 = [0x04, 0x11, 0x22, 0x33, 0x44, 0x55, 0x66] := by
  have hf : (mockHal mockNtag215).fifo_level_le 64 := mockHal_fifo_level_le _ (by decide)
  obtain ⟨r, hr, c1, _⟩ := rc522c_ntag_select_spec state0 (mockHal mockNtag215) hf
  have hv : (rc522c_ntag_select state0 (mockHal mockNtag215)).map
      (fun r => (r.status, r.s.tag_kind, Buf.take r.s.tag_nfcid 7))
      = some (.SUCCESS, .KIND_215, [0x04, 0x11, 0x22, 0x33, 0x44, 0x55, 0x66]) := by decide!
  rw [hr] at hv
  simp only [Option.map_some', Option.some.injEq, Prod.mk.injEq] at hv
  exact ⟨hf, r, hr, hv.1, c1.2 hv.1, hv.2.1, hv.2.2⟩

/-- Every exchange of a select run leaves `tag_selected` at 0 and the CRC table alone,
and every receive buffer holds bytes. -/
theorem select_trace_facts (s : rc522c_state) (h : Hal) :
    let t := spec_select_trace s h
    (t.reqa.s.tag_selected = 0 ∧ t.reqa.s.crc = s.crc ∧ Buf.bytes t.reqa.rx)
    ∧ (t.sdd1.s.tag_selected = 0 ∧ t.sdd1.s.crc = s.crc ∧ Buf.bytes t.sdd1.rx)
    ∧ (t.sel1.s.tag_selected = 0 ∧ t.sel1.s.crc = s.crc ∧ Buf.bytes t.sel1.rx)
    ∧ (t.sdd2.s.tag_selected = 0 ∧ t.sdd2.s.crc = s.crc ∧ Buf.bytes t.sdd2.rx)
    ∧ (t.sel2.s.tag_selected = 0 ∧ t.sel2.s.crc = s.crc ∧ Buf.bytes t.sel2.rx)
    ∧ (t.version.s.tag_selected = 0 ∧ t.version.s.crc = s.crc ∧ Buf.bytes t.version.rx) := by
  intro t
  have a0 : same_sel { s with tag_selected := 0 } t.reqa.s :=
    same_sel_of_same_tag (reqa_same_tag _ _ _ _)
  have b0 : Buf.bytes t.reqa.rx := transceive_bytes _ _ _ _ _ _ (uninitBuf_bytes h)
  have a1 : same_sel { s with tag_selected := 0 } t.sdd1.s :=
    same_sel_trans a0 (same_sel_of_same_tag (sdd_same_tag _ _ _ _ _))
  have b1 : Buf.bytes t.sdd1.rx := transceive_bytes _ _ _ _ _ _ b0
  have a2 : same_sel { s with tag_selected := 0 } t.sel1.s :=
    same_sel_trans (same_sel_trans a1 (same_sel_nfcid 0 _ _))
      (same_sel_of_same_tag (sel_same_tag _ _ _ _ _))
  have b2 : Buf.bytes t.sel1.rx := transceive_bytes _ _ _ _ _ _ b1
  have a3 : same_sel { s with tag_selected := 0 } t.sdd2.s :=
    same_sel_trans a2 (same_sel_of_same_tag (sdd_same_tag _ _ _ _ _))
  have b3 : Buf.bytes t.sdd2.rx := transceive_bytes _ _ _ _ _ _ b2
  have a4 : same_sel { s with tag_selected := 0 } t.sel2.s :=
    same_sel_trans (same_sel_trans a3 (same_sel_nfcid 1 _ _))
      (same_sel_of_same_tag (sel_same_tag _ _ _ _ _))
  have b4 : Buf.bytes t.sel2.rx := transceive_bytes _ _ _ _ _ _ b3
  have a5 : same_sel { s with tag_selected := 0 } t.version.s :=
    same_sel_trans a4 (same_sel_of_same_tag (version_same_tag _ _ _ _))
  have b5 : Buf.bytes t.version.rx := transceive_bytes _ _ _ _ _ _ b4
  exact ⟨⟨a0.1, a0.2.1, b0⟩, ⟨a1.1, a1.2.1, b1⟩, ⟨a2.1, a2.2.1, b2⟩, ⟨a3.1, a3.2.1, b3⟩,
    ⟨a4.1, a4.2.1, b4⟩, ⟨a5.1, a5.2.1, b5⟩⟩

theorem bcc_mod (rx : Buf) (hb : Buf.bytes rx) :
    (rx 0 ^^^ rx 1 ^^^ rx 2 ^^^ rx 3) % 256 = rx 0 ^^^ rx 1 ^^^ rx 2 ^^^ rx 3 := by
  apply Nat.mod_eq_of_lt
  have h8 : ∀ a b : Nat, a < 256 → b < 256 → a ^^^ b < 256 := fun a b ha hb =>
    Nat.xor_lt_two_pow (n := 8) ha hb
  exact h8 _ _ (h8 _ _ (h8 _ _ (hb 0) (hb 1)) (hb 2)) (hb 3)

theorem sdd_pass_iff (cl : Nat) (x : transceive_result) (hb : Buf.bytes x.rx) :
    sdd_pass cl x ↔ x.rx_bits = 40 ∧ spec_bcc_ok x ∧ (cl = 0 → x.rx 0 = 0x88) := by
  unfold sdd_pass
  rw [bcc_mod x.rx hb]
  simp only [NFC_CASCADE_TAG, ne_eq, not_and, not_not]
  constructor
  · rintro ⟨h1, h2, h3⟩
    exact ⟨by simpa using h1, h2.symm, h3⟩
  · rintro ⟨h1, h2, h3⟩
    exact ⟨by simpa using h1, h2.symm, h3⟩

theorem sel_pass_iff (cl : Nat) (crc : crc16_ccitt) (y : transceive_result)
    (hc : y.s.crc = crc) :
    sel_pass cl y ↔ y.rx_bits = 24 ∧ spec_crc_ok crc y 1
      ∧ (if cl = 0 then spec_cascade_bit y else ¬ spec_cascade_bit y) := by
  unfold sel_pass
  rw [hc]
  have hcrc : ¬ ((compute_crc crc y.rx 1).1 ≠ y.rx 1 ∨ (compute_crc crc y.rx 1).2 ≠ y.rx 2)
      ↔ compute_crc crc y.rx 1 = (y.rx 1, y.rx (1 + 1)) := by
    constructor
    · intro h
      push_neg at h
      exact Prod.ext h.1 h.2
    · intro h
      rw [h]
      simp
  rw [hcrc]

theorem version_pass_iff (crc : crc16_ccitt) (v : transceive_result) (hc : v.s.crc = crc) :
    version_pass v ↔ v.rx_bits = 80 ∧ spec_crc_ok crc v 8 := by
  unfold version_pass
  rw [hc]
  have hcrc : ¬ ((compute_crc crc v.rx 8).1 ≠ v.rx 8 ∨ (compute_crc crc v.rx 8).2 ≠ v.rx 9)
      ↔ compute_crc crc v.rx 8 = (v.rx 8, v.rx (8 + 1)) := by
    constructor
    · intro h
      push_neg at h
      exact Prod.ext h.1 h.2
    · intro h
      rw [h]
      simp
  rw [hcrc]
  constructor
  · rintro ⟨h1, h2⟩
    exact ⟨by simpa using h1, h2⟩
  · rintro ⟨h1, h2⟩
    exact ⟨by simpa using h1, h2⟩

/-- When everything up to the level-1 select is well-formed, cascade level 1 succeeds
and ends with the level-1 select exchange. -/
theorem passed_sel1_level (s : rc522c_state) (h : Hal)
    (hp : passed_sel1 s.crc (spec_select_trace s h)) (m0 : transceive_result)
    (hm0 : rc522c_ntag_select_cl 0 (spec_select_trace s h).reqa.s (spec_select_trace s h).reqa.h
        (spec_select_trace s h).reqa.rx (spec_select_trace s h).reqa.rx_bits = some m0) :
    m0 = (spec_select_trace s h).sel1 := by
  obtain ⟨_, ⟨_, _, b1⟩, ⟨_, c2, _⟩, _⟩ := select_trace_facts s h
  obtain ⟨⟨_, x1, x2, x3, x4⟩, y1, y2, y3, y4⟩ := hp
  have hsdd : sdd_pass 0 (spec_select_trace s h).sdd1 :=
    (sdd_pass_iff 0 _ b1).mpr ⟨x2, x3, fun _ => x4⟩
  have hsel : sel_pass 0 (spec_select_trace s h).sel1 :=
    (sel_pass_iff 0 s.crc _ c2).mpr ⟨y2, y3, by rw [if_pos rfl]; exact y4⟩
  exact (select_cl_spec 0 _ _ _ _ m0 hm0).2.2.2.2 x1 hsdd y1 hsel

/-- When everything up to the level-2 select is well-formed, cascade level 2 succeeds
and ends with the level-2 select exchange. -/
theorem passed_sel2_level (s : rc522c_state) (h : Hal)
    (hp : passed_sel2 s.crc (spec_select_trace s h)) (m1 : transceive_result)
    (hm1 : rc522c_ntag_select_cl 1 (spec_select_trace s h).sel1.s (spec_select_trace s h).sel1.h
        (spec_select_trace s h).sel1.rx (spec_select_trace s h).sel1.rx_bits = some m1) :
    m1 = (spec_select_trace s h).sel2 := by
  obtain ⟨_, _, _, ⟨_, _, b3⟩, ⟨_, c4, _⟩, _⟩ := select_trace_facts s h
  obtain ⟨⟨_, x1, x2, x3⟩, y1, y2, y3, y4⟩ := hp
  have hsdd : sdd_pass 1 (spec_select_trace s h).sdd2 :=
    (sdd_pass_iff 1 _ b3).mpr ⟨x2, x3, fun hc => absurd hc (by decide)⟩
  have hsel : sel_pass 1 (spec_select_trace s h).sel2 :=
    (sel_pass_iff 1 s.crc _ c4).mpr ⟨y2, y3, by rw [if_neg (by decide)]; exact y4⟩
  exact (select_cl_spec 1 _ _ _ _ m1 hm1).2.2.2.2 x1 hsdd y1 hsel

/-- What a select run returns once everything up to the level-1 select is known to be
well-formed: what cascade level 2 left, when that is not SUCCESS. -/
theorem passed_sel1_select (s : rc522c_state) (h : Hal) (r : status_result)
    (hr : rc522c_ntag_select s h = some r)
    (hp : passed_sel1 s.crc (spec_select_trace s h)) :
    ∃ m1, rc522c_ntag_select_cl 1 (spec_select_trace s h).sel1.s (spec_select_trace s h).sel1.h
        (spec_select_trace s h).sel1.rx (spec_select_trace s h).sel1.rx_bits = some m1
      ∧ (m1.status ≠ .SUCCESS → r = ⟨m1.status, m1.s, m1.h⟩)
      ∧ (m1.status = .SUCCESS → m1 = (spec_select_trace s h).sel2
          ∧ r = rc522c_ntag_select_version_end (spec_select_trace s h).version) := by
  obtain ⟨m0, hm0, _, ub⟩ := (select_unfold s h r hr).2.2 hp.1.1.1 hp.1.1.2
  have e0 := passed_sel1_level s h hp m0 hm0
  exact (ub (by rw [e0]; exact hp.2.1)).2

/-- The result of a select run once both cascade levels are known to be well-formed. -/
theorem passed_sel2_select (s : rc522c_state) (h : Hal) (r : status_result)
    (hr : rc522c_ntag_select s h = some r)
    (hp : passed_sel2 s.crc (spec_select_trace s h)) :
    r = rc522c_ntag_select_version_end (spec_select_trace s h).version := by
  obtain ⟨m1, hm1, _, v2⟩ := passed_sel1_select s h r hr hp.1.1
  have e1 := passed_sel2_level s h hp m1 hm1
  exact (v2 (by rw [e1]; exact hp.2.1)).2

/-- C2 (as stated) fails: with REQA, both anti-collision and both select replies
well-formed, a GET_VERSION exchange that succeeds with 4 bits (not 80) whose nibble is
0x0 makes `rc522c_ntag_select` return TAG_NAK, not TAG_UNSUPPORTED. -/
theorem select_version_nak_not_unsupported :
    passed_sel2 state0.crc (spec_select_trace state0 (mockHal mockVersionNak))
    ∧ (spec_select_trace state0 (mockHal mockVersionNak)).version.status = .SUCCESS
    ∧ (spec_select_trace state0 (mockHal mockVersionNak)).version.rx_bits ≠ 80
    ∧ (rc522c_ntag_select state0 (mockHal mockVersionNak)).map (fun r => r.status)
        = some .ERROR_TAG_NAK
    ∧ (rc522c_ntag_select state0 (mockHal mockVersionNak)).map (fun r => r.status)
        ≠ some .ERROR_TAG_UNSUPPORTED := by
  refine ⟨?_, ?_, ?_, ?_, ?_⟩ <;> decide!

/-- C2 (amended): when the FIFO-level register never reports more than 64 bytes,
`rc522c_ntag_select` returns, and whenever the exchange in question itself succeeds and
all earlier replies were well-formed, a malformed reply gives TAG_UNSUPPORTED with
`tag_selected` 0: a REQA reply that is not 16 bits; an anti-collision reply (level 1 or
2) that is not 40 bits or whose check byte is not the XOR of the 4 id bytes; a select
reply that is not 24 bits, or has a CRC mismatch, or has the cascade bit clear at level 1
or set at level 2; a GET_VERSION reply that is not a 4-bit NAK and is not 80 bits or has
a CRC mismatch. A GET_VERSION reply of exactly 4 bits whose low nibble is not 0xA gives
TAG_NAK instead, with that nibble as `error_code`, still with `tag_selected` 0. -/
theorem rc522c_ntag_select_malformed (s : rc522c_state) (h : Hal) (hf : h.fifo_level_le 64) :
    let t := spec_select_trace s h
    ∃ r, rc522c_ntag_select s h = some r
    ∧ (t.reqa.status = .SUCCESS → t.reqa.rx_bits ≠ 16 →
        r.status = .ERROR_TAG_UNSUPPORTED ∧ r.s.tag_selected = 0)
    ∧ (passed_reqa t → t.sdd1.status = .SUCCESS →
        (t.sdd1.rx_bits ≠ 40 ∨ ¬ spec_bcc_ok t.sdd1) →
        r.status = .ERROR_TAG_UNSUPPORTED ∧ r.s.tag_selected = 0)
    ∧ (passed_sdd1 t → t.sel1.status = .SUCCESS →
        (t.sel1.rx_bits ≠ 24 ∨ ¬ spec_crc_ok s.crc t.sel1 1 ∨ ¬ spec_cascade_bit t.sel1) →
        r.status = .ERROR_TAG_UNSUPPORTED ∧ r.s.tag_selected = 0)
    ∧ (passed_sel1 s.crc t → t.sdd2.status = .SUCCESS →
        (t.sdd2.rx_bits ≠ 40 ∨ ¬ spec_bcc_ok t.sdd2) →
        r.status = .ERROR_TAG_UNSUPPORTED ∧ r.s.tag_selected = 0)
    ∧ (passed_sdd2 s.crc t → t.sel2.status = .SUCCESS →
        (t.sel2.rx_bits ≠ 24 ∨ ¬ spec_crc_ok s.crc t.sel2 1 ∨ spec_cascade_bit t.sel2) →
        r.status = .ERROR_TAG_UNSUPPORTED ∧ r.s.tag_selected = 0)
    ∧ (passed_sel2 s.crc t → t.version.status = .SUCCESS → ¬ is_nak t.version →
        (t.version.rx_bits ≠ 80 ∨ ¬ spec_crc_ok s.crc t.version 8) →
        r.status = .ERROR_TAG_UNSUPPORTED ∧ r.s.tag_selected = 0)
    ∧ (passed_sel2 s.crc t → t.version.status = .SUCCESS → is_nak t.version →
        r.status = .ERROR_TAG_NAK ∧ r.s.error_code = (t.version.rx 0 &&& 0xF : Nat)
        ∧ r.s.tag_selected = 0) := by
  intro t
  obtain ⟨r, hr⟩ := select_defined s h hf
  refine ⟨r, hr, ?_⟩
  have fin : ∀ st : rc522c_status, st ≠ .SUCCESS → r.status = st →
      r.status = st ∧ r.s.tag_selected = 0 := by
    intro st hst hst'
    exact ⟨hst', (select_spec_of_some s h r hr).2.1 (by rw [hst']; exact hst)⟩
  obtain ⟨u1, u2, u3⟩ := select_unfold s h r hr
  obtain ⟨_, ⟨_, _, b1⟩, ⟨_, c2, _⟩, ⟨_, _, b3⟩, ⟨_, c4, _⟩, ⟨_, c5, _⟩⟩ :=
    select_trace_facts s h
  obtain ⟨z1, z2, z3, z4⟩ := select_version_spec t.version
  refine ⟨?_, ?_, ?_, ?_, ?_, ?_, ?_⟩
  · intro h0 h1
    refine fin _ (by decide) ?_
    rw [u2 h0 h1]
  · rintro ⟨h0, h1⟩ hx hbad
    obtain ⟨m0, hm0, ua, _⟩ := u3 h0 h1
    obtain ⟨k1, k2, k3, k4, k5⟩ :=
      select_cl_spec 0 t.reqa.s t.reqa.h t.reqa.rx t.reqa.rx_bits m0 hm0
    have hnp : ¬ sdd_pass 0 t.sdd1 := by
      rw [sdd_pass_iff 0 _ b1]
      rintro ⟨p1, p2, _⟩
      rcases hbad with hb | hb
      · exact hb p1
      · exact hb p2
    have hm := (k2 hx hnp).1
    refine fin _ (by decide) ?_
    rw [ua (by rw [hm]; decide)]
    exact hm
  · rintro ⟨⟨h0, h1⟩, x1, x2, x3, x4⟩ hy hbad
    obtain ⟨m0, hm0, ua, _⟩ := u3 h0 h1
    obtain ⟨k1, k2, k3, k4, k5⟩ :=
      select_cl_spec 0 t.reqa.s t.reqa.h t.reqa.rx t.reqa.rx_bits m0 hm0
    have hsdd : sdd_pass 0 t.sdd1 := (sdd_pass_iff 0 _ b1).mpr ⟨x2, x3, fun _ => x4⟩
    have hnp : ¬ sel_pass 0 t.sel1 := by
      rw [sel_pass_iff 0 s.crc _ c2, if_pos rfl]
      rintro ⟨p1, p2, p3⟩
      rcases hbad with hb | hb | hb
      · exact hb p1
      · exact hb p2
      · exact hb p3
    have hm := (k4 x1 hsdd hy hnp).1
    refine fin _ (by decide) ?_
    rw [ua (by rw [hm]; decide)]
    exact hm
  · intro hp hx hbad
    obtain ⟨m1, hm1, v1, _⟩ := passed_sel1_select s h r hr hp
    obtain ⟨n1, n2, n3, n4, n5⟩ :=
      select_cl_spec 1 t.sel1.s t.sel1.h t.sel1.rx t.sel1.rx_bits m1 hm1
    have hnp : ¬ sdd_pass 1 t.sdd2 := by
      rw [sdd_pass_iff 1 _ b3]
      rintro ⟨p1, p2, _⟩
      rcases hbad with hb | hb
      · exact hb p1
      · exact hb p2
    have hm := (n2 hx hnp).1
    refine fin _ (by decide) ?_
    rw [v1 (by rw [hm]; decide)]
    exact hm
  · rintro ⟨hp, x1, x2, x3⟩ hy hbad
    obtain ⟨m1, hm1, v1, _⟩ := passed_sel1_select s h r hr hp
    obtain ⟨n1, n2, n3, n4, n5⟩ :=
      select_cl_spec 1 t.sel1.s t.sel1.h t.sel1.rx t.sel1.rx_bits m1 hm1
    have hsdd : sdd_pass 1 t.sdd2 :=
      (sdd_pass_iff 1 _ b3).mpr ⟨x2, x3, fun hc => absurd hc (by decide)⟩
    have hnp : ¬ sel_pass 1 t.sel2 := by
      rw [sel_pass_iff 1 s.crc _ c4, if_neg (by decide)]
      rintro ⟨p1, p2, p3⟩
      rcases hbad with hb | hb | hb
      · exact hb p1
      · exact hb p2
      · exact p3 hb
    have hm := (n4 x1 hsdd hy hnp).1
    refine fin _ (by decide) ?_
    rw [v1 (by rw [hm]; decide)]
    exact hm
  · intro hp hv hn hbad
    have hr' := passed_sel2_select s h r hr hp
    have hnp : ¬ version_pass t.version := by
      rw [version_pass_iff s.crc _ c5]
      rintro ⟨p1, p2⟩
      rcases hbad with hb | hb
      · exact hb p1
      · exact hb p2
    refine fin _ (by decide) ?_
    rw [hr']
    exact (z3 hv hn hnp).1
  · intro hp hv hn
    have hr' := passed_sel2_select s h r hr hp
    have e := z2 hv hn
    have hst : r.status = .ERROR_TAG_NAK := by rw [hr', e]
    refine ⟨hst, ?_, (fin _ (by decide) hst).2⟩
    rw [hr', e]
    rfl

/-- C2 witness: a level-1 anti-collision reply with a wrong check byte is rejected as
TAG_UNSUPPORTED. -/
theorem rc522c_ntag_select_malformed_witness :
    (mockHal [mockBytes [0x44, 0x00], mockBytes [0x88, 0x04, 0x11, 0x22, 0x00]]).fifo_level_le 64
    ∧ passed_reqa (spec_select_trace state0
        (mockHal [mockBytes [0x44, 0x00], mockBytes [0x88, 0x04, 0x11, 0x22, 0x00]]))
    ∧ ∃ r, rc522c_ntag_select state0
          (mockHal [mockBytes [0x44, 0x00], mockBytes [0x88, 0x04, 0x11, 0x22, 0x00]]) = some r
      ∧ r.status = .ERROR_TAG_UNSUPPORTED ∧ r.s.tag_selected = 0 := by
  have hf : (mockHal [mockBytes [0x44, 0x00],
      mockBytes [0x88, 0x04, 0x11, 0x22, 0x00]]).fifo_level_le 64 :=
    mockHal_fifo_level_le _ (by decide)
  obtain ⟨r, hr, _, c2, _⟩ := rc522c_ntag_select_malformed state0
    (mockHal [mockBytes [0x44, 0x00], mockBytes [0x88, 0x04, 0x11, 0x22, 0x00]]) hf
  exact ⟨hf, by decide!, r, hr, c2 (by decide!) (by decide!) (Or.inr (by decide!))⟩

/-! ## The request frames -/

theorem ofList_append_zeros (body : List Nat) :
    Buf.ofList (body ++ [0, 0]) = Buf.ofList body := by
  funext j
  simp only [Buf.ofList, List.getD_eq_getElem?_getD]
  by_cases h : j < body.length
  · rw [List.getElem?_append_left h]
  · rw [List.getElem?_append_right (by omega), List.getElem?_eq_none (l := body) (by omega)]
    rcases hk : j - body.length with _ | _ | k <;> simp

theorem ofList_set_crc (body : List Nat) (x y : Nat) :
    ((Buf.ofList (body ++ [0, 0])).set body.length x).set (body.length + 1) y
      = Buf.ofList (body ++ [x, y]) := by
  funext j
  simp only [Buf.set, Buf.ofList, List.getD_eq_getElem?_getD]
  by_cases h : j < body.length
  · have h1 : j ≠ body.length + 1 := by omega
    have h2 : j ≠ body.length := by omega
    rw [if_neg h1, if_neg h2, List.getElem?_append_left h, List.getElem?_append_left h]
  · rw [List.getElem?_append_right (by omega), List.getElem?_append_right (by omega)]
    by_cases h1 : j = body.length + 1
    · subst h1
      simp
    · rw [if_neg h1]
      by_cases h2 : j = body.length
      · subst h2
        simp
      · rw [if_neg h2]
        have : ∃ k, j - body.length = k + 2 := ⟨j - body.length - 2, by omega⟩
        obtain ⟨k, hk⟩ := this
        rw [hk]
        simp

/-- The frame built by zero-initialising the CRC slots, computing the CRC over the body
and storing it is the spec's frame. -/
theorem crc_frame_eq (crc : crc16_ccitt) (body : List Nat) :
    ((Buf.ofList (body ++ [0, 0])).set body.length
        (compute_crc crc (Buf.ofList (body ++ [0, 0])) body.length).1).set (body.length + 1)
        (compute_crc crc (Buf.ofList (body ++ [0, 0])) body.length).2
      = Buf.ofList (spec_crc_frame crc body) := by
  rw [ofList_set_crc, ofList_append_zeros]
  rfl

theorem cl_selectors_eq (cl : Nat) (hcl : cl < 2) : cl_selectors cl = spec_level_selector cl := by
  interval_cases cl <;> rfl

theorem crc_get_version (c0 : crc16_ccitt) :
    compute_crc (init_crc16_ccitt c0) (Buf.ofList [0x60]) 1 = (0xF8, 0x32) := by
  have h3 : (init_crc16_ccitt c0).lut 3 = 0x329B := by
    rw [init_lut_eq_spec c0 3 (by norm_num)]; decide
  have hx : (0x6363 ^^^ 0x60) % 256 = 3 := by decide
  simp only [compute_crc, compute_crc_loop, Buf.ofList, List.getD_cons_zero, hx, h3]
  decide

theorem get_version_frame (s : rc522c_state) (h : Hal) (rx : Buf) (rx_bits : Int) :
    rc522c_ntag_select_get_version s h rx rx_bits
      = rc522c_transceive s h (Buf.ofList (spec_crc_frame s.crc [0x60])) 24 rx rx_bits := by
  rw [← crc_frame_eq]
  rfl

/-- C16: every request frame the protocol layer hands to `rc522c_transceive` has the
documented layout. REQA is the byte 0x26 sent as 7 bits; the anti-collision request of a
level is (0x93 or 0x95, 0x20) sent as 16 bits; the select request is the level selector,
0x70 and the 5 bytes of the anti-collision reply followed by the CRC over these 7 bytes,
72 bits; GET_VERSION is 0x60 with its CRC, which is (0x60, 0xF8, 0x32) once the table is
initialised (also at the point where a select run sends it); READ is (0x30, page, CRC),
WRITE is (0xA2, page, 4 data bytes, CRC), PWD_AUTH is (0x1B, 4 password bytes, CRC); and
each whole-byte frame is sent with bit count 8 times its length. (For READ, WRITE and
PWD_AUTH the exchange is the one `rc522c_transceive` call with that frame, guarded by
`rx64` for the local array `rx`.) -/
theorem request_frames_layout (s : rc522c_state) (h : Hal) (rx : Buf) (rx_bits : Int)
    (cl page : Nat) (inp pwd : Buf) (hcl : cl < 2) :
    rc522c_ntag_select_reqa s h rx rx_bits
        = rc522c_transceive s h (Buf.ofList [0x26]) 7 rx rx_bits
    ∧ rc522c_ntag_select_sdd cl s h rx rx_bits
        = rc522c_transceive s h (Buf.ofList [spec_level_selector cl, 0x20])
            (8 * [spec_level_selector cl, 0x20].length) rx rx_bits
    ∧ rc522c_ntag_select_sel cl s h rx rx_bits
        = rc522c_transceive s h
            (Buf.ofList (spec_crc_frame s.crc
              [spec_level_selector cl, 0x70, rx 0, rx 1, rx 2, rx 3, rx 4]))
            (8 * (spec_crc_frame s.crc
              [spec_level_selector cl, 0x70, rx 0, rx 1, rx 2, rx 3, rx 4]).length) rx rx_bits
    ∧ (spec_crc_frame s.crc
        [spec_level_selector cl, 0x70, rx 0, rx 1, rx 2, rx 3, rx 4]).length = 9
    ∧ rc522c_ntag_select_get_version s h rx rx_bits
        = rc522c_transceive s h (Buf.ofList (spec_crc_frame s.crc [0x60]))
            (8 * (spec_crc_frame s.crc [0x60]).length) rx rx_bits
    ∧ (∀ c0, s.crc = init_crc16_ccitt c0 →
        spec_crc_frame s.crc [0x60] = [0x60, 0xF8, 0x32]
        ∧ (spec_select_trace s h).version
            = rc522c_transceive (spec_select_trace s h).sel2.s (spec_select_trace s h).sel2.h
                (Buf.ofList [0x60, 0xF8, 0x32]) (8 * 3) (spec_select_trace s h).sel2.rx
                (spec_select_trace s h).sel2.rx_bits)
    ∧ rc522c_ntag_read_xfer s h page
        = rx64 s h (rc522c_transceive s h (Buf.ofList (spec_crc_frame s.crc [0x30, page]))
            (8 * (spec_crc_frame s.crc [0x30, page]).length) h.uninitBuf (h.uninit 64))
    ∧ rc522c_ntag_write_xfer s h page inp
        = rx64 s h (rc522c_transceive s h
            (Buf.ofList (spec_crc_frame s.crc [0xA2, page, inp 0, inp 1, inp 2, inp 3]))
            (8 * (spec_crc_frame s.crc [0xA2, page, inp 0, inp 1, inp 2, inp 3]).length)
            h.uninitBuf (h.uninit 64))
    ∧ rc522c_ntag_authenticate_xfer s h pwd
        = rx64 s h (rc522c_transceive s h
            (Buf.ofList (spec_crc_frame s.crc [0x1B, pwd 0, pwd 1, pwd 2, pwd 3]))
            (8 * (spec_crc_frame s.crc [0x1B, pwd 0, pwd 1, pwd 2, pwd 3]).length)
            h.uninitBuf (h.uninit 64)) := by
  refine ⟨rfl, ?_, ?_, rfl, get_version_frame s h rx rx_bits, ?_, ?_, ?_, ?_⟩
  · rw [← cl_selectors_eq cl hcl]
    rfl
  · rw [← cl_selectors_eq cl hcl, ← crc_frame_eq]
    rfl
  · intro c0 hc
    have hf : ∀ crc : crc16_ccitt, crc = init_crc16_ccitt c0 →
        spec_crc_frame crc [0x60] = [0x60, 0xF8, 0x32] := by
      intro crc e
      unfold spec_crc_frame
      rw [e, show [0x60].length = 1 from rfl, crc_get_version]
      rfl
    refine ⟨hf _ hc, ?_⟩
    have h4 : (spec_select_trace s h).sel2.s.crc = s.crc := (select_trace_facts s h).2.2.2.2.1.2.1
    have e : (spec_select_trace s h).version
        = rc522c_ntag_select_get_version (spec_select_trace s h).sel2.s
            (spec_select_trace s h).sel2.h (spec_select_trace s h).sel2.rx
            (spec_select_trace s h).sel2.rx_bits := rfl
    rw [e, get_version_frame, hf _ (h4.trans hc)]
  · rw [← crc_frame_eq]
    rfl
  · rw [← crc_frame_eq]
    rfl
  · rw [← crc_frame_eq]
    rfl

/-- C16 witness: on the initialised state, the level-1 select request echoing the reply
`88 04 11 22 BF` is the 9-byte frame `93 70 88 04 11 22 BF` plus CRC, and GET_VERSION is
`60 F8 32`. -/
theorem request_frames_layout_witness :
    (0 : Nat) < 2
    ∧ rc522c_ntag_select_sel 0 state0 (mockHal []) (Buf.ofList [0x88, 0x04, 0x11, 0x22, 0xBF]) 40
        = rc522c_transceive state0 (mockHal [])
            (Buf.ofList (spec_crc_frame state0.crc [0x93, 0x70, 0x88, 0x04, 0x11, 0x22, 0xBF]))
            72 (Buf.ofList [0x88, 0x04, 0x11, 0x22, 0xBF]) 40
    ∧ spec_crc_frame state0.crc [0x60] = [0x60, 0xF8, 0x32] :=
  ⟨by decide,
    (request_frames_layout state0 (mockHal []) (Buf.ofList [0x88, 0x04, 0x11, 0x22, 0xBF]) 40
      0 0 (fun _ => 0) (fun _ => 0) (by decide)).2.2.1,
    ((request_frames_layout state0 (mockHal []) (Buf.ofList [0x88, 0x04, 0x11, 0x22, 0xBF]) 40
      0 0 (fun _ => 0) (fun _ => 0) (by decide)).2.2.2.2.2.1 ⟨fun _ => 0⟩ rfl).1⟩

/-! ## The exposed select -/

theorem engine_ite (c : Prop) [Decidable c] (a b : transceive_result)
    (ha : engine_status a.status) (hb : engine_status b.status) :
    engine_status (if c then a else b).status := by
  split
  · exact ha
  · exact hb

theorem transceive_receive_status (s : rc522c_state) (h : Hal) (irq : Nat) (rx : Buf)
    (rx_bits : Int) : engine_status (transceive_receive s h irq rx rx_bits).status := by
  unfold transceive_receive
  simp only []
  repeat' refine engine_ite _ _ _ (by simp [engine_status]) ?_
  split <;> simp [engine_status]

theorem transceive_status (s : rc522c_state) (h : Hal) (tx : Buf) (tx_bits : Nat) (rx : Buf)
    (rx_bits : Int) : engine_status (rc522c_transceive s h tx tx_bits rx rx_bits).status := by
  unfold rc522c_transceive
  split
  · simp [engine_status]
  · simp only []
    split
    · simp [engine_status]
    · exact transceive_receive_status _ _ _ _ _

theorem select_of_engine (st : rc522c_status) (h : engine_status st) : select_status st := by
  rcases h with h | h | h | h <;> rw [h] <;> simp [select_status]

theorem select_cl_end_status (cl : Nat) (y : transceive_result)
    (hy : select_status y.status) : select_status (rc522c_ntag_select_cl_end cl y).status := by
  obtain ⟨c1, c2, c3⟩ := select_cl_end_spec cl y
  by_cases h1 : y.status = .SUCCESS
  · by_cases h2 : sel_pass cl y
    · rw [c3 h1 h2]
      exact hy
    · rw [(c2 h1 h2).1]
      simp [select_status]
  · rw [c1 h1]
    exact hy

theorem select_cl_status (cl : Nat) (s : rc522c_state) (h : Hal) (rx : Buf) (rx_bits : Int)
    (r : transceive_result) (hr : rc522c_ntag_select_cl cl s h rx rx_bits = some r) :
    select_status r.status := by
  obtain ⟨c1, c2, c3, c4, c5⟩ := select_cl_spec cl s h rx rx_bits r hr
  have ex : select_status (rc522c_ntag_select_sdd cl s h rx rx_bits).status :=
    select_of_engine _ (transceive_status _ _ _ _ _ _)
  have ey : select_status (rc522c_ntag_select_sel cl
      (rc522c_ntag_select_nfcid cl (rc522c_ntag_select_sdd cl s h rx rx_bits).s
        (rc522c_ntag_select_sdd cl s h rx rx_bits).rx)
      (rc522c_ntag_select_sdd cl s h rx rx_bits).h (rc522c_ntag_select_sdd cl s h rx rx_bits).rx
      (rc522c_ntag_select_sdd cl s h rx rx_bits).rx_bits).status :=
    select_of_engine _ (transceive_status _ _ _ _ _ _)
  by_cases h1 : (rc522c_ntag_select_sdd cl s h rx rx_bits).status = .SUCCESS
  · by_cases h2 : sdd_pass cl (rc522c_ntag_select_sdd cl s h rx rx_bits)
    · by_cases h3 : (rc522c_ntag_select_sel cl
          (rc522c_ntag_select_nfcid cl (rc522c_ntag_select_sdd cl s h rx rx_bits).s
            (rc522c_ntag_select_sdd cl s h rx rx_bits).rx)
          (rc522c_ntag_select_sdd cl s h rx rx_bits).h
          (rc522c_ntag_select_sdd cl s h rx rx_bits).rx
          (rc522c_ntag_select_sdd cl s h rx rx_bits).rx_bits).status = .SUCCESS
      · by_cases h4 : sel_pass cl (rc522c_ntag_select_sel cl
            (rc522c_ntag_select_nfcid cl (rc522c_ntag_select_sdd cl s h rx rx_bits).s
              (rc522c_ntag_select_sdd cl s h rx rx_bits).rx)
            (rc522c_ntag_select_sdd cl s h rx rx_bits).h
            (rc522c_ntag_select_sdd cl s h rx rx_bits).rx
            (rc522c_ntag_select_sdd cl s h rx rx_bits).rx_bits)
        · rw [c5 h1 h2 h3 h4]
          exact ey
        · rw [(c4 h1 h2 h3 h4).1]
          simp [select_status]
      · rw [c3 h1 h2 h3]
        exact ey
    · rw [(c2 h1 h2).1]
      simp [select_status]
  · rw [c1 h1]
    exact ex

theorem select_version_end_status (v : transceive_result) (hv : select_status v.status) :
    select_status (rc522c_ntag_select_version_end v).status := by
  obtain ⟨c1, c2, c3, c4⟩ := select_version_spec v
  by_cases h1 : v.status = .SUCCESS
  · by_cases h2 : is_nak v
    · rw [c2 h1 h2]
      simp [select_status]
    · by_cases h3 : version_pass v
      · obtain ⟨d1, d2, d3, d4⟩ := c4 h1 h2 h3
        by_cases e1 : v.rx 6 = 0x0F
        · rw [d1 e1]
          simp [select_status]
        · by_cases e2 : v.rx 6 = 0x11
          · rw [d2 e2]
            simp [select_status]
          · by_cases e3 : v.rx 6 = 0x13
            · rw [d3 e3]
              simp [select_status]
            · rw [(d4 e1 e2 e3).1]
              simp [select_status]
      · rw [(c3 h1 h2 h3).1]
        simp [select_status]
  · rw [c1 h1]
    exact hv

/-- A select run that has a result never reports DEV_NOT_RESPONDING. -/
theorem select_status_ok (s : rc522c_state) (h : Hal) (r : status_result)
    (hr : rc522c_ntag_select s h = some r) : select_status r.status := by
  obtain ⟨u1, u2, u3⟩ := select_unfold s h r hr
  have e0 : select_status (spec_select_trace s h).reqa.status :=
    select_of_engine _ (transceive_status _ _ _ _ _ _)
  have ev : select_status (spec_select_trace s h).version.status :=
    select_of_engine _ (transceive_status _ _ _ _ _ _)
  by_cases h0 : (spec_select_trace s h).reqa.status = .SUCCESS
  · by_cases h1 : (spec_select_trace s h).reqa.rx_bits = 16
    · obtain ⟨m0, hm0, ua, ub⟩ := u3 h0 h1
      have s0 := select_cl_status 0 _ _ _ _ m0 hm0
      by_cases h2 : m0.status = .SUCCESS
      · obtain ⟨_, m1, hm1, va, vb⟩ := ub h2
        have s1 := select_cl_status 1 _ _ _ _ m1 hm1
        by_cases h3 : m1.status = .SUCCESS
        · rw [(vb h3).2]
          exact select_version_end_status _ ev
        · rw [va h3]
          exact s1
      · rw [ua h2]
        exact s0
    · rw [u2 h0 h1]
      simp [select_status]
  · rw [u1 h0]
    exact e0

/-- The `switch` of `rc522_ntag_try_select`, by status. -/
theorem try_select_cases (cstate : rc522c_state) (h : Hal) (r : status_result)
    (hr : rc522c_ntag_select cstate h = some r) :
    ∃ p, rc522_ntag_try_select cstate h = some p ∧ p.cstate = r.s ∧ p.h = r.h
      ∧ (r.status = .SUCCESS → p.ret = .py_bool true)
      ∧ (r.status = .ERROR_TAG_MISSING ∨ r.status = .ERROR_TAG_UNSUPPORTED →
          p.ret = .py_bool false)
      ∧ (r.status = rc522c_status.ERROR_PIGPIO ∨ r.status = .ERROR_DEV_CMD_FAILED
          ∨ r.status = .ERROR_TAG_NAK →
          p.ret = .null (_raise_error r.s r.status).1 (_raise_error r.s r.status).2) := by
  unfold rc522_ntag_try_select
  rw [hr, Option.some_bind]
  obtain ⟨st, s1, h1⟩ := r
  cases st <;> exact ⟨_, rfl, rfl, rfl, by simp, by simp, by simp⟩

/-- C14 (as stated) fails: when the tag answers GET_VERSION with a 4-bit NAK, the core
status is the tag-level status TAG_NAK and `rc522_ntag_try_select` raises
(RC522TagError), although neither the transport nor the device failed. -/
theorem try_select_raises_on_tag_nak :
    (rc522c_ntag_select state0 (mockHal mockVersionNak)).map (fun r => r.status)
        = some .ERROR_TAG_NAK
    ∧ (rc522_ntag_try_select state0 (mockHal mockVersionNak)).map (fun p => p.ret)
        = some (.null .RC522TagError (.nak_invalid_command_argument 222))
    ∧ (rc522c_ntag_select state0 (mockHal mockVersionNak)).map (fun r => r.status)
        ≠ some rc522c_status.ERROR_PIGPIO
    ∧ (rc522c_ntag_select state0 (mockHal mockVersionNak)).map (fun r => r.status)
        ≠ some .ERROR_DEV_CMD_FAILED :=
  ⟨by decide!, by decide!, by decide!, by decide!⟩

/-- C14 (amended): when the FIFO-level register never reports more than 64 bytes, both
`rc522c_ntag_select` and `rc522_ntag_try_select` return, and `rc522_ntag_try_select`
returns true exactly when the status of `rc522c_ntag_select` is SUCCESS, returns false
exactly when it is TAG_MISSING or TAG_UNSUPPORTED, and raises exactly when it is PIGPIO,
DEV_CMD_FAILED or TAG_NAK (select never returns DEV_NOT_RESPONDING): the first two raise
RC522Error, TAG_NAK raises RC522TagError. The device state and the environment are those
the core left. -/
theorem rc522_ntag_try_select_spec (cstate : rc522c_state) (h : Hal)
    (hf : h.fifo_level_le 64) :
    ∃ r p, rc522c_ntag_select cstate h = some r ∧ rc522_ntag_try_select cstate h = some p
    ∧ (p.ret = .py_bool true ↔ r.status = .SUCCESS)
    ∧ (p.ret = .py_bool false
        ↔ (r.status = .ERROR_TAG_MISSING ∨ r.status = .ERROR_TAG_UNSUPPORTED))
    ∧ ((∃ exc text, p.ret = .null exc text)
        ↔ (r.status = rc522c_status.ERROR_PIGPIO ∨ r.status = .ERROR_DEV_CMD_FAILED
            ∨ r.status = .ERROR_TAG_NAK))
    ∧ r.status ≠ .ERROR_DEV_NOT_RESPONDING
    ∧ (∀ exc text, p.ret = .null exc text →
        (exc = .RC522TagError ↔ r.status = .ERROR_TAG_NAK))
    ∧ p.cstate = r.s
    ∧ p.h = r.h := by
  obtain ⟨r, hr⟩ := select_defined cstate h hf
  obtain ⟨p, hp, hs, hh, c1, c2, c3⟩ := try_select_cases cstate h r hr
  have hn := select_status_ok cstate h r hr
  unfold select_status at hn
  refine ⟨r, p, hr, hp, ?_, ?_, ?_, hn, ?_, hs, hh⟩
  all_goals
    clear hs hh hr hp
    revert c1 c2 c3 hn
    generalize p.ret = q
    generalize r.s = s1
    generalize r.status = st
    intro c1 c2 c3 hn
    cases st
  all_goals simp_all [_raise_error]
  split_ifs <;> rfl

/-- C14 witness: on the NTAG215 scenario the core status is SUCCESS and the exposed
select returns true. -/
theorem rc522_ntag_try_select_spec_witness :
    (mockHal mockNtag215).fifo_level_le 64
    ∧ ∃ r p, rc522c_ntag_select state0 (mockHal mockNtag215) = some r
      ∧ rc522_ntag_try_select state0 (mockHal mockNtag215) = some p
      ∧ r.status = .SUCCESS ∧ p.ret = .py_bool true := by
  have hf : (mockHal mockNtag215).fifo_level_le 64 := mockHal_fifo_level_le _ (by decide)
  obtain ⟨r, p, hr, hp, c1, _⟩ := rc522_ntag_try_select_spec state0 (mockHal mockNtag215) hf
  have hv : (rc522c_ntag_select state0 (mockHal mockNtag215)).map (fun r => r.status)
      = some .SUCCESS := by decide!
  rw [hr] at hv
  simp only [Option.map_some', Option.some.injEq] at hv
  exact ⟨hf, r, p, hr, hp, hv, c1.mpr hv⟩

end RC522
